import Mathlib

/-!
# Notiboy backend: connection registry and chat relay

A shallow embedding of

* `pkg/repo/driver/medium/websocket.go` (the `Socket` connection registry:
  `Add`, `Remove`, `PushMessage`, and the inbound reader of `Add`),
* `pkg/cache/chat_user_block.go` (the blocked-user cache),
* `pkg/repo/chat.go` (`StorePersonalChat`),
* `pkg/usecases/chat.go` (`sendChat`, `sendChatAck`, `userOnlineStatus`,
  `ChatProcessor`),
* `pkg/consts`, `pkg/entities`, `utilities` (tiers, limits, `Encrypt`),
* `pkg/usecases/notifications.go` (`SendNotifications`, the scheduler stub,
  the promoter `notificationScheduler`),
* `pkg/repo/notifications.go` (the two inserts, the fetch of the due scheduled
  rows, the delete of a scheduled row),
* `pkg/repo/user.go`, `pkg/repo/verify.go` (`GetUserSendMetricsForMonth`, and
  the writers of the column `medium_metadata`: `Onboarding`, `Verify`,
  `Callback`, `CallbackDiscord`),
* `pkg/repo/driver/medium/email.go`, `discord.go` (the dispatch workers),
* `utilities/logo.go` (`ValidateImage`),

followed by the properties proved about them.

Modelling conventions.

* A Go `map[K]V` is a function `K → Option V`; `none` is "key absent".
  A Go pointer that may be `nil` is an `Option`.
* A `*websocket.Conn` is a handle (`Nat`).  Writing on a connection is an
  action of the outside world: it is a function `write` that takes the world,
  the handle and the payload and returns the error text (`none` for a `nil`
  error) with the next world.
* Locks, goroutines and channel capacities are not modelled: every function
  is the sequential body that runs under the registry lock, and of the
  liveness goroutine only the two assignments after a successful ping
  (`IsOnline`, `LastChecked`) are modelled, as `healthPing`.
* Go `int64` Unix times are `Int`.
-/

set_option autoImplicit false

namespace Notiboy

/-! ## `websocket.go`: data model -/

/-- The two error values `PushMessage` can return: the `*ErrWSConnAbsent`
struct (fields `Message`, `ID`) and the `fmt.Errorf` text. -/
inductive WSError where
  | connAbsent (Message : String) (ID : String)
  | failed (text : String)
  deriving DecidableEq, Repr

/-- Go `ConnObject`: the connection id and the connection handle
(the `Close` channel only serves the liveness goroutine). -/
structure ConnObject where
  ID : String
  Conn : Nat
  deriving DecidableEq, Repr

/-- Go `UserConnObject`. -/
structure UserConnObject where
  ConnObjs : List ConnObject
  IsOnline : Bool
  LastChecked : Int
  deriving DecidableEq, Repr

/-- Go `Socket`: `ConnSet map[string]*UserConnObject` and `WithReader`. -/
structure Socket where
  ConnSet : String → Option (Option UserConnObject)
  WithReader : Bool

/-- Go `Message` (the inbound and outbound frame). -/
structure Message where
  Data : String
  Receiver : String
  Chain : String
  Sender : String
  Time : Int
  Kind : String
  UUID : String
  deriving DecidableEq, Repr

/-- Go `FormatIdentifier`. -/
def FormatIdentifier (chain address : String) : String :=
  chain ++ "_" ++ address

/-- Go `NewWebSocket`: an empty registry. -/
def NewWebSocket (withReader : Bool) : Socket :=
  { ConnSet := fun _ => none, WithReader := withReader }

/-- Map assignment `s.ConnSet[id] = v`. -/
def Socket.setEntry (s : Socket) (id : String) (v : Option UserConnObject) : Socket :=
  { s with ConnSet := fun k => if k = id then some v else s.ConnSet k }

/-- Map deletion `delete(s.ConnSet, id)`. -/
def Socket.deleteEntry (s : Socket) (id : String) : Socket :=
  { s with ConnSet := fun k => if k = id then none else s.ConnSet k }

/-! ## `Socket.Add` -/

/-- Go `Socket.Add` (websocket.go 71-187), the registry part.  `newUserConn` is the
accepted connection, `newID` the value returned by `uuidLib.NewString()`.
The entry is created when the key is absent (81-85) and the new `ConnObject`
is appended (183-185).  When the key is present with a `nil` pointer the
dereference on line 183 panics: the result is `none`. -/
def Add (s : Socket) (chain address : String) (newUserConn : Nat) (newID : String) :
    Option Socket :=
  let id := FormatIdentifier chain address
  let s1 : Socket :=
    match s.ConnSet id with
    | none => s.setEntry id (some { ConnObjs := [], IsOnline := false, LastChecked := 0 })
    | some _ => s
  let connObj : ConnObject := { ID := newID, Conn := newUserConn }
  match s1.ConnSet id with
  | some (some u) => some (s1.setEntry id (some { u with ConnObjs := u.ConnObjs ++ [connObj] }))
  | _ => none

/-! ## `Socket.Remove` -/

/-- The loop of `Remove` (204-214): the connections whose id differs from
`connID` are appended, in order, to `acceptedConns`. -/
def acceptedConns (connID : String) (connObjs : List ConnObject) : List ConnObject :=
  connObjs.foldl (fun acc connObj => if connObj.ID = connID then acc else acc ++ [connObj]) []

/-- Go `Socket.Remove` (189-221). -/
def Remove (s : Socket) (identifier connID : String) : Socket :=
  match s.ConnSet identifier with
  | none => s
  | some none => s
  | some (some userConnObj) =>
    let accepted := acceptedConns connID userConnObj.ConnObjs
    if accepted.length = 0 then
      s.deleteEntry identifier
    else
      s.setEntry identifier (some { userConnObj with ConnObjs := accepted })

/-! ## `Socket.PushMessage` -/

/-- The state of the loop of `PushMessage`: the world, the `sent` flag, the
`pushErrors` slice and (for the proofs) the log of attempted writes with
their outcomes. -/
structure PushState (σ : Type) where
  world : σ
  sent : Bool
  pushErrors : List String
  attempts : List (ConnObject × Option String)

/-- One iteration of the loop of `PushMessage` (267-277). -/
def pushStep {σ : Type} (write : σ → Nat → String → Option String × σ) (data : String)
    (st : PushState σ) (connObj : ConnObject) : PushState σ :=
  match write st.world connObj.Conn data with
  | (some err, w) =>
    { world := w, sent := st.sent, pushErrors := st.pushErrors ++ [err],
      attempts := st.attempts ++ [(connObj, some err)] }
  | (none, w) =>
    { world := w, sent := true, pushErrors := st.pushErrors,
      attempts := st.attempts ++ [(connObj, none)] }

/-- What a call of `PushMessage` leaves behind: the returned error (`none` for
`nil`), the world after the writes, the attempted writes in order, and the
registry after the call. -/
structure PushOutcome (σ : Type) where
  err : Option WSError
  world : σ
  attempts : List (ConnObject × Option String)
  socket : Socket

/-- Go `Socket.PushMessage` (243-284). -/
def PushMessage {σ : Type} (write : σ → Nat → String → Option String × σ)
    (s : Socket) (w : σ) (identifier data : String) (broadcast : Bool) : PushOutcome σ :=
  let absent : PushOutcome σ :=
    { err := some (WSError.connAbsent "ws connection absent" identifier),
      world := w, attempts := [], socket := s }
  match s.ConnSet identifier with
  | none => absent
  | some none => absent
  | some (some userConnObj) =>
    if h : userConnObj.ConnObjs.length < 1 then absent
    else
      let connObjs : List ConnObject :=
        if !broadcast then
          [userConnObj.ConnObjs.get ⟨userConnObj.ConnObjs.length - 1, by omega⟩]
        else userConnObj.ConnObjs
      let st := connObjs.foldl (pushStep write data)
        { world := w, sent := false, pushErrors := [], attempts := [] }
      if !st.sent then
        { err := some (WSError.failed
            ("ws message " ++ data ++ " failed for " ++ identifier ++ ": "
              ++ String.intercalate ":" st.pushErrors)),
          world := st.world, attempts := st.attempts, socket := s }
      else
        { err := none, world := st.world, attempts := st.attempts, socket := s }

/-! ## Histories of `Add` and `Remove` -/

/-- A call on the registry: `Add(chain, address, conn)` (with the id that
`uuidLib.NewString()` gave the connection) or `Remove(identifier, connID)`. -/
inductive RegistryOp where
  | add (chain address : String) (newUserConn : Nat) (newID : String)
  | remove (identifier connID : String)
  deriving DecidableEq, Repr

/-- One call on the registry. -/
def applyOp (s : Socket) : RegistryOp → Option Socket
  | RegistryOp.add chain address newUserConn newID => Add s chain address newUserConn newID
  | RegistryOp.remove identifier connID => some (Remove s identifier connID)

/-- The calls of a history, oldest first. -/
def runOps (s : Socket) : List RegistryOp → Option Socket
  | [] => some s
  | op :: rest => (applyOp s op).bind (fun s1 => runOps s1 rest)

/-- Whether the calls in `later` hold a `Remove(identifier, connID)`. -/
def removedLater (identifier connID : String) (later : List RegistryOp) : Bool :=
  later.any (fun op =>
    match op with
    | RegistryOp.remove i c => decide (i = identifier) && decide (c = connID)
    | RegistryOp.add _ _ _ _ => false)

/-- Written from the words of the property, not from the code: the
connections that a history added to `identifier` by `Add` and did not remove
by a later `Remove`, in the order they were added. Its last element is the
connection most recently added among those not yet removed. -/
def addedNotRemoved (identifier : String) : List RegistryOp → List ConnObject
  | [] => []
  | RegistryOp.add chain address newUserConn newID :: later =>
    if FormatIdentifier chain address = identifier ∧ removedLater identifier newID later = false then
      { ID := newID, Conn := newUserConn } :: addedNotRemoved identifier later
    else addedNotRemoved identifier later
  | RegistryOp.remove _ _ :: later => addedNotRemoved identifier later

/-- The connection list the registry holds for an identity (empty when the
key is absent or the entry is `nil`). -/
def Socket.conns (s : Socket) (identifier : String) : List ConnObject :=
  match s.ConnSet identifier with
  | some (some u) => u.ConnObjs
  | _ => []

/-! ## The inbound reader of `Add` -/

/-- Lines 127-132 of `readerFn`: the owner address replaces an empty sender,
the current Unix time replaces a zero time. -/
def fillDefaults (address : String) (now : Int) (msg : Message) : Message :=
  let msg1 : Message := if msg.Sender = "" then { msg with Sender := address } else msg
  if msg1.Time = 0 then { msg1 with Time := now } else msg1

/-- What one iteration of `readerFn` meets: `ReadMessage` fails, or it gives a
frame, on which `json.Unmarshal` fails (`none`) or gives a `Message`; `now`
is what `utilities.UnixTime()` returns in that iteration. -/
inductive ReadEvent where
  | readError
  | frame (decoded : Option Message) (now : Int)
  deriving DecidableEq, Repr

/-- Go `readerFn` (106-137) for the connection of owner `address`: the
messages sent on `ReadChannel`, in order. A read error ends the loop, a frame
that does not decode is logged and skipped. -/
def readerFn (address : String) : List ReadEvent → List Message
  | [] => []
  | ReadEvent.readError :: _ => []
  | ReadEvent.frame none _ :: rest => readerFn address rest
  | ReadEvent.frame (some msg) now :: rest => fillDefaults address now msg :: readerFn address rest

/-! ## `chat_user_block.go` -/

/-- Go `BlockedUserCacheModel`: `cache map[string]map[string]map[string]bool`,
keyed by chain, user, blocked user. -/
structure BlockedUserCacheModel where
  cache : String → Option (String → Option (String → Option Bool))

/-- The cache `InitBlockedUserCache` starts from. -/
def BlockedUserCacheModel.empty : BlockedUserCacheModel :=
  { cache := fun _ => none }

/-- Go `AddBlockedUserCache`. -/
def AddBlockedUserCache (c : BlockedUserCacheModel) (chain user blockedUser : String) :
    BlockedUserCacheModel :=
  let byUser : String → Option (String → Option Bool) :=
    match c.cache chain with
    | none => fun _ => none
    | some m => m
  let blockedSet : String → Option Bool :=
    match byUser user with
    | none => fun _ => none
    | some m => m
  let blockedSet1 : String → Option Bool :=
    fun k => if k = blockedUser then some true else blockedSet k
  let byUser1 : String → Option (String → Option Bool) :=
    fun k => if k = user then some blockedSet1 else byUser k
  { cache := fun k => if k = chain then some byUser1 else c.cache k }

/-- Go `IsBlockedUserInCache` (84-97). A key missing from the innermost map
reads as `false`. -/
def IsBlockedUserInCache (c : BlockedUserCacheModel) (chain user blockedUser : String) : Bool :=
  match c.cache chain with
  | none => false
  | some byUser =>
    match byUser user with
    | none => false
    | some blockedSet => (blockedSet blockedUser).getD false

/-! ## `entities/chat.go` -/

/-- Go `entities.MsgDelivered`. -/
def MsgDelivered : String := "delivered"

/-- Go `entities.MsgSubmitted`. -/
def MsgSubmitted : String := "submitted"

/-- Go `entities.MsgBlocked`. -/
def MsgBlocked : String := "blocked"

/-- Go `entities.UserChatAckKind`. -/
def UserChatAckKind : String := "ack"

/-- Go `entities.UserChatSeenKind`. -/
def UserChatSeenKind : String := "seen"

/-- Go `entities.UserChat`. -/
structure UserChat where
  Chain : String
  UserA : String
  UserB : String
  Sender : String
  Message : String
  Uuid : String
  Status : String
  SentTime : Int
  deriving DecidableEq, Repr

/-- Go `entities.UserChatResponse`. -/
structure UserChatResponse where
  Uuid : String
  Status : String
  Sender : String
  Time : Int
  deriving DecidableEq, Repr

/-- The value handed to `json.Marshal` before a push. -/
inductive Frame where
  | chat (c : UserChat)
  | resp (r : UserChatResponse)
  deriving DecidableEq, Repr

/-- The `messaging.Message` built by `sendChat` (155-172): the notification
title and body, the data map (as key and value pairs, in source order) and
the APNS sound. -/
structure FcmMessage where
  Title : String
  Body : String
  Data : List (String × String)
  Sound : String
  deriving DecidableEq, Repr

/-! ## `repo/chat.go`: the `user_chat` table -/

/-- The `user_chat` table, `PRIMARY KEY ((chain, user_a), user_b, sent_time)`:
a row for each key. -/
def UserChatTable : Type := String → String → String → Int → Option UserChat

/-- CQL `INSERT INTO user_chat (...) VALUES (...)`: writes the row at its
primary key, replacing a row already there. -/
def UserChatTable.insert (t : UserChatTable) (row : UserChat) : UserChatTable :=
  fun chain userA userB sentTime =>
    if chain = row.Chain ∧ userA = row.UserA ∧ userB = row.UserB ∧ sentTime = row.SentTime then
      some row
    else t chain userA userB sentTime

/-- CQL `UPDATE user_chat SET status = ? WHERE chain = ? AND user_a = ? AND
user_b = ? AND sent_time = ? IF EXISTS`: changes the status of the row at that
key, and nothing when there is no such row. -/
def UserChatTable.updateStatus (t : UserChatTable) (status chain userA userB : String)
    (sentTime : Int) : UserChatTable :=
  fun c a b ts =>
    if c = chain ∧ a = userA ∧ b = userB ∧ ts = sentTime then
      (t c a b ts).map (fun row => { row with Status := status })
    else t c a b ts

/-- Go `ChatRepo.StorePersonalChat` (35-74), on the `user_chat` table: a logged
batch with the row under `(user_a, user_b)` and the row under
`(user_b, user_a)`; `batchOk` is whether `ExecuteBatch` succeeds (a logged
batch that fails writes nothing). The result is the table and whether an
error is returned. The batch statements on `user_chat_contacts` and the
contacts cache touch no state read here. -/
def StorePersonalChat (batchOk : Bool) (t : UserChatTable) (msg : UserChat) :
    UserChatTable × Bool :=
  let row1 : UserChat := msg
  let row2 : UserChat := { msg with UserA := msg.UserB, UserB := msg.UserA }
  if batchOk then ((t.insert row1).insert row2, false) else (t, true)

/-! ## `usecases/chat.go` -/

/-- Go `(*ErrWSConnAbsent).Error` and the text of the `fmt.Errorf` error. -/
def WSError.Error : WSError → String
  | WSError.connAbsent m i => m ++ ", ID: " ++ i
  | WSError.failed t => t

/-- What `sendChat` and `sendChatAck` do to their collaborators, in order. -/
inductive Effect where
  | push (identifier : String) (frame : Frame) (broadcast : Bool) (err : Option WSError)
  | store (chat : UserChat) (ttl : Int)
  | notify (n : FcmMessage)
  | update (status chain userA userB : String) (sentTime : Int)
  deriving DecidableEq, Repr

/-- The state `sendChat` and `sendChatAck` work on: the registry `c.ws`, the
world behind the connections, the `user_chat` table and the contents of the
`c.notifications` channel, oldest first. -/
structure ChatState (σ : Type) where
  ws : Socket
  world : σ
  table : UserChatTable
  notifications : List FcmMessage

/-- The result of `sendChat` or `sendChatAck`: the returned error text (`none`
for `nil`), the state after the call with its deferred function run, and the
effects in the order they happened. -/
structure ChatOutcome (σ : Type) where
  err : Option String
  state : ChatState σ
  effects : List Effect

/-- The `messaging.Message` of lines 155-172. -/
def chatNotification (chatData : UserChat) : FcmMessage :=
  { Title := "Chat from " ++ chatData.UserA,
    Body := chatData.Message,
    Data := [("click_action", "FLUTTER_NOTIFICATION_CLICK"),
             ("chain", chatData.Chain),
             ("user_a", chatData.UserA),
             ("user_b", chatData.UserB),
             ("sender", chatData.Sender),
             ("message", chatData.Message),
             ("uuid", chatData.Uuid),
             ("status", chatData.Status),
             ("sent_time", toString chatData.SentTime)],
    Sound := "default" }

/-- Go `ChatUseCases.sendChat` (114-226). `json` is `json.Marshal` (which does
not fail on these structs of strings and integers), `blocked` the blocked-user
cache, `ttl` the configured `Chat.Personal.Ttl`, `uuid` the value returned by
`uuidLib.NewString()` on line 123, `batchOk` whether the batch of
`StorePersonalChat` succeeds. The deferred function (142-174) runs last. -/
def sendChat {σ : Type} (write : σ → Nat → String → Option String × σ) (json : Frame → String)
    (blocked : BlockedUserCacheModel) (ttl : Int) (uuid : String) (batchOk : Bool)
    (st : ChatState σ) (msg : Message) : ChatOutcome σ :=
  let chain := msg.Chain
  let rcvr := msg.Receiver
  let data := msg.Data
  let msgTime := msg.Time
  let sender := msg.Sender
  let isBlocked : Bool := IsBlockedUserInCache blocked chain rcvr sender
  let chatData : UserChat :=
    { Chain := chain, UserA := sender, UserB := rcvr, Sender := sender, Message := data,
      Uuid := uuid, Status := "", SentTime := msgTime }
  let mChatData := json (Frame.chat chatData)
  -- lines 181-193
  let rcvrID := FormatIdentifier chain rcvr
  let rcvrPush : Option (PushOutcome σ) :=
    if !isBlocked then some (PushMessage write st.ws st.world rcvrID mChatData true) else none
  let errRcvrSend : Option String :=
    match rcvrPush with
    | some o =>
      match o.err with
      | some e => some ("failed to send chat message to " ++ rcvrID ++ ": " ++ e.Error)
      | none => none
    | none => none
  let chatStatus : String :=
    match rcvrPush with
    | some o =>
      match o.err with
      | some _ => MsgSubmitted
      | none => MsgDelivered
    | none => MsgBlocked
  let ws1 : Socket := match rcvrPush with | some o => o.socket | none => st.ws
  let world1 : σ := match rcvrPush with | some o => o.world | none => st.world
  let eff1 : List Effect :=
    match rcvrPush with
    | some o => [Effect.push rcvrID (Frame.chat chatData) true o.err]
    | none => []
  -- lines 195-213: auto acknowledge
  let chatResp : UserChatResponse := { Uuid := uuid, Status := chatStatus, Sender := "", Time := 0 }
  let senderID := FormatIdentifier chain sender
  let mChatResp := json (Frame.resp chatResp)
  let sndrPush := PushMessage write ws1 world1 senderID mChatResp true
  let errSndrSend : Option String :=
    match sndrPush.err with
    | some e => some ("failed to send chat auto ack message to " ++ senderID ++ ": " ++ e.Error)
    | none => none
  let eff2 : List Effect := [Effect.push senderID (Frame.resp chatResp) true sndrPush.err]
  -- lines 215-225
  let err : Option String :=
    match errSndrSend, errRcvrSend with
    | none, none => none
    | some a, some b => some (a ++ ", " ++ b)
    | some a, none => some a
    | none, some b => some b
  -- the deferred function, lines 142-174
  if isBlocked then
    { err := err,
      state := { ws := sndrPush.socket, world := sndrPush.world, table := st.table,
                 notifications := st.notifications },
      effects := eff1 ++ eff2 }
  else
    let chatData1 : UserChat := { chatData with Status := chatStatus }
    let stored := StorePersonalChat batchOk st.table chatData1
    { err := err,
      state := { ws := sndrPush.socket, world := sndrPush.world, table := stored.1,
                 notifications := st.notifications ++ [chatNotification chatData1] },
      effects := eff1 ++ eff2
        ++ [Effect.store chatData1 ttl, Effect.notify (chatNotification chatData1)] }

/-- Go `ChatUseCases.sendChatAck` (228-290). `ackOk` and `seenOk` are whether
the first and the second `UPDATE` of the deferred function execute without
error (a failed statement changes nothing and is only logged). -/
def sendChatAck {σ : Type} (write : σ → Nat → String → Option String × σ) (json : Frame → String)
    (ackOk seenOk : Bool) (st : ChatState σ) (msg : Message) : ChatOutcome σ :=
  let chain := msg.Chain
  let rcvr := msg.Receiver
  let msgTime := msg.Time
  let uuid := msg.UUID
  let sender := msg.Sender
  let rcvrID := FormatIdentifier chain rcvr
  let chatResp : UserChatResponse :=
    { Uuid := uuid, Status := UserChatAckKind, Sender := sender, Time := msgTime }
  let mChatResp := json (Frame.resp chatResp)
  let o := PushMessage write st.ws st.world rcvrID mChatResp true
  let err : Option String :=
    match o.err with
    | some e => some ("failed to send chat ack message to " ++ rcvrID ++ ": " ++ e.Error)
    | none => none
  -- the deferred function, lines 243-277
  let t1 : UserChatTable :=
    if ackOk then st.table.updateStatus UserChatAckKind chain rcvr sender msgTime else st.table
  let t2 : UserChatTable :=
    if seenOk then t1.updateStatus UserChatSeenKind chain sender rcvr msgTime else t1
  { err := err,
    state := { ws := o.socket, world := o.world, table := t2, notifications := st.notifications },
    effects := [Effect.push rcvrID (Frame.resp chatResp) true o.err,
                Effect.update UserChatAckKind chain rcvr sender msgTime,
                Effect.update UserChatSeenKind chain sender rcvr msgTime] }

/-- The identity has no registered connection: the key is absent, the entry
is `nil`, or its connection list is empty. -/
def NoConnection (s : Socket) (identifier : String) : Prop :=
  s.ConnSet identifier = none ∨ s.ConnSet identifier = some none ∨
    ∃ u, s.ConnSet identifier = some (some u) ∧ u.ConnObjs = []

/-- The flag and the error slice of a loop state agree with its log. -/
def PushState.Consistent {σ : Type} (st : PushState σ) : Prop :=
  st.sent = st.attempts.any (fun a => a.2.isNone) ∧
    st.pushErrors = st.attempts.filterMap Prod.snd

/-- The connections `PushMessage` loops over (260-263) when the identity has
the non-empty list `l`. -/
def pushTargets (broadcast : Bool) (l : List ConnObject) (hne : l ≠ []) : List ConnObject :=
  if broadcast then l else [l.getLast hne]

/-- The invariant of the registry that `NewWebSocket` sets up and `Add` and
`Remove` keep: no key holds a `nil` pointer and no key holds an empty
connection list. -/
def Socket.WellFormed (s : Socket) : Prop :=
  ∀ k, s.ConnSet k ≠ some none ∧ ∀ u, s.ConnSet k = some (some u) → u.ConnObjs ≠ []

/-- A world in which every write succeeds. -/
def writeOk : Unit → Nat → String → Option String × Unit :=
  fun _ _ _ => (none, ())

/-- A world in which the write on connection handle `2` succeeds and every
other write fails with `broken pipe`. -/
def writeOnly2 : Unit → Nat → String → Option String × Unit :=
  fun _ conn _ => if conn = 2 then (none, ()) else (some "broken pipe", ())

/-- A world in which every write fails with `broken pipe`. -/
def writeFail : Unit → Nat → String → Option String × Unit :=
  fun _ _ _ => (some "broken pipe", ())

/-- A history: three connections of `algorand_alice` are added, then the
third is removed. -/
def exampleHistory : List RegistryOp :=
  [RegistryOp.add "algorand" "alice" 1 "c1",
   RegistryOp.add "algorand" "alice" 2 "c2",
   RegistryOp.add "algorand" "alice" 3 "c3",
   RegistryOp.remove "algorand_alice" "c3"]

/-- The registry after `exampleHistory`. -/
def exampleSocket : Socket :=
  (runOps (NewWebSocket true) exampleHistory).getD (NewWebSocket true)

/-- Whether an effect is a call of `StorePersonalChat`. -/
def Effect.isStore : Effect → Bool
  | Effect.store _ _ => true
  | _ => false

/-- The `UserChat` that `sendChat` builds on lines 132-140 (its `Status` is
still empty when the frame for the receiver is marshalled). -/
def chatDataOf (uuid : String) (msg : Message) : UserChat :=
  { Chain := msg.Chain, UserA := msg.Sender, UserB := msg.Receiver, Sender := msg.Sender,
    Message := msg.Data, Uuid := uuid, Status := "", SentTime := msg.Time }

/-- A value of `uuidLib.NewString()`: the uuid `sendChat` generates in the
examples. -/
def serverUuid : String := "123e4567-e89b-42d3-a456-426614174000"

/-- The uuid a client put in its chat frame in the examples. -/
def clientUuid : String := "9b2f6c1e-3d4a-4f5b-8c7d-1e2f3a4b5c6d"

/-- A stand-in for `json.Marshal` in the examples. -/
def showFrame : Frame → String
  | Frame.chat c => "chat " ++ c.Uuid ++ " " ++ c.Message
  | Frame.resp r => "resp " ++ r.Uuid ++ " " ++ r.Status

/-- A registry in which `algorand_alice` and `algorand_bob` have one
connection each. -/
def chatSocket : Socket :=
  { ConnSet := fun k =>
      if k = "algorand_alice" then
        some (some { ConnObjs := [{ ID := "c1", Conn := 1 }], IsOnline := true, LastChecked := 90 })
      else if k = "algorand_bob" then
        some (some { ConnObjs := [{ ID := "c2", Conn := 2 }], IsOnline := true, LastChecked := 90 })
      else none,
    WithReader := true }

/-- A chat state over `chatSocket` with an empty `user_chat` table and an empty
notification channel. -/
def chatState : ChatState Unit :=
  { ws := chatSocket, world := (), table := fun _ _ _ _ => none, notifications := [] }

/-- An inbound chat frame from alice to bob, carrying a uuid of the client. -/
def chatMsg : Message :=
  { Data := "hello", Receiver := "bob", Chain := "algorand", Sender := "alice", Time := 100,
    Kind := "chat", UUID := clientUuid }

/-- The ack frame bob sends for the chat, with the uuid the server gave it and
its sent time. -/
def ackMsg : Message :=
  { Data := "", Receiver := "alice", Chain := "algorand", Sender := "bob", Time := 100,
    Kind := "ack", UUID := serverUuid }

/-- The same ack frame with a time that is not the sent time of the chat. -/
def ackMsgLate : Message :=
  { ackMsg with Time := 101 }

/-- A cache in which bob has blocked alice on `algorand`. -/
def bobBlocksAlice : BlockedUserCacheModel :=
  AddBlockedUserCache BlockedUserCacheModel.empty "algorand" "bob" "alice"

/-- The status `sendChat` derives from the error of the push to the receiver
(lines 185-190). -/
def chatStatusOf (errRcvr : Option WSError) : String :=
  match errRcvr with
  | some _ => MsgSubmitted
  | none => MsgDelivered

/-- The state after alice's chat to bob is relayed from `chatState`, with the
uuid `123e4567-e89b-42d3-a456-426614174000` generated for it, nobody blocked
and every write and the batch succeeding. -/
def deliveredState : ChatState Unit :=
  (sendChat writeOk showFrame BlockedUserCacheModel.empty 604800 serverUuid true
    chatState chatMsg).state

/-! ## `consts/billing.go`, `consts/membership.go`, `consts/consts.go` -/

/-- Go `consts.FreeTier` (`MembershipTier` is an `int`, `1 + iota`). -/
def FreeTier : Int := 1

/-- Go `consts.SilverTier`. -/
def SilverTier : Int := 2

/-- Go `consts.GoldTier`. -/
def GoldTier : Int := 3

/-- Go `consts.MembershipStringToEnum`; `trimSpace` and `toLower` are
`strings.TrimSpace` and `strings.ToLower`. A string that is not a key of
`membershipTierStrToEnum` reads as the zero tier `0`. -/
def MembershipStringToEnum (trimSpace toLower : String → String) (tier : String) : Int :=
  if trimSpace tier = "" then FreeTier
  else if toLower tier = "free" then FreeTier
  else if toLower tier = "silver" then SilverTier
  else if toLower tier = "gold" then GoldTier
  else 0

/-- Go `consts.NotificationCharacterCount` (a tier that is no key reads `0`). -/
def NotificationCharacterCount (tier : Int) : Int :=
  if tier = GoldTier then 500 else if tier = SilverTier then 200
  else if tier = FreeTier then 120 else 0

/-- Go `consts.NotificationCount`. -/
def NotificationCount (tier : Int) : Int :=
  if tier = GoldTier then 100000 else if tier = SilverTier then 30000
  else if tier = FreeTier then 1000 else 0

/-- Go `consts.NotificationRetentionSecs`. -/
def NotificationRetentionSecs (tier : Int) : Int :=
  if tier = GoldTier then 2592000 else if tier = SilverTier then 1296000
  else if tier = FreeTier then 604800 else 0

/-- Go `consts.NotificationMaxSchedule`. -/
def NotificationMaxSchedule (tier : Int) : Int :=
  if tier = GoldTier then 2592000 else if tier = SilverTier then 1296000
  else if tier = FreeTier then 604800 else 0

/-- Go `consts.STATUS_CHANNEL_LIMIT_EXCEEDED`. -/
def STATUS_CHANNEL_LIMIT_EXCEEDED : String := "CHANNEL_LIMIT_EXCEEDED"

/-- Go `consts.STATUS_ACTIVE`. -/
def STATUS_ACTIVE : String := "ACTIVE"

/-- Go `consts.Email`. -/
def Email : String := "email"

/-- Go `consts.Discord`. -/
def Discord : String := "discord"

/-! ## `entities`: users, channels, notifications

A `time.Time` is an `Int`, the nanoseconds since the Unix epoch. -/

/-- The zero `time.Time` (January 1, year 1, 00:00:00 UTC), the value for
which `IsZero` holds. -/
def zeroTime : Int := -62135596800000000000

/-- Go `entities.EmailMedium`. -/
structure EmailMedium where
  ID : String
  Verified : Bool
  deriving DecidableEq, Repr

/-- Go `entities.DiscordMedium`. -/
structure DiscordMedium where
  ID : String
  DMChannelID : String
  Verified : Bool
  deriving DecidableEq, Repr

/-- Go `entities.MediumMetadata`: two pointers. -/
structure MediumMetadata where
  Email : Option EmailMedium
  Discord : Option DiscordMedium
  deriving DecidableEq, Repr

/-- Go `entities.UserModel` (without `Privileges`, which nothing here reads). -/
structure UserModel where
  Chain : String
  Address : String
  SupportedMediums : List String
  AllowedMediums : List String
  Membership : String
  Logo : String
  MediumMetadata : MediumMetadata
  Status : String
  Channels : List String
  Optins : List String
  deriving DecidableEq, Repr

/-- Go `entities.ChannelModel`. -/
structure ChannelModel where
  Name : String
  Description : String
  Logo : String
  Chain : String
  AppID : String
  Owner : String
  Verified : Bool
  Status : String
  CreatedTimestamp : Int
  deriving DecidableEq, Repr

/-- Go `entities.NotificationRequest`: the fields that `SendNotifications` and
the repository calls it makes read. `Kind` is the Go field `Type`. -/
structure NotificationRequest where
  Message : String
  Link : String
  Schedule : Int
  Sender : String
  Chain : String
  Channel : String
  Kind : String
  Hash : String
  Receivers : List String
  deriving DecidableEq, Repr

/-- Go `entities.ScheduleNotificationRequest` (`Kind` is the Go field `Type`). -/
structure ScheduleNotificationRequest where
  Chain : String
  Sender : String
  Receivers : List String
  Message : String
  Link : String
  Channel : String
  Kind : String
  Schedule : Int
  TTL : Int
  deriving DecidableEq, Repr

/-- Go `entities.MediumPublishedMeta`. -/
structure MediumPublishedMeta where
  Published : Bool
  Allowed : Bool
  deriving DecidableEq, Repr

/-- Go `entities.Notification`; `MediumPublished` is the map as its key and
value pairs, `Kind` is the Go field `Type`. -/
structure Notification where
  Chain : String
  Receiver : String
  ReceiverInfo : UserModel
  UUID : String
  Channel : String
  ChannelName : String
  CreatedTime : Int
  Hash : String
  Link : String
  MediumPublished : List (String × MediumPublishedMeta)
  Message : String
  Seen : Bool
  Kind : String
  UpdatedTime : Int
  TTL : Int
  Logo : String
  Verified : Bool
  deriving DecidableEq, Repr

/-- Go `entities.ReadNotification`. -/
structure ReadNotification where
  Message : String
  Seen : Bool
  Link : String
  CreatedTime : Int
  AppID : String
  ChannelName : String
  Hash : String
  Uuid : String
  Kind : String
  Logo : String
  Verified : Bool
  deriving DecidableEq, Repr

/-- The map index `notification.MediumPublished[medium]`: a missing key reads
as the zero `MediumPublishedMeta`. -/
def mediumPublished (n : Notification) (medium : String) : MediumPublishedMeta :=
  match n.MediumPublished.lookup medium with
  | some m => m
  | none => { Published := false, Allowed := false }

/-! ## `utilities/utilities.go` -/

/-- Go `utilities.ContainsString`. -/
def ContainsString (slice : List String) (str : String) : Bool :=
  slice.any (fun s => decide (s = str))

/-- Go `utilities.SliceToMap` followed by the map index: a key that is not in
the slice reads `false`. -/
def SliceToMap (sl : List String) : String → Bool :=
  fun k => sl.any (fun each => decide (each = k))

/-- One hexadecimal digit, lower case, as `encoding/hex` writes it. -/
def hexDigit (n : Nat) : Char :=
  "0123456789abcdef".toList.getD n '0'

/-- Go `hex.EncodeToString` on a list of bytes. -/
def hexEncodeToString (bytes : List Nat) : String :=
  String.mk (bytes.flatMap (fun b => [hexDigit (b / 16 % 16), hexDigit (b % 16)]))

/-- Go `utilities.Encrypt`: the hexadecimal text of the SHA-512 digest of the
string; `sha512` is the digest function of `crypto/sha512`. -/
def Encrypt (sha512 : String → List Nat) (str : String) : String :=
  hexEncodeToString (sha512 str)

/-! ## `repo/user.go`: the monthly send metrics -/

/-- A row of `user_notification_send_metrics` (table_schema.go 254-263), with
`PRIMARY KEY ((chain, address), event_date, event_time)` and
`CLUSTERING ORDER BY (event_date desc, event_time desc)`:
`InsertUserSendMetrics` writes one row for each call of `SendNotifications`
that reaches the counters, with the date of the call as text `yyyy-mm-dd`. -/
structure SendMetricsRow where
  chain : String
  address : String
  event_time : Int
  event_date : String
  sent : Int
  deriving DecidableEq, Repr

/-- The order of two character lists by code point, the first difference
deciding and a prefix coming first. -/
def charsLE : List Char → List Char → Bool
  | [], _ => true
  | _ :: _, [] => false
  | x :: xs, y :: ys =>
    if x.toNat < y.toNat then true
    else if y.toNat < x.toNat then false
    else charsLE xs ys

/-- The order of CQL on `text` values (by the bytes of the UTF-8 encoding,
which is the order by code point). -/
def textLE (a b : String) : Bool :=
  charsLE a.toList b.toList

/-- The `event_date` of the first row in clustering order (`event_date desc`):
the greatest date among the rows, and none when there is no row. -/
def latestEventDate (rows : List SendMetricsRow) : Option String :=
  rows.foldl
    (fun acc row =>
      match acc with
      | none => some row.event_date
      | some d => if textLE row.event_date d then some d else some row.event_date)
    none

/-- Go `UserRepo.GetUserSendMetricsForMonth` (repo/user.go 762-788) on the
table of send metrics. The query is `SELECT SUM("sent") ... WHERE chain = ?
AND address = ? AND event_date >= monthStart AND event_date <= monthEnd GROUP
BY event_date`, which gives one row for each date, in clustering order, and
`Query.Scan` copies the first of them and discards the rest: the result is the
sum of `sent` over the rows of the latest date in the range. With no row
`Scan` returns `gocql.ErrNotFound` and the result is 0; `queryErr` is any
other error of the query. `monthStart` and `monthEnd` are the texts of
`ToDate(BeginningOfMonth(time.Now()))` and `ToDate(EndOfMonth(time.Now()))`. -/
def GetUserSendMetricsForMonth (table : List SendMetricsRow) (queryErr : Option String)
    (monthStart monthEnd chain address : String) : Except String Int :=
  match queryErr with
  | some _ => Except.error "failed to get total sent"
  | none =>
    let selected := table.filter (fun row =>
      decide (row.chain = chain) && decide (row.address = address)
        && textLE monthStart row.event_date && textLE row.event_date monthEnd)
    match latestEventDate selected with
    | none => Except.ok 0
    | some d =>
      Except.ok ((selected.filter (fun row => decide (row.event_date = d))).map
        (fun row => row.sent)).sum

/-- Written from the words of the property, not from the code: what a sender
has sent this month, the sum of `sent` over all rows of the sender whose date
is in the month. -/
def sentThisMonth (table : List SendMetricsRow) (monthStart monthEnd chain address : String) :
    Int :=
  ((table.filter (fun row =>
      decide (row.chain = chain) && decide (row.address = address)
        && textLE monthStart row.event_date && textLE row.event_date monthEnd)).map
    (fun row => row.sent)).sum

/-! ## `usecases/notifications.go`: `SendNotifications` -/

/-- The collaborators of `SendNotifications`: what each lookup returns (an
`Except.error` carries the text of a Go error), whether each insert executes,
the values of `utilities.TimeNow()`, `uuidLib.NewString()` and
`config.GetConfig().Mode`, and, for the lookup of the monthly send metrics,
the table it reads, the error of its query and the first and the last date of
the current month. -/
structure NotifEnv where
  TrimSpace : String → String
  ToLower : String → String
  Sha512 : String → List Nat
  TimeNow : Int
  NewUUID : String
  Mode : String
  GetUserModel : String → String → Except String UserModel
  GetChannel : String → String → Except String ChannelModel
  RetrieveChannelUsers : String → String → Except String (List String)
  SendMetrics : List SendMetricsRow
  SendMetricsErr : Option String
  MonthStart : String
  MonthEnd : String
  GetUser : String → String → Except String UserModel
  GetFCMTokens : String → String → List String
  ExecScheduledInsert : ScheduleNotificationRequest → Option String
  ExecNotificationInsert : Notification → Option String

/-- The call `usecase.userRepo.GetUserSendMetricsForMonth(ctx, chain, sender)`
of line 292, on the table of the environment. -/
def NotifEnv.GetUserSendMetricsForMonth (env : NotifEnv) (chain address : String) :
    Except String Int :=
  Notiboy.GetUserSendMetricsForMonth env.SendMetrics env.SendMetricsErr env.MonthStart
    env.MonthEnd chain address

/-- The errors `SendNotifications` returns, one constructor for each `return`
with an error, carrying what the message is formatted from. -/
inductive SendError where
  | getUserModel (cause : String)
  | scheduleTooLate (maxFutureTime : Int) (membership : Int)
  | insertScheduled (cause : String)
  | textTooLong (permittedCharCount : Int)
  | linkTooLong (permittedCharCount : Int)
  | getChannel (cause : String)
  | channelLimitExceeded
  | channelNotActive (status : String)
  | senderNotOwner
  | fetchUsers (channel : String) (cause : String)
  | sendMetrics (cause : String)
  | quotaExceeded (toSend : Int) (remainingNotifications : Int)
  | failedToSend
  deriving DecidableEq, Repr

/-- What `SendNotifications` does to its collaborators. An insert carries
whether it executed (`ok = false`: the statement failed and no row is
written). -/
inductive NotifEffect where
  | scheduledInsert (request : ScheduleNotificationRequest) (ttl : Int) (ok : Bool)
  | notificationInsert (notification : Notification) (ok : Bool)
  | wsPush (identifier : String) (n : ReadNotification) (broadcast : Bool)
  | fcmPush (chain receiver : String) (msg : FcmMessage) (tokens : List String)
  | discordEnqueue (notification : Notification)
  | emailEnqueue (notification : Notification)
  | globalStats (request : NotificationRequest) (sent : Int)
  | channelCounter (request : NotificationRequest) (sent : Int)
  | channelSendMetrics (request : NotificationRequest) (now : Int) (sent : Int)
  | sentCountForReach (request : NotificationRequest) (sent : Int)
  | userSendMetrics (request : NotificationRequest) (now : Int) (sent : Int)
  deriving DecidableEq, Repr

/-- The result of `SendNotifications`: the returned error (`none` for `nil`)
and the effects. -/
structure SendOutcome where
  err : Option SendError
  effects : List NotifEffect
  deriving DecidableEq, Repr

/-- Go `NotificationRepo.InsertScheduledNotificationInfo` (repo 122-163): one
`INSERT ... USING TTL` with `request.TTL + 43200`; the result is the effect
and the returned error. -/
def InsertScheduledNotificationInfo (env : NotifEnv) (request : ScheduleNotificationRequest) :
    List NotifEffect × Option String :=
  let ttl := request.TTL + 43200
  match env.ExecScheduledInsert request with
  | some e => ([NotifEffect.scheduledInsert request ttl false], some e)
  | none => ([NotifEffect.scheduledInsert request ttl true], none)

/-- Go `NotificationRepo.InsertNotificationInfo` (repo 281-330): one `INSERT`
of the notification. -/
def InsertNotificationInfo (env : NotifEnv) (request : Notification) :
    List NotifEffect × Option String :=
  match env.ExecNotificationInsert request with
  | some e => ([NotifEffect.notificationInsert request false], some e)
  | none => ([NotifEffect.notificationInsert request true], none)

/-- The `entities.Notification` of lines 334-361. -/
def mkNotification (request : NotificationRequest) (uuid : String) (now ttl : Int)
    (channelData : ChannelModel) (receiver : String) (data : UserModel) : Notification :=
  { Chain := request.Chain,
    Receiver := receiver,
    ReceiverInfo := data,
    UUID := uuid,
    Channel := request.Channel,
    ChannelName := channelData.Name,
    CreatedTime := now,
    Hash := request.Hash,
    Link := request.Link,
    MediumPublished :=
      [(Discord, { Published := false, Allowed := SliceToMap data.AllowedMediums Discord }),
       (Email, { Published := false, Allowed := SliceToMap data.AllowedMediums Email })],
    Message := request.Message,
    Seen := false,
    Kind := request.Kind,
    UpdatedTime := now,
    TTL := ttl,
    Logo := channelData.Logo,
    Verified := channelData.Verified }

/-- The goroutine of lines 369-431, for one persisted notification: the push on
the live connection (unicast), the mobile push when the receiver has device
tokens, and, unless the mode is `local`, one job on the Discord queue and one
on the email queue. `formatTime` is `CreatedTime.Format`; `json.Marshal` of the
`ReadNotification` does not fail (its time is the `TimeNow` of the call). The
goroutine runs beside the loop; its effects are listed where it is started. -/
def deliver (env : NotifEnv) (formatTime : Int → String) (chain receiver : String)
    (notification : Notification) : List NotifEffect :=
  let identifier := FormatIdentifier chain notification.Receiver
  let n : ReadNotification :=
    { Message := notification.Message, Seen := false, Link := notification.Link,
      CreatedTime := notification.CreatedTime, AppID := notification.Channel,
      ChannelName := notification.ChannelName, Hash := notification.Hash,
      Uuid := notification.UUID, Kind := notification.Kind, Logo := notification.Logo,
      Verified := false }
  let msg : FcmMessage :=
    { Title := "Notification from " ++ notification.ChannelName,
      Body := notification.Message,
      Data := [("click_action", "FLUTTER_NOTIFICATION_CLICK"),
               ("seen", "false"),
               ("link", notification.Link),
               ("created_time", formatTime notification.CreatedTime),
               ("app_id", notification.Channel),
               ("channel_name", notification.ChannelName),
               ("hash", notification.Hash),
               ("uuid", notification.UUID),
               ("kind", notification.Kind)],
      Sound := "default" }
  let tokens := env.GetFCMTokens chain receiver
  [NotifEffect.wsPush identifier n false]
    ++ (if tokens.length > 0 then
          [NotifEffect.fcmPush notification.Chain notification.Receiver msg tokens]
        else [])
    ++ (if env.Mode ≠ "local" then
          [NotifEffect.discordEnqueue notification, NotifEffect.emailEnqueue notification]
        else [])

/-- One iteration of the loop of lines 309-434: the effects and the increment
of `sent`. An error of `GetUser` and a failed type assertion on its result
are both an `Except.error` of the lookup. -/
def sendOne (env : NotifEnv) (formatTime : Int → String) (request : NotificationRequest)
    (uuid : String) (now ttl : Int) (channelData : ChannelModel) (receiver : String) :
    List NotifEffect × Int :=
  match env.GetUser request.Chain receiver with
  | Except.error _ => ([], 0)
  | Except.ok data =>
    if !ContainsString data.Optins request.Channel then ([], 0)
    else
      let notification := mkNotification request uuid now ttl channelData receiver data
      match (InsertNotificationInfo env notification).2 with
      | some _ => ((InsertNotificationInfo env notification).1, 0)
      | none =>
        ((InsertNotificationInfo env notification).1
          ++ deliver env formatTime request.Chain receiver notification, 1)

/-- The loop of lines 308-434 over the receivers. -/
def sendLoop (env : NotifEnv) (formatTime : Int → String) (request : NotificationRequest)
    (uuid : String) (now ttl : Int) (channelData : ChannelModel) (receivers : List String) :
    List NotifEffect × Int :=
  receivers.foldl
    (fun acc receiver =>
      (acc.1 ++ (sendOne env formatTime request uuid now ttl channelData receiver).1,
       acc.2 + (sendOne env formatTime request uuid now ttl channelData receiver).2))
    ([], 0)

/-- Lines 436-459: the five counter updates, each logged when it fails. -/
def counterUpdates (request : NotificationRequest) (now sent : Int) : List NotifEffect :=
  [NotifEffect.globalStats request sent,
   NotifEffect.channelCounter request sent,
   NotifEffect.channelSendMetrics request now sent,
   NotifEffect.sentCountForReach request sent,
   NotifEffect.userSendMetrics request now sent]

/-- A `return` of `SendNotifications` with an error before any effect. -/
def SendOutcome.fail (e : SendError) : SendOutcome :=
  { err := some e, effects := [] }

/-- Lines 279-470 of `SendNotifications`: the receivers are resolved, the
quota is checked, the loop runs, the counters are updated. -/
def sendResolved (env : NotifEnv) (formatTime : Int → String) (request : NotificationRequest)
    (membership ttl : Int) (channelData : ChannelModel) (receivers : List String) :
    SendOutcome :=
  let uuid := env.NewUUID
  let now := env.TimeNow
  let request1 : NotificationRequest := { request with Receivers := receivers }
  let toSend : Int := receivers.length
  if toSend = 0 then { err := none, effects := [] }
  else
    match env.GetUserSendMetricsForMonth request.Chain request.Sender with
    | Except.error e => SendOutcome.fail (SendError.sendMetrics e)
    | Except.ok totalSent =>
      let remainingNotifications : Int :=
        if NotificationCount membership - totalSent < 0 then 0
        else NotificationCount membership - totalSent
      if toSend > remainingNotifications then
        SendOutcome.fail (SendError.quotaExceeded toSend remainingNotifications)
      else
        let looped := sendLoop env formatTime request1 uuid now ttl channelData receivers
        let sent := looped.2
        { err := if sent = 0 then some SendError.failedToSend else none,
          effects := looped.1 ++ counterUpdates request1 now sent }

/-- Go `NotificationUsecases.SendNotifications` (usecases 180-470). -/
def SendNotifications (env : NotifEnv) (formatTime : Int → String)
    (request : NotificationRequest) : SendOutcome :=
  let chain := request.Chain
  let sender := request.Sender
  let channel := request.Channel
  let kind := request.Kind
  let link := request.Link
  let message := request.Message
  let schedule := request.Schedule
  match env.GetUserModel chain sender with
  | Except.error e => SendOutcome.fail (SendError.getUserModel e)
  | Except.ok userModel =>
    let membership := MembershipStringToEnum env.TrimSpace env.ToLower userModel.Membership
    let ttl := NotificationRetentionSecs membership
    if schedule ≠ zeroTime then
      let maxFutureTime := env.TimeNow + 1000000000 * NotificationMaxSchedule membership
      if schedule > maxFutureTime then
        SendOutcome.fail (SendError.scheduleTooLate maxFutureTime membership)
      else
        let inserted := InsertScheduledNotificationInfo env
          { Chain := chain, Sender := sender, Receivers := request.Receivers,
            Message := message, Link := link, Channel := channel, Kind := kind,
            Schedule := schedule, TTL := ttl }
        match inserted.2 with
        | some e => { err := some (SendError.insertScheduled e), effects := inserted.1 }
        | none => { err := none, effects := inserted.1 }
    else
      let hash := Encrypt env.Sha512 message
      let request1 : NotificationRequest := { request with Hash := hash }
      let permittedCharCount := NotificationCharacterCount membership
      let curMsgCharCount : Int := message.utf8ByteSize
      let curLinkCharCount : Int := link.utf8ByteSize
      if curMsgCharCount > permittedCharCount then
        SendOutcome.fail (SendError.textTooLong permittedCharCount)
      else if curLinkCharCount > permittedCharCount then
        SendOutcome.fail (SendError.linkTooLong permittedCharCount)
      else
        match env.GetChannel chain channel with
        | Except.error e => SendOutcome.fail (SendError.getChannel e)
        | Except.ok channelData =>
          if channelData.Status = STATUS_CHANNEL_LIMIT_EXCEEDED then
            SendOutcome.fail SendError.channelLimitExceeded
          else if channelData.Status ≠ STATUS_ACTIVE then
            SendOutcome.fail (SendError.channelNotActive channelData.Status)
          else if sender ≠ channelData.Owner then
            SendOutcome.fail SendError.senderNotOwner
          else if kind = "public" then
            match env.RetrieveChannelUsers chain channel with
            | Except.error e => SendOutcome.fail (SendError.fetchUsers channel e)
            | Except.ok users =>
              sendResolved env formatTime request1 membership ttl channelData users
          else
            sendResolved env formatTime request1 membership ttl channelData request.Receivers

/-! ## `medium/email.go`, `medium/discord.go`: the dispatch workers -/

/-- The arguments of a call of `EmailClient.SendMail`. -/
structure MailCall where
  FromAddr : String
  To : String
  Subject : String
  Body : String
  deriving DecidableEq, Repr

/-- The arguments of a call of `ChannelMessageSendComplex`. -/
structure DiscordCall where
  ChannelID : String
  Content : String
  deriving DecidableEq, Repr

/-- What a worker does with one dequeued notification: it dereferences a
`nil` metadata pointer and panics, it drops the job (`continue` before the
provider), or it invokes the provider. -/
inductive WorkerResult (α : Type) where
  | panicked
  | dropped
  | invoked (call : α)
  deriving DecidableEq, Repr

/-- One iteration of `EmailClient.SpawnSender` (email.go 79-119) on a dequeued
notification. `joinPath` is the result of `url.JoinPath` on the configured
redirect address and `notifications`, `render` is `TemplateRendering` of the
notification template on heading, message and link, `fromAddr` the configured
sender address. -/
def emailStep (joinPath : Except String String)
    (render : String → String → String → Except String String) (fromAddr : String)
    (notification : Notification) : WorkerResult MailCall :=
  if !(mediumPublished notification Email).Allowed then WorkerResult.dropped
  else
    match notification.ReceiverInfo.MediumMetadata.Email with
    | none => WorkerResult.panicked
    | some emailMeta =>
      if !emailMeta.Verified || emailMeta.ID = "" then WorkerResult.dropped
      else
        let subject :=
          if notification.Kind = "private" then
            "You have a notification from " ++ notification.ChannelName
          else "Announcement from " ++ notification.ChannelName
        let msg := notification.Message
        match joinPath with
        | Except.error _ => WorkerResult.dropped
        | Except.ok link0 =>
          let link := if notification.Link ≠ "" then notification.Link else link0
          match render subject msg link with
          | Except.error _ => WorkerResult.dropped
          | Except.ok body =>
            WorkerResult.invoked
              { FromAddr := fromAddr, To := emailMeta.ID, Subject := subject, Body := body }

/-- One iteration of `DiscordMessenger.SpawnSender` (discord.go 86-117) on a
dequeued notification. -/
def discordStep (notification : Notification) : WorkerResult DiscordCall :=
  let message := notification.Message
  if !(mediumPublished notification Discord).Allowed then WorkerResult.dropped
  else
    match notification.ReceiverInfo.MediumMetadata.Discord with
    | none => WorkerResult.panicked
    | some discordMeta =>
      if !discordMeta.Verified || discordMeta.DMChannelID = "" then WorkerResult.dropped
      else
        let msg0 :=
          if notification.Kind = "private" then
            "*You have a notification from* **" ++ notification.ChannelName ++ "**\n"
          else "*Announcement from* **" ++ notification.ChannelName ++ "**\n"
        let msg1 := msg0 ++ " ```" ++ message ++ "```\n"
        let msg2 :=
          if notification.Link ≠ "" then msg1 ++ "\nLink: " ++ notification.Link else msg1
        WorkerResult.invoked { ChannelID := discordMeta.DMChannelID, Content := msg2 }

/-- The provider calls of the email worker on the jobs of its queue, in
order; a panic ends the worker. -/
def emailWorker (joinPath : Except String String)
    (render : String → String → String → Except String String) (fromAddr : String) :
    List Notification → List MailCall
  | [] => []
  | n :: rest =>
    match emailStep joinPath render fromAddr n with
    | WorkerResult.panicked => []
    | WorkerResult.dropped => emailWorker joinPath render fromAddr rest
    | WorkerResult.invoked call => call :: emailWorker joinPath render fromAddr rest

/-! ## `usecases/notifications.go`: the scheduler -/

/-- The state of `NotificationSchedulerStub`: the number of elements in the
channel `runOnce` (capacity 1), the number of `notificationScheduler`
goroutines started and not yet finished, and the number started so far. -/
structure SchedulerState where
  runOnce : Nat
  active : Nat
  started : Nat
  deriving DecidableEq, Repr

/-- The events of the scheduler: the ticker fires, or a running
`notificationScheduler` reaches its deferred `<-runOnce` and ends. -/
inductive SchedulerEvent where
  | tick
  | finish
  deriving DecidableEq, Repr

/-- The state in which the goroutine of `NotificationSchedulerStub` starts:
`runOnce` is empty and nothing runs. -/
def SchedulerState.init : SchedulerState :=
  { runOnce := 0, active := 0, started := 0 }

/-- One step. On a tick the `select` of lines 103-108 sends on `runOnce` when
it has room and starts a run, and otherwise takes the `default` branch and
does nothing. A finish is the receive of lines 117-119 by a run that is
active; with no active run there is nothing to finish. -/
def schedulerStep (s : SchedulerState) : SchedulerEvent → SchedulerState
  | SchedulerEvent.tick =>
    if s.runOnce < 1 then
      { runOnce := s.runOnce + 1, active := s.active + 1, started := s.started + 1 }
    else s
  | SchedulerEvent.finish =>
    if 0 < s.active ∧ 0 < s.runOnce then
      { runOnce := s.runOnce - 1, active := s.active - 1, started := s.started }
    else s

/-- The state after a list of events, oldest first. -/
def schedulerRun (s : SchedulerState) (events : List SchedulerEvent) : SchedulerState :=
  events.foldl schedulerStep s

/-! ## Vocabulary of the properties of `SendNotifications` -/

/-- The membership tier `SendNotifications` derives for a sender. -/
def tierOf (env : NotifEnv) (u : UserModel) : Int :=
  MembershipStringToEnum env.TrimSpace env.ToLower u.Membership

/-- The receivers `SendNotifications` resolves on lines 279-284: the users of
the channel for a `public` request, the receivers of the request otherwise. -/
def resolvedReceivers (env : NotifEnv) (request : NotificationRequest) :
    Except String (List String) :=
  if request.Kind = "public" then env.RetrieveChannelUsers request.Chain request.Channel
  else Except.ok request.Receivers

/-- The remaining monthly quota of lines 297-300. -/
def remainingQuota (tier totalSent : Int) : Int :=
  max 0 (NotificationCount tier - totalSent)

/-- The notifications whose row was written: the inserts that executed. -/
def persistedRows : List NotifEffect → List Notification
  | [] => []
  | NotifEffect.notificationInsert n true :: rest => n :: persistedRows rest
  | _ :: rest => persistedRows rest

/-- The notifications put on the email queue. -/
def emailJobs : List NotifEffect → List Notification
  | [] => []
  | NotifEffect.emailEnqueue n :: rest => n :: emailJobs rest
  | _ :: rest => emailJobs rest

/-- Whether the receiver has email both allowed and verified. -/
def emailAllowedVerified (u : UserModel) : Bool :=
  SliceToMap u.AllowedMediums Email &&
    (match u.MediumMetadata.Email with
     | some m => m.Verified
     | none => false)

/-- Whether a request passes the checks of lines 236-277 and 292-306 in an
environment: the lookups succeed, message and link are within the character
count of the tier, the channel is active and owned by the sender, and the
resolved receivers fit the remaining quota. -/
def PassesChecks (env : NotifEnv) (request : NotificationRequest) (u : UserModel)
    (ch : ChannelModel) (receivers : List String) (totalSent : Int) : Prop :=
  request.Schedule = zeroTime
    ∧ env.GetUserModel request.Chain request.Sender = Except.ok u
    ∧ (request.Message.utf8ByteSize : Int) ≤ NotificationCharacterCount (tierOf env u)
    ∧ (request.Link.utf8ByteSize : Int) ≤ NotificationCharacterCount (tierOf env u)
    ∧ env.GetChannel request.Chain request.Channel = Except.ok ch
    ∧ ch.Status = STATUS_ACTIVE
    ∧ request.Sender = ch.Owner
    ∧ resolvedReceivers env request = Except.ok receivers
    ∧ env.GetUserSendMetricsForMonth request.Chain request.Sender = Except.ok totalSent
    ∧ (receivers.length : Int) ≤ remainingQuota (tierOf env u) totalSent

/-! ## Examples for `SendNotifications` -/

/-- A receiver in the examples: opted in to `app1`, with email allowed and
verified or with no medium allowed nor verified. -/
def exampleUser (address : String) (withEmail : Bool) : UserModel :=
  { Chain := "algorand", Address := address, SupportedMediums := [],
    AllowedMediums := if withEmail then ["email"] else [],
    Membership := "free", Logo := "",
    MediumMetadata :=
      { Email := some { ID := if withEmail then address ++ "@example.org" else "",
                        Verified := withEmail },
        Discord := some { ID := "", DMChannelID := "", Verified := false } },
    Status := "ACTIVE", Channels := [], Optins := ["app1"] }

/-- The channel of the examples, active and owned by `sender`. -/
def exampleChannel (appID : String) : ChannelModel :=
  { Name := "News", Description := "", Logo := "", Chain := "algorand", AppID := appID,
    Owner := "sender", Verified := false, Status := "ACTIVE", CreatedTimestamp := 0 }

/-- An environment in which every lookup and insert succeeds: `sender` has the
free tier and has sent nothing this month; channel `app1` has the three
subscribers `u1`, `u2`, `u3`, all opted in, of whom `u1` and `u2` have email
allowed and verified and `u3` has no verified medium; channel `app2` has no
subscriber; `mallory` is a user who owns no channel. The string functions and
the digest are stand-ins. -/
def exampleEnv : NotifEnv :=
  { TrimSpace := fun s => s,
    ToLower := fun s => s,
    Sha512 := fun _ => [222, 173, 190, 239],
    TimeNow := 1700000000000000000,
    NewUUID := serverUuid,
    Mode := "production",
    GetUserModel := fun _ address =>
      if address = "sender" ∨ address = "mallory" then Except.ok (exampleUser address false)
      else Except.error "not found",
    GetChannel := fun _ channel =>
      if channel = "app1" ∨ channel = "app2" then Except.ok (exampleChannel channel)
      else Except.error "not found",
    RetrieveChannelUsers := fun _ channel =>
      if channel = "app1" then Except.ok ["u1", "u2", "u3"] else Except.ok [],
    SendMetrics := [],
    SendMetricsErr := none,
    MonthStart := "2023-11-01",
    MonthEnd := "2023-11-30",
    GetUser := fun _ address =>
      if address = "u1" ∨ address = "u2" then Except.ok (exampleUser address true)
      else if address = "u3" then Except.ok (exampleUser address false)
      else Except.error "not found",
    GetFCMTokens := fun _ _ => [],
    ExecScheduledInsert := fun _ => none,
    ExecNotificationInsert := fun _ => none }

/-- A stand-in for `CreatedTime.Format` in the examples. -/
def exampleFormatTime : Int → String :=
  fun t => toString t

/-- A public notification of `sender` on channel `app1`, without schedule. -/
def publicRequest : NotificationRequest :=
  { Message := "hello", Link := "", Schedule := zeroTime, Sender := "sender",
    Chain := "algorand", Channel := "app1", Kind := "public", Hash := "", Receivers := [] }

/-- The same request on channel `app2`, which has no subscriber. -/
def emptyChannelRequest : NotificationRequest :=
  { publicRequest with Channel := "app2" }

/-- A message of 121 bytes, one more than the free tier permits. -/
def longMessage : String :=
  String.mk (List.replicate 121 'a')

/-- The public request with the message of 121 bytes. -/
def longRequest : NotificationRequest :=
  { publicRequest with Message := longMessage }

/-- The request with the message of 121 bytes, scheduled one hour after the
`TimeNow` of `exampleEnv`. -/
def longScheduledRequest : NotificationRequest :=
  { longRequest with Schedule := 1700003600000000000 }

/-- The public request scheduled one hour after the `TimeNow` of `exampleEnv`. -/
def scheduledRequest : NotificationRequest :=
  { publicRequest with Schedule := 1700003600000000000 }

/-- The public request scheduled eight days after the `TimeNow` of
`exampleEnv`, beyond the seven days of the free tier. -/
def lateScheduledRequest : NotificationRequest :=
  { publicRequest with Schedule := 1700691200000000000 }

/-- A private request to `u1` and `u2` by a sender who does not own `app1`. -/
def strangerRequest : NotificationRequest :=
  { publicRequest with Sender := "mallory", Kind := "private", Receivers := ["u1", "u2"] }

/-- The example environment when `sender` has already sent 999 notifications
this month, all of them on 2023-11-14: one is left of the 1000 of the free
tier. -/
def busyEnv : NotifEnv :=
  { exampleEnv with
    SendMetrics :=
      [{ chain := "algorand", address := "sender", event_time := 1699999000000000000,
         event_date := "2023-11-14", sent := 999 }] }

/-- A stand-in for the rendering of the notification template in the
examples. -/
def exampleRender : String → String → String → Except String String :=
  fun heading message link => Except.ok (heading ++ "\n" ++ message ++ "\n" ++ link)

/-- The notification written for `u1` by the public request in `exampleEnv`:
email is allowed, verified and has an address. -/
def exampleNotification : Notification :=
  mkNotification { publicRequest with Hash := "deadbeef" } serverUuid 1700000000000000000 604800
    (exampleChannel "app1") "u1" (exampleUser "u1" true)

/-- The invariant of the scheduler: the runs that are active are as many as
the elements of `runOnce`, which holds at most one. -/
def SchedulerState.Inv (s : SchedulerState) : Prop :=
  s.active = s.runOnce ∧ s.runOnce ≤ 1

/-- The counts recorded in the sender's monthly send metrics: the `sent`
argument of every call of `InsertUserSendMetrics` (line 456), in order. -/
def recordedSendMetrics : List NotifEffect → List Int
  | [] => []
  | NotifEffect.userSendMetrics _ _ sent :: rest => sent :: recordedSendMetrics rest
  | _ :: rest => recordedSendMetrics rest

/-! ## `usecases/chat.go`: presence and the chat processor -/

/-- Go `entities.UserChatStatusKind`. -/
def UserChatStatusKind : String := "status"

/-- Go `entities.UserChatMsgKind`. -/
def UserChatMsgKind : String := "chat"

/-- Go `entities.UserStatus`. -/
structure UserStatus where
  Chain : String
  User : String
  Online : Bool
  deriving DecidableEq, Repr

/-- Lines 171-172 of the liveness goroutine that `Add` starts for a
connection (websocket.go 144-180), run after a ping was written without error
at time `now`: `s.ConnSet[id].IsOnline = true` and
`s.ConnSet[id].LastChecked = time.Now()`. When the key is absent or holds a
`nil` pointer the dereference panics: the result is `none`. -/
def healthPing (s : Socket) (id : String) (now : Int) : Option Socket :=
  match s.ConnSet id with
  | some (some u) => some (s.setEntry id (some { u with IsOnline := true, LastChecked := now }))
  | _ => none

/-- What a call of `userOnlineStatus` does: the `UserStatus` it builds, the
identity and the broadcast flag it hands to `PushMessage`, the outcome of that
push and the returned error. -/
structure StatusOutcome (σ : Type) where
  statusData : UserStatus
  identifier : String
  broadcast : Bool
  push : PushOutcome σ
  err : Option WSError

/-- Go `ChatUseCases.userOnlineStatus` (88-112). `jsonStatus` is `json.Marshal`
on the `UserStatus` (which does not fail on a struct of two strings and a
boolean). `now` is the clock that `time.Since` reads, in nanoseconds on the
scale of `LastChecked`, so that `now - LastChecked` is
`time.Since(connObj.LastChecked)`; its `Seconds()` is at most `float64(30)`
exactly when the duration is at most 30000000000 nanoseconds. The map index
`c.ws.ConnSet[rcvrID]` reads `nil` for an absent key. -/
def userOnlineStatus {σ : Type} (write : σ → Nat → String → Option String × σ)
    (jsonStatus : UserStatus → String) (now : Int) (ws : Socket) (w : σ) (msg : Message) :
    StatusOutcome σ :=
  let chain := msg.Chain
  let rcvr := msg.Receiver
  let sender := msg.Sender
  let rcvrID := FormatIdentifier chain rcvr
  let connObj : Option UserConnObject :=
    match ws.ConnSet rcvrID with
    | some (some u) => some u
    | _ => none
  let online : Bool :=
    match connObj with
    | some u => decide (now - u.LastChecked ≤ 30000000000) && u.IsOnline
    | none => false
  let statusData : UserStatus := { Chain := chain, User := rcvr, Online := online }
  let mStatusData := jsonStatus statusData
  let senderID := FormatIdentifier chain sender
  let o := PushMessage write ws w senderID mStatusData true
  { statusData := statusData, identifier := senderID, broadcast := true, push := o, err := o.err }

/-- A message received from the read channel together with what the handlers
read from outside while they process it: the clock, the blocked-user cache,
the value of `uuidLib.NewString()`, and whether the batch and the two updates
execute. -/
structure Inbound where
  msg : Message
  now : Int
  blocked : BlockedUserCacheModel
  uuid : String
  batchOk : Bool
  ackOk : Bool
  seenOk : Bool

/-- What one iteration of the loop of `ChatProcessor` did with a message: the
handler it called, with the outcome of the call, or nothing. -/
inductive Handled (σ : Type) where
  | status (o : StatusOutcome σ)
  | chat (o : ChatOutcome σ)
  | ack (o : ChatOutcome σ)
  | ignored

/-- The body of the loop of `ChatProcessor` (312-362): the `switch` on
`msg.Kind`. An error returned by a handler is logged and nothing else. -/
def chatProcessorStep {σ : Type} (write : σ → Nat → String → Option String × σ)
    (json : Frame → String) (jsonStatus : UserStatus → String) (ttl : Int)
    (st : ChatState σ) (i : Inbound) : ChatState σ × Handled σ :=
  if i.msg.Kind = UserChatStatusKind then
    let o := userOnlineStatus write jsonStatus i.now st.ws st.world i.msg
    ({ st with ws := o.push.socket, world := o.push.world }, Handled.status o)
  else if i.msg.Kind = UserChatMsgKind then
    let o := sendChat write json i.blocked ttl i.uuid i.batchOk st i.msg
    (o.state, Handled.chat o)
  else if i.msg.Kind = UserChatAckKind then
    let o := sendChatAck write json i.ackOk i.seenOk st i.msg
    (o.state, Handled.ack o)
  else (st, Handled.ignored)

/-- Go `ChatUseCases.ChatProcessor` (309-364): the loop over the messages of
the read channel, in the order they are received, until the channel is
closed. The result is the state after the loop and, for each message, what the
loop did with it. -/
def ChatProcessor {σ : Type} (write : σ → Nat → String → Option String × σ)
    (json : Frame → String) (jsonStatus : UserStatus → String) (ttl : Int) :
    ChatState σ → List Inbound → ChatState σ × List (Message × Handled σ)
  | st, [] => (st, [])
  | st, i :: rest =>
    let r := chatProcessorStep write json jsonStatus ttl st i
    let r2 := ChatProcessor write json jsonStatus ttl r.1 rest
    (r2.1, (i.msg, r.2) :: r2.2)

/-- Written from the words of the property, not from the code: the handler
selected by a kind, `status`, `chat` or `ack`, and none for any other kind. -/
def handlerFor (kind : String) : Option String :=
  if kind = "status" ∨ kind = "chat" ∨ kind = "ack" then some kind else none

/-- The name of the handler an iteration called. -/
def Handled.handler {σ : Type} : Handled σ → Option String
  | Handled.status _ => some "status"
  | Handled.chat _ => some "chat"
  | Handled.ack _ => some "ack"
  | Handled.ignored => none

/-- Whether the handler an iteration called returned an error. -/
def Handled.failed {σ : Type} : Handled σ → Bool
  | Handled.status o => o.err.isSome
  | Handled.chat o => o.err.isSome
  | Handled.ack o => o.err.isSome
  | Handled.ignored => false

/-- A stand-in for `json.Marshal` on a `UserStatus` in the examples. -/
def showStatus : UserStatus → String :=
  fun s => "status " ++ s.Chain ++ " " ++ s.User ++ " " ++ toString s.Online

/-- A presence request of alice about bob. -/
def statusMsg : Message :=
  { Data := "", Receiver := "bob", Chain := "algorand", Sender := "alice", Time := 100,
    Kind := "status", UUID := "" }

/-- What the handlers read while they process a message in the examples:
nobody is blocked and every statement executes. -/
def inboundOf (msg : Message) (now : Int) : Inbound :=
  { msg := msg, now := now, blocked := BlockedUserCacheModel.empty, uuid := serverUuid,
    batchOk := true, ackOk := true, seenOk := true }

/-- Four messages in arrival order: a chat of carol, who has no connection, to
bob; a presence request of alice about bob; a frame of a kind the processor
does not know; the ack of bob. -/
def exampleInbound : List Inbound :=
  [inboundOf { chatMsg with Sender := "carol" } 100,
   inboundOf statusMsg 100,
   inboundOf { chatMsg with Kind := "typing" } 100,
   inboundOf ackMsg 100]

/-! ## `utilities/logo.go` -/

/-- What `image.Decode` returns beside the format name: the bounds of the
image, `Bounds().Max.X` and `Bounds().Max.Y`. -/
structure DecodedImage where
  MaxX : Int
  MaxY : Int
  deriving DecidableEq, Repr

/-- The errors `ValidateImage` returns, one constructor for each `return`
with an error. -/
inductive ImageError where
  | base64Decoding (cause : String)
  | imageDecoding (cause : String)
  | sizeTooLarge (maxSizeInKB : Int)
  | unsupportedType (mimeType : String) (supportedTypes : List String)
  deriving DecidableEq, Repr

set_option linter.unusedVariables false

/-- Go `utilities.ValidateImage` (logo.go 13-51); `none` is the `nil` error.
`decodeString` is `base64.StdEncoding.DecodeString` (the bytes of the image)
and `imageDecode` is `image.Decode`, which gives the image and its format
name. The check of the image bounds against `xMax` and `yMax` (lines 24-30) is
inside a comment in the source, so the decoded image and the two bounds are
not read. -/
def ValidateImage (decodeString : String → Except String (List Nat))
    (imageDecode : List Nat → Except String (DecodedImage × String))
    (data : String) (xMax yMax maxSizeInKB : Int) (supportedTypes : List String) :
    Option ImageError :=
  match decodeString data with
  | Except.error e => some (ImageError.base64Decoding e)
  | Except.ok imgByteData =>
    match imageDecode imgByteData with
    | Except.error e => some (ImageError.imageDecoding e)
    | Except.ok (_, mimeType) =>
      let size : Int := imgByteData.length
      let maxSizeInB := maxSizeInKB * 1024
      if size > maxSizeInB then some (ImageError.sizeTooLarge maxSizeInKB)
      else
        let mimeSupported := supportedTypes.any (fun supportedType => decide (mimeType = supportedType))
        if !mimeSupported then some (ImageError.unsupportedType mimeType supportedTypes)
        else none

set_option linter.unusedVariables true

/-- A stand-in for the base64 decoder in the examples: the text `logo` is the
encoding of eight bytes. -/
def exampleDecodeString : String → Except String (List Nat) :=
  fun data => if data = "logo" then Except.ok [137, 80, 78, 71, 13, 10, 26, 10]
    else Except.error "illegal base64 data"

/-- A stand-in for `image.Decode` in the examples: every byte string is a
`png` image of 50 by 50 pixels. -/
def exampleImageDecode : List Nat → Except String (DecodedImage × String) :=
  fun _ => Except.ok ({ MaxX := 50, MaxY := 50 }, "png")

/-! ## Examples for the properties of the chat relay, the length check and
the workers -/

/-- A message of 61 characters, each the letter e with an acute accent
(U+00E9, two bytes in UTF-8): 122 bytes. -/
def accentedMessage : String :=
  String.mk (List.replicate 61 (Char.ofNat 233))

/-- The public request with the message of 61 accented letters. -/
def accentedRequest : NotificationRequest :=
  { publicRequest with Message := accentedMessage }

/-! ## `repo/user.go`, `repo/verify.go`: the writers of `medium_metadata` -/

/-- A row of `scheduled_notification_info` (table_schema.go 288-299), with
`PRIMARY KEY (chain, schedule, sender)`; `kind` is the column `type`. The
table is the list of its rows. -/
structure ScheduledRow where
  chain : String
  sender : String
  receivers : List String
  message : String
  link : String
  app_id : String
  kind : String
  schedule : Int
  deriving DecidableEq, Repr

/-- The `entities.NotificationRequest` that `GetScheduledNotificationInfo`
builds from a row it scanned for `chain` (repo 194-204). -/
def ScheduledRow.toRequest (chain : String) (row : ScheduledRow) : NotificationRequest :=
  { Chain := chain, Sender := row.sender, Receivers := row.receivers, Message := row.message,
    Link := row.link, Channel := row.app_id, Kind := row.kind, Schedule := row.schedule,
    Hash := "" }

/-- Go `NotificationRepo.GetScheduledNotificationInfo` (repo 165-220):
`SELECT ... WHERE chain = ? AND schedule <= ?`; `closeErr` is the error of
`iter.Close()`, with which the requests scanned so far are dropped. -/
def GetScheduledNotificationInfo (table : List ScheduledRow) (closeErr : Option String)
    (chain : String) (timeUntil : Int) : Except String (List NotificationRequest) :=
  let requests :=
    (table.filter (fun row => decide (row.chain = chain ∧ row.schedule ≤ timeUntil))).map
      (ScheduledRow.toRequest chain)
  match closeErr with
  | some e => Except.error e
  | none => Except.ok requests

/-- Go `NotificationRepo.DeleteScheduledNotificationInfo` (repo 48-69), the
delete behind the API: `DELETE ... WHERE chain = ? AND schedule = ? AND
sender = ?`. -/
def DeleteScheduledNotificationInfo (table : List ScheduledRow) (chain sender : String)
    (schedule : Int) : List ScheduledRow :=
  table.filter
    (fun row => !decide (row.chain = chain ∧ row.schedule = schedule ∧ row.sender = sender))

/-- What a run of `notificationScheduler` reads from outside: the configured
`Chain.Supported`, the value of `utilities.TimeNow()` when a chain is fetched,
the error of the fetch of a chain, the collaborators the call of
`SendNotifications` for a fetched request meets, `CreatedTime.Format`, and
the error of the `DELETE` for a chain and a schedule. -/
structure PromoterEnv where
  Supported : List String
  TimeNow : String → Int
  FetchErr : String → Option String
  SendEnv : NotificationRequest → NotifEnv
  FormatTime : Int → String
  DeleteErr : String → Int → Option String

/-- What a run of `notificationScheduler` leaves: the table of scheduled
notifications, the calls of `SendNotifications` it made with their outcomes,
and the `DELETE` statements that executed, each with its chain and
schedule. -/
structure PromoterOutcome where
  table : List ScheduledRow
  calls : List (NotificationRequest × SendOutcome)
  deletes : List (String × Int)
  deriving DecidableEq, Repr

/-- The first loop of `notificationScheduler` (122-132): for every supported
chain the requests scheduled up to 30 seconds after now; a chain whose fetch
fails is logged and skipped. -/
def dueRequests (p : PromoterEnv) (table : List ScheduledRow) : List NotificationRequest :=
  p.Supported.flatMap (fun chain =>
    match GetScheduledNotificationInfo table (p.FetchErr chain) chain
        (p.TimeNow chain + 30 * 1000000000) with
    | Except.error _ => []
    | Except.ok reqs => reqs)

/-- The goroutine of lines 140-163 for one fetched request: the schedule is
cleared, `SendNotifications` is called, and when it returns no error the
statement `DELETE ... WHERE chain = ? AND schedule = ?` is executed with the
chain and the schedule of the request (an error of the statement is logged
and the table is as before). -/
def promoteOne (p : PromoterEnv) (acc : PromoterOutcome) (request : NotificationRequest) :
    PromoterOutcome :=
  let chain := request.Chain
  let schedule := request.Schedule
  let request1 : NotificationRequest := { request with Schedule := zeroTime }
  let out := SendNotifications (p.SendEnv request) p.FormatTime request1
  match out.err with
  | some _ => { acc with calls := acc.calls ++ [(request1, out)] }
  | none =>
    match p.DeleteErr chain schedule with
    | some _ => { acc with calls := acc.calls ++ [(request1, out)] }
    | none =>
      { table := acc.table.filter
          (fun row => !decide (row.chain = chain ∧ row.schedule = schedule)),
        calls := acc.calls ++ [(request1, out)],
        deletes := acc.deletes ++ [(chain, schedule)] }

/-- Go `notificationScheduler` (114-166), one run of the promoter on the
table. The goroutines of the second loop run side by side; a call of
`SendNotifications` without schedule neither reads nor writes the table and
the deletes commute, so the table after the run, when every goroutine has
ended, is the one their sequential run leaves. -/
def notificationScheduler (p : PromoterEnv) (table : List ScheduledRow) : PromoterOutcome :=
  (dueRequests p table).foldl (promoteOne p) { table := table, calls := [], deletes := [] }

/-- The rows a call of `SendNotifications` wrote or tried to write to the
table of scheduled notifications. -/
def scheduledInserts : List NotifEffect → List ScheduleNotificationRequest
  | [] => []
  | NotifEffect.scheduledInsert request _ _ :: rest => request :: scheduledInserts rest
  | _ :: rest => scheduledInserts rest

/-- Whether the run sent a fetched request without error and executed the
delete that follows. -/
def promoted (p : PromoterEnv) (request : NotificationRequest) : Bool :=
  (SendNotifications (p.SendEnv request) p.FormatTime
      { request with Schedule := zeroTime }).err.isNone
    && (p.DeleteErr request.Chain request.Schedule).isNone

/-- Two senders scheduled a notification on `algorand` for the same instant:
`sender` on its channel `app1`, and `carol` on `app3`. -/
def exampleScheduled : List ScheduledRow :=
  [{ chain := "algorand", sender := "sender", receivers := [], message := "hello", link := "",
     app_id := "app1", kind := "public", schedule := 1700000010000000000 },
   { chain := "algorand", sender := "carol", receivers := ["u1"], message := "news", link := "",
     app_id := "app3", kind := "private", schedule := 1700000010000000000 }]

/-- A run at the `TimeNow` of `exampleEnv`, ten seconds before the two rows of
`exampleScheduled` are scheduled: the fetch and every delete execute, the
request of `sender` meets `exampleEnv`, and for the request of `carol` the
lookup of the sender times out. -/
def examplePromoter : PromoterEnv :=
  { Supported := ["algorand"],
    TimeNow := fun _ => 1700000000000000000,
    FetchErr := fun _ => none,
    SendEnv := fun request =>
      if request.Sender = "carol" then
        { exampleEnv with GetUserModel := fun _ _ => Except.error "timeout" }
      else exampleEnv,
    FormatTime := exampleFormatTime,
    DeleteErr := fun _ _ => none }

/-- Go `NotificationRepo.InsertUserSendMetrics` (repo/notifications.go
376-396) on the table of send metrics: one row with the chain and the sender
of the request, the time of the call, its date (`utilities.ToDate(now)`) and
the count. -/
def InsertUserSendMetrics (table : List SendMetricsRow) (request : NotificationRequest)
    (now : Int) (date : String) (sent : Int) : List SendMetricsRow :=
  table ++ [{ chain := request.Chain, address := request.Sender, event_time := now,
              event_date := date, sent := sent }]

/-- The example environment in November 2023 when `sender` has sent 999
notifications on the 13th and 1 on the 14th: 1000 this month, the whole quota
of the free tier. -/
def twoDayEnv : NotifEnv :=
  { exampleEnv with
    SendMetrics :=
      [{ chain := "algorand", address := "sender", event_time := 1699999000000000000,
         event_date := "2023-11-14", sent := 1 },
       { chain := "algorand", address := "sender", event_time := 1699900000000000000,
         event_date := "2023-11-13", sent := 999 }] }

/-- Written from the words of the property, not from the code: one write of
`data` on each connection of a list, in order, each in the world the write
before it left. The result is the world after the last write and, for each
connection, what its write returned. -/
def writeEach {σ : Type} (write : σ → Nat → String → Option String × σ) (data : String) :
    σ → List ConnObject → σ × List (ConnObject × Option String)
  | w, [] => (w, [])
  | w, c :: rest =>
    ((writeEach write data (write w c.Conn data).2 rest).1,
      (c, (write w c.Conn data).1) :: (writeEach write data (write w c.Conn data).2 rest).2)

/-- A world that is the list of the writes made so far, each with its
connection handle and its payload; every write succeeds. -/
def writeLog : List (Nat × String) → Nat → String → Option String × List (Nat × String) :=
  fun w conn data => (none, w ++ [(conn, data)])

/-- The chat state over `chatSocket` in a world that lists the writes made,
with an empty `user_chat` table and an empty notification channel. -/
def chatStateLog : ChatState (List (Nat × String)) :=
  { ws := chatSocket, world := [], table := fun _ _ _ _ => none, notifications := [] }

/-! # Properties -/

/-- C1. For every registry, world and identity key with no entry, a nil entry
or an entry with an empty connection list, `PushMessage` with either broadcast
value returns `ErrWSConnAbsent` carrying that key, attempts no write (the log
of attempts is empty and the world is the one it was called in) and leaves the
registry as it was. -/
theorem PushMessage_absent {σ : Type} (write : σ → Nat → String → Option String × σ)
    (s : Socket) (w : σ) (identifier data : String) (broadcast : Bool)
    (h : NoConnection s identifier) :
    (PushMessage write s w identifier data broadcast).err
        = some (WSError.connAbsent "ws connection absent" identifier)
      ∧ (PushMessage write s w identifier data broadcast).attempts = []
      ∧ (PushMessage write s w identifier data broadcast).world = w
      ∧ (PushMessage write s w identifier data broadcast).socket = s := by
  rcases h with h | h | ⟨u, h, hu⟩
  · simp [PushMessage, h]
  · simp [PushMessage, h]
  · simp [PushMessage, h, hu]


/-! ## Helper lemmas: the loops -/

theorem acceptedConns_foldl (connID : String) (l acc : List ConnObject) :
    l.foldl (fun acc connObj => if connObj.ID = connID then acc else acc ++ [connObj]) acc
      = acc ++ l.filter (fun c => decide (c.ID ≠ connID)) := by
  induction l generalizing acc with
  | nil => simp
  | cons c l ih =>
    simp only [List.foldl_cons, ih]
    by_cases h : c.ID = connID
    · simp [h]
    · simp [h, List.filter_cons]

theorem acceptedConns_eq_filter (connID : String) (l : List ConnObject) :
    acceptedConns connID l = l.filter (fun c => decide (c.ID ≠ connID)) := by
  simp [acceptedConns, acceptedConns_foldl]

theorem pushStep_consistent {σ : Type} (write : σ → Nat → String → Option String × σ)
    (data : String) (st : PushState σ) (c : ConnObject) (h : st.Consistent) :
    (pushStep write data st c).Consistent := by
  obtain ⟨h1, h2⟩ := h
  unfold pushStep
  rcases hw : write st.world c.Conn data with ⟨_ | e, w1⟩
  · simp [PushState.Consistent, h2]
  · simp [PushState.Consistent, h1, h2, List.filterMap_append]

theorem pushStep_attempts {σ : Type} (write : σ → Nat → String → Option String × σ)
    (data : String) (st : PushState σ) (c : ConnObject) :
    (pushStep write data st c).attempts.map Prod.fst = st.attempts.map Prod.fst ++ [c] := by
  unfold pushStep
  rcases hw : write st.world c.Conn data with ⟨_ | e, w1⟩ <;> simp

theorem pushLoop_consistent {σ : Type} (write : σ → Nat → String → Option String × σ)
    (data : String) (l : List ConnObject) (st : PushState σ) (h : st.Consistent) :
    (l.foldl (pushStep write data) st).Consistent := by
  induction l generalizing st with
  | nil => simpa using h
  | cons c l ih => exact ih _ (pushStep_consistent write data st c h)

theorem pushLoop_attempts {σ : Type} (write : σ → Nat → String → Option String × σ)
    (data : String) (l : List ConnObject) (st : PushState σ) :
    (l.foldl (pushStep write data) st).attempts.map Prod.fst
      = st.attempts.map Prod.fst ++ l := by
  induction l generalizing st with
  | nil => simp
  | cons c l ih => simp [ih, pushStep_attempts]

theorem PushMessage_present {σ : Type} (write : σ → Nat → String → Option String × σ)
    (s : Socket) (w : σ) (identifier data : String) (broadcast : Bool)
    (u : UserConnObject) (hs : s.ConnSet identifier = some (some u)) (hne : u.ConnObjs ≠ []) :
    PushMessage write s w identifier data broadcast =
      { err :=
          if ((pushTargets broadcast u.ConnObjs hne).foldl (pushStep write data)
              { world := w, sent := false, pushErrors := [], attempts := [] }).sent
          then none
          else some (WSError.failed
            ("ws message " ++ data ++ " failed for " ++ identifier ++ ": "
              ++ String.intercalate ":"
                ((pushTargets broadcast u.ConnObjs hne).foldl (pushStep write data)
                  { world := w, sent := false, pushErrors := [], attempts := [] }).pushErrors)),
        world := ((pushTargets broadcast u.ConnObjs hne).foldl (pushStep write data)
              { world := w, sent := false, pushErrors := [], attempts := [] }).world,
        attempts := ((pushTargets broadcast u.ConnObjs hne).foldl (pushStep write data)
              { world := w, sent := false, pushErrors := [], attempts := [] }).attempts,
        socket := s } := by
  have hlen : ¬ u.ConnObjs.length < 1 := by
    have := List.length_pos.mpr hne
    omega
  have hlast : u.ConnObjs.get ⟨u.ConnObjs.length - 1, by omega⟩ = u.ConnObjs.getLast hne := by
    rw [List.getLast_eq_getElem]; rfl
  unfold PushMessage
  simp only [hs, hlen, dite_false, hlast]
  cases broadcast <;> simp [pushTargets] <;> split <;> simp_all


/-! ## Helper lemmas: the registry -/

theorem conns_of_entry (s : Socket) (identifier : String) (u : UserConnObject)
    (hs : s.ConnSet identifier = some (some u)) : s.conns identifier = u.ConnObjs := by
  simp [Socket.conns, hs]

theorem Add_conns (s s1 : Socket) (chain address : String) (n : Nat) (newID identifier : String)
    (h : Add s chain address n newID = some s1) :
    s1.conns identifier =
      if FormatIdentifier chain address = identifier then
        s.conns identifier ++ [{ ID := newID, Conn := n }]
      else s.conns identifier := by
  unfold Add at h
  by_cases hid : FormatIdentifier chain address = identifier
  · subst hid
    rcases hc : s.ConnSet (FormatIdentifier chain address) with _ | _ | u
    · simp [hc, Socket.setEntry] at h
      subst h
      simp [Socket.conns, hc]
    · simp [hc] at h
    · simp [hc, Socket.setEntry] at h
      subst h
      simp [Socket.conns, hc]
  · have hid2 : ¬ identifier = FormatIdentifier chain address := fun e => hid e.symm
    rcases hc : s.ConnSet (FormatIdentifier chain address) with _ | _ | u
    · simp [hc, Socket.setEntry] at h
      subst h
      simp [Socket.conns, hid, hid2]
    · simp [hc] at h
    · simp [hc, Socket.setEntry] at h
      subst h
      simp [Socket.conns, hid, hid2]

theorem Remove_conns (s : Socket) (identifier connID k : String) :
    (Remove s identifier connID).conns k =
      if identifier = k then (s.conns k).filter (fun c => decide (c.ID ≠ connID))
      else s.conns k := by
  unfold Remove
  by_cases hid : identifier = k
  · subst hid
    rcases hc : s.ConnSet identifier with _ | _ | u
    · simp [Socket.conns, hc]
    · simp [Socket.conns, hc]
    · simp only [acceptedConns_eq_filter]
      by_cases he : (u.ConnObjs.filter (fun c => decide (c.ID ≠ connID))).length = 0
      · rw [if_pos he]
        have he2 := List.length_eq_zero.mp he
        simp only [Socket.conns, Socket.deleteEntry, hc, he2, if_true]
      · rw [if_neg he]
        simp only [Socket.conns, Socket.setEntry, hc, if_true]
  · have hid2 : ¬ k = identifier := fun e => hid e.symm
    rcases hc : s.ConnSet identifier with _ | _ | u
    · simp [hid]
    · simp [hid]
    · simp only [acceptedConns_eq_filter]
      split <;> simp [Socket.conns, Socket.setEntry, Socket.deleteEntry, hid, hid2]

theorem removedLater_cons_add (identifier connID chain address : String) (n : Nat)
    (newID : String) (later : List RegistryOp) :
    removedLater identifier connID (RegistryOp.add chain address n newID :: later)
      = removedLater identifier connID later := by
  simp [removedLater]

theorem removedLater_cons_remove (identifier connID i c : String) (later : List RegistryOp) :
    removedLater identifier connID (RegistryOp.remove i c :: later)
      = ((decide (i = identifier) && decide (c = connID)) || removedLater identifier connID later) := by
  simp [removedLater]

/-- The list a history leaves for an identity: what was there and is not
removed by the history, then what the history added and did not remove. -/
theorem runOps_conns (identifier : String) (ops : List RegistryOp) :
    ∀ s s1 : Socket, runOps s ops = some s1 →
      s1.conns identifier =
        (s.conns identifier).filter (fun c => !removedLater identifier c.ID ops)
          ++ addedNotRemoved identifier ops := by
  induction ops with
  | nil =>
    intro s s1 h
    simp [runOps] at h
    subst h
    simp [removedLater, addedNotRemoved]
  | cons op rest ih =>
    intro s s1 h
    cases op with
    | add chain address n newID =>
      simp only [runOps, applyOp] at h
      rcases ha : Add s chain address n newID with _ | s2
      · simp [ha] at h
      · simp only [ha, Option.some_bind] at h
        rw [ih s2 s1 h, Add_conns s s2 chain address n newID identifier ha]
        simp only [removedLater_cons_add, addedNotRemoved]
        by_cases hid : FormatIdentifier chain address = identifier
        · by_cases hr : removedLater identifier newID rest = true
          · simp [hid, hr, List.filter_append]
          · simp [hid, hr, List.filter_append]
        · simp [hid]
    | remove i c =>
      simp only [runOps, applyOp, Option.some_bind] at h
      rw [ih _ s1 h, Remove_conns]
      simp only [addedNotRemoved, removedLater_cons_remove]
      by_cases hid : i = identifier
      · subst hid
        simp only [if_true, List.filter_filter, decide_True, Bool.true_and]
        congr 1
        apply List.filter_congr
        intro x _
        by_cases hx : x.ID = c
        · simp [hx]
        · have hx2 : ¬ c = x.ID := fun e => hx e.symm
          simp [hx, hx2]
      · simp [hid]

/-- `Add` returns unless the key holds a `nil` pointer. -/
theorem Add_isSome_of_ne_nil (s : Socket) (chain address : String) (n : Nat) (newID : String)
    (h : s.ConnSet (FormatIdentifier chain address) ≠ some none) :
    ∃ s1, Add s chain address n newID = some s1 := by
  unfold Add
  rcases hc : s.ConnSet (FormatIdentifier chain address) with _ | _ | u
  · simp [hc, Socket.setEntry]
  · exact absurd hc h
  · simp [hc]


theorem Socket.eq_of_ConnSet (s t : Socket) (h1 : ∀ k, s.ConnSet k = t.ConnSet k)
    (h2 : s.WithReader = t.WithReader) : s = t := by
  cases s; cases t
  simp only [Socket.mk.injEq]
  exact ⟨funext h1, h2⟩

theorem filter_ne_idem (connID : String) (l : List ConnObject) :
    (l.filter (fun c => decide (c.ID ≠ connID))).filter (fun c => decide (c.ID ≠ connID))
      = l.filter (fun c => decide (c.ID ≠ connID)) := by
  simp [List.filter_filter]

theorem Remove_absent (s : Socket) (identifier connID : String)
    (h : s.ConnSet identifier = none ∨ s.ConnSet identifier = some none) :
    Remove s identifier connID = s := by
  unfold Remove
  rcases h with h | h <;> simp [h]

theorem Remove_unknown_conn (s : Socket) (identifier connID : String) (u : UserConnObject)
    (hs : s.ConnSet identifier = some (some u)) (hne : u.ConnObjs ≠ [])
    (hid : ∀ c ∈ u.ConnObjs, c.ID ≠ connID) :
    Remove s identifier connID = s := by
  have hf : u.ConnObjs.filter (fun c => decide (c.ID ≠ connID)) = u.ConnObjs := by
    apply List.filter_eq_self.mpr
    intro c hc
    simpa using hid c hc
  have hl : ¬ u.ConnObjs.length = 0 := fun e => hne (List.length_eq_zero.mp e)
  unfold Remove
  simp only [hs, acceptedConns_eq_filter, hf, hl, if_false]
  apply Socket.eq_of_ConnSet
  · intro k
    by_cases hk : k = identifier
    · subst hk; simp [Socket.setEntry, hs]
    · simp [Socket.setEntry, hk]
  · rfl

theorem Remove_Remove (s : Socket) (identifier connID : String) :
    Remove (Remove s identifier connID) identifier connID = Remove s identifier connID := by
  rcases hc : s.ConnSet identifier with _ | _ | u
  · rw [Remove_absent s identifier connID (Or.inl hc)]
    exact Remove_absent s identifier connID (Or.inl hc)
  · rw [Remove_absent s identifier connID (Or.inr hc)]
    exact Remove_absent s identifier connID (Or.inr hc)
  · by_cases he : (u.ConnObjs.filter (fun c => decide (c.ID ≠ connID))).length = 0
    · have h1 : Remove s identifier connID = s.deleteEntry identifier := by
        unfold Remove
        simp only [hc, acceptedConns_eq_filter]
        rw [if_pos he]
      rw [h1]
      apply Remove_absent
      left
      simp [Socket.deleteEntry]
    · have h1 : Remove s identifier connID = s.setEntry identifier
          (some { u with ConnObjs := u.ConnObjs.filter (fun c => decide (c.ID ≠ connID)) }) := by
        unfold Remove
        simp only [hc, acceptedConns_eq_filter]
        rw [if_neg he]
      rw [h1]
      have h2 := Remove_unknown_conn
        (s.setEntry identifier
          (some { u with ConnObjs := u.ConnObjs.filter (fun c => decide (c.ID ≠ connID)) }))
        identifier connID
        { u with ConnObjs := u.ConnObjs.filter (fun c => decide (c.ID ≠ connID)) }
        (by simp [Socket.setEntry])
        (fun e => he (by simpa using congrArg List.length e))
        (by
          intro c hcm
          have := (List.mem_filter.mp hcm).2
          simpa using this)
      exact h2

/-! ## The registry invariant -/

theorem NewWebSocket_wellFormed (withReader : Bool) : (NewWebSocket withReader).WellFormed := by
  intro k
  simp [NewWebSocket]

theorem Add_wellFormed (s s1 : Socket) (chain address : String) (n : Nat) (newID : String)
    (hwf : s.WellFormed) (h : Add s chain address n newID = some s1) : s1.WellFormed := by
  intro k
  unfold Add at h
  rcases hc : s.ConnSet (FormatIdentifier chain address) with _ | _ | u
  · simp [hc, Socket.setEntry] at h
    subst h
    by_cases hk : k = FormatIdentifier chain address
    · simp [hk]
    · simpa [hk] using hwf k
  · simp [hc] at h
  · simp [hc, Socket.setEntry] at h
    subst h
    by_cases hk : k = FormatIdentifier chain address
    · simp [hk]
    · simpa [hk] using hwf k

theorem Remove_wellFormed (s : Socket) (identifier connID : String) (hwf : s.WellFormed) :
    (Remove s identifier connID).WellFormed := by
  intro k
  unfold Remove
  rcases hc : s.ConnSet identifier with _ | _ | u
  · simpa using hwf k
  · simpa using hwf k
  · simp only [acceptedConns_eq_filter]
    by_cases he : (u.ConnObjs.filter (fun c => decide (c.ID ≠ connID))).length = 0
    · rw [if_pos he]
      by_cases hk : k = identifier
      · simp [Socket.deleteEntry, hk]
      · simpa [Socket.deleteEntry, hk] using hwf k
    · rw [if_neg he]
      by_cases hk : k = identifier
      · have he2 : u.ConnObjs.filter (fun c => decide (c.ID ≠ connID)) ≠ [] :=
          fun e => he (by rw [e]; rfl)
        simpa [Socket.setEntry, hk] using he2
      · simpa [Socket.setEntry, hk] using hwf k

/-- Every history runs to the end from a well-formed registry (no call
panics), and the registry it leaves is well-formed. -/
theorem runOps_wellFormed (ops : List RegistryOp) :
    ∀ s : Socket, s.WellFormed → ∃ s1, runOps s ops = some s1 ∧ s1.WellFormed := by
  induction ops with
  | nil => intro s h; exact ⟨s, rfl, h⟩
  | cons op rest ih =>
    intro s h
    cases op with
    | add chain address n newID =>
      obtain ⟨s2, h2⟩ := Add_isSome_of_ne_nil s chain address n newID (h _).1
      obtain ⟨s3, h3, h4⟩ := ih s2 (Add_wellFormed s s2 chain address n newID h h2)
      exact ⟨s3, by simp [runOps, applyOp, h2, h3], h4⟩
    | remove i c =>
      obtain ⟨s3, h3, h4⟩ := ih _ (Remove_wellFormed s i c h)
      exact ⟨s3, by simp [runOps, applyOp, h3], h4⟩


/-! ## The registry: `PushMessage`, `Add`, `Remove` -/

theorem pushStep_eq {σ : Type} (write : σ → Nat → String → Option String × σ)
    (data : String) (st : PushState σ) (c : ConnObject) :
    (pushStep write data st c).world = (write st.world c.Conn data).2
      ∧ (pushStep write data st c).attempts
        = st.attempts ++ [(c, (write st.world c.Conn data).1)] := by
  unfold pushStep
  rcases hw : write st.world c.Conn data with ⟨_ | e, w1⟩ <;> simp

/-- The loop of `PushMessage` writes on each connection of its list once, in
order, each write in the world the write before it left. -/
theorem pushLoop_writeEach {σ : Type} (write : σ → Nat → String → Option String × σ)
    (data : String) (l : List ConnObject) :
    ∀ st : PushState σ,
      (l.foldl (pushStep write data) st).world = (writeEach write data st.world l).1
        ∧ (l.foldl (pushStep write data) st).attempts
          = st.attempts ++ (writeEach write data st.world l).2 := by
  induction l with
  | nil => intro st; simp [writeEach]
  | cons c l ih =>
    intro st
    obtain ⟨h1, h2⟩ := ih (pushStep write data st c)
    obtain ⟨e1, e2⟩ := pushStep_eq write data st c
    simp only [List.foldl_cons, writeEach, h1, h2, e1, e2, List.append_assoc,
      List.singleton_append]
    exact ⟨trivial, trivial⟩

theorem writeEach_fst {σ : Type} (write : σ → Nat → String → Option String × σ)
    (data : String) (l : List ConnObject) :
    ∀ w : σ, (writeEach write data w l).2.map Prod.fst = l := by
  induction l with
  | nil => intro w; rfl
  | cons c l ih => intro w; simp [writeEach, ih]

/-- C2. For every identity with a non-empty connection list, `PushMessage`
with `broadcast = false` makes exactly one write, on the connection that is
the last element of the list: the world after the call is the world that write
left and the one attempt logged carries what that write returned. With
`broadcast = true` it makes one write on each element of the list, in order,
each in the world the write before it left. In every registry that a history
of `Add` and `Remove` calls builds from `NewWebSocket`, the list is the
connections added to the identity and not removed since, in the order they
were added, so its last element is the most recently added one among those
not yet removed. -/
theorem PushMessage_targets {σ : Type} (write : σ → Nat → String → Option String × σ)
    (s : Socket) (w : σ) (identifier data : String) (u : UserConnObject)
    (hs : s.ConnSet identifier = some (some u)) (hne : u.ConnObjs ≠ []) :
    (PushMessage write s w identifier data false).attempts.map Prod.fst
        = [u.ConnObjs.getLast hne]
      ∧ (PushMessage write s w identifier data true).attempts.map Prod.fst = u.ConnObjs
      ∧ (∀ (withReader : Bool) (ops : List RegistryOp),
          runOps (NewWebSocket withReader) ops = some s →
            u.ConnObjs = addedNotRemoved identifier ops
              ∧ (addedNotRemoved identifier ops).getLast? = some (u.ConnObjs.getLast hne))
      ∧ (PushMessage write s w identifier data false).world
          = (write w (u.ConnObjs.getLast hne).Conn data).2
      ∧ (PushMessage write s w identifier data false).attempts
          = [(u.ConnObjs.getLast hne, (write w (u.ConnObjs.getLast hne).Conn data).1)]
      ∧ (PushMessage write s w identifier data true).world
          = (writeEach write data w u.ConnObjs).1
      ∧ (PushMessage write s w identifier data true).attempts
          = (writeEach write data w u.ConnObjs).2 := by
  have hf := PushMessage_present write s w identifier data false u hs hne
  have ht := PushMessage_present write s w identifier data true u hs hne
  have lf := pushLoop_writeEach write data (pushTargets false u.ConnObjs hne)
    { world := w, sent := false, pushErrors := [], attempts := [] }
  have lt := pushLoop_writeEach write data (pushTargets true u.ConnObjs hne)
    { world := w, sent := false, pushErrors := [], attempts := [] }
  have pf : pushTargets false u.ConnObjs hne = [u.ConnObjs.getLast hne] := by
    simp [pushTargets]
  have pt : pushTargets true u.ConnObjs hne = u.ConnObjs := by
    simp [pushTargets]
  rw [pf] at lf
  rw [pt] at lt
  rw [pf] at hf
  rw [pt] at ht
  simp only [List.nil_append] at lf lt
  refine ⟨?_, ?_, ?_, ?_, ?_, ?_, ?_⟩
  · rw [hf]
    simp only [lf.2]
    rfl
  · rw [ht]
    simp only [lt.2]
    exact writeEach_fst write data u.ConnObjs w
  · intro withReader ops hrun
    have h1 := runOps_conns identifier ops (NewWebSocket withReader) s hrun
    rw [conns_of_entry s identifier u hs] at h1
    have h2 : u.ConnObjs = addedNotRemoved identifier ops := by
      simpa [Socket.conns, NewWebSocket] using h1
    refine ⟨h2, ?_⟩
    rw [← h2]
    exact List.getLast?_eq_getLast _ hne
  · rw [hf]
    simp only [lf.1]
    rfl
  · rw [hf]
    simp only [lf.2]
    rfl
  · rw [ht]
    simp only [lt.1]
  · rw [ht]
    simp only [lt.2]

theorem exampleSocket_alice :
    exampleSocket.ConnSet "algorand_alice"
      = some (some { ConnObjs := [{ ID := "c1", Conn := 1 }, { ID := "c2", Conn := 2 }],
                     IsOnline := false, LastChecked := 0 }) := by
  decide

theorem exampleSocket_run : runOps (NewWebSocket true) exampleHistory = some exampleSocket := by
  rfl

/-- C2 at `exampleSocket`, in a world that lists the writes made: the unicast
writes on the connection of `c2` alone (added after `c1`, and `c3` is
removed), the broadcast on the connection of `c1` and then on that of `c2`. -/
theorem PushMessage_targets_witness :
    (PushMessage writeLog exampleSocket [] "algorand_alice" "hello" false).world
        = [(2, "hello")]
      ∧ (PushMessage writeLog exampleSocket [] "algorand_alice" "hello" false).attempts
        = [({ ID := "c2", Conn := 2 }, none)]
      ∧ (PushMessage writeLog exampleSocket [] "algorand_alice" "hello" true).world
        = [(1, "hello"), (2, "hello")]
      ∧ (PushMessage writeLog exampleSocket [] "algorand_alice" "hello" true).attempts.map Prod.fst
        = [{ ID := "c1", Conn := 1 }, { ID := "c2", Conn := 2 }]
      ∧ (addedNotRemoved "algorand_alice" exampleHistory).getLast?
        = some { ID := "c2", Conn := 2 } := by
  have h := PushMessage_targets writeLog exampleSocket [] "algorand_alice" "hello" _
    exampleSocket_alice (by simp)
  exact ⟨h.2.2.2.1, h.2.2.2.2.1, h.2.2.2.2.2.1, h.2.1,
    (h.2.2.1 true exampleHistory exampleSocket_run).2⟩


/-- C1 at the empty registry: pushing to an identity that was never added. -/
theorem PushMessage_absent_witness :
    (PushMessage writeOk (NewWebSocket true) () "algorand_bob" "hello" true).err
        = some (WSError.connAbsent "ws connection absent" "algorand_bob")
      ∧ (PushMessage writeOk (NewWebSocket true) () "algorand_bob" "hello" true).attempts = []
      ∧ (PushMessage writeOk (NewWebSocket true) () "algorand_bob" "hello" true).world = ()
      ∧ (PushMessage writeOk (NewWebSocket true) () "algorand_bob" "hello" true).socket
        = NewWebSocket true :=
  PushMessage_absent writeOk (NewWebSocket true) () "algorand_bob" "hello" true (Or.inl rfl)

theorem map_snd_of_all_failed (l : List (ConnObject × Option String))
    (h : ∀ a ∈ l, a.2 ≠ none) : l.map Prod.snd = (l.filterMap Prod.snd).map some := by
  induction l with
  | nil => simp
  | cons a l ih =>
    have ha := h a (List.mem_cons_self _ _)
    have hl := ih (fun b hb => h b (List.mem_cons_of_mem _ hb))
    rcases a with ⟨c, _ | e⟩
    · exact absurd rfl ha
    · simp [List.filterMap_cons, hl]

/-- C3. For every identity with at least one connection, `PushMessage` returns
`nil` exactly when one of the writes it attempted succeeded; when none did,
the error it returns is the `ws message ... failed for ...` text that joins,
with `:`, the error of every attempted write, in order. -/
theorem PushMessage_success_iff {σ : Type} (write : σ → Nat → String → Option String × σ)
    (s : Socket) (w : σ) (identifier data : String) (broadcast : Bool) (u : UserConnObject)
    (hs : s.ConnSet identifier = some (some u)) (hne : u.ConnObjs ≠ []) :
    ((PushMessage write s w identifier data broadcast).err = none
        ↔ ∃ a ∈ (PushMessage write s w identifier data broadcast).attempts, a.2 = none)
      ∧ ((∀ a ∈ (PushMessage write s w identifier data broadcast).attempts, a.2 ≠ none) →
          ∃ errs : List String,
            (PushMessage write s w identifier data broadcast).attempts.map Prod.snd
                = errs.map some
              ∧ (PushMessage write s w identifier data broadcast).err
                = some (WSError.failed
                    ("ws message " ++ data ++ " failed for " ++ identifier ++ ": "
                      ++ String.intercalate ":" errs))) := by
  have hcons := pushLoop_consistent write data (pushTargets broadcast u.ConnObjs hne)
    { world := w, sent := false, pushErrors := [], attempts := [] }
    (by simp [PushState.Consistent])
  obtain ⟨h1, h2⟩ := hcons
  rw [PushMessage_present write s w identifier data broadcast u hs hne]
  simp only
  constructor
  · rw [h1]
    constructor
    · intro h
      split at h
      · rename_i hany
        obtain ⟨a, ha, hn⟩ := List.any_eq_true.mp hany
        exact ⟨a, ha, by simpa using hn⟩
      · simp at h
    · rintro ⟨a, ha, hn⟩
      have hany : List.any
          ((pushTargets broadcast u.ConnObjs hne).foldl (pushStep write data)
            { world := w, sent := false, pushErrors := [], attempts := [] }).attempts
          (fun a => a.2.isNone) = true :=
        List.any_eq_true.mpr ⟨a, ha, by simp [hn]⟩
      simp [hany]
  · intro hall
    refine ⟨_, map_snd_of_all_failed _ hall, ?_⟩
    have hnot : ((pushTargets broadcast u.ConnObjs hne).foldl (pushStep write data)
        { world := w, sent := false, pushErrors := [], attempts := [] }).sent = false := by
      rw [h1]
      apply Bool.eq_false_iff.mpr
      intro hany
      obtain ⟨a, ha, hn⟩ := List.any_eq_true.mp hany
      exact hall a ha (by simpa using hn)
    simp [hnot, h2]

/-- C3 at `exampleSocket`: a broadcast in which only the write on `c2`
succeeds returns `nil`, and one in which every write fails returns the text
listing both failures. -/
theorem PushMessage_success_iff_witness :
    (PushMessage writeOnly2 exampleSocket () "algorand_alice" "hello" true).err = none
      ∧ (PushMessage writeFail exampleSocket () "algorand_alice" "hello" true).err
        = some (WSError.failed
            "ws message hello failed for algorand_alice: broken pipe:broken pipe") := by
  refine ⟨?_, ?_⟩
  · exact (PushMessage_success_iff writeOnly2 exampleSocket () "algorand_alice" "hello" true _
      exampleSocket_alice (by simp)).1.mpr ⟨({ ID := "c2", Conn := 2 }, none), by decide, rfl⟩
  · obtain ⟨errs, h1, h2⟩ :=
      (PushMessage_success_iff writeFail exampleSocket () "algorand_alice" "hello" true _
        exampleSocket_alice (by simp)).2 (by decide)
    have h3 : errs = ["broken pipe", "broken pipe"] := by
      have h4 : (PushMessage writeFail exampleSocket () "algorand_alice" "hello" true).attempts.map
          Prod.snd = [some "broken pipe", some "broken pipe"] := by decide
      rw [h4] at h1
      have h5 : [some "broken pipe", some "broken pipe"]
          = (["broken pipe", "broken pipe"] : List String).map some := rfl
      rw [h5] at h1
      exact (List.map_injective_iff.mpr (Option.some_injective _) h1).symm
    rw [h2, h3]
    decide


theorem Add_entry (s : Socket) (chain address : String) (n : Nat) (newID : String)
    (hnil : s.ConnSet (FormatIdentifier chain address) ≠ some none) :
    ∃ s1 u1, Add s chain address n newID = some s1
      ∧ s1.ConnSet (FormatIdentifier chain address) = some (some u1)
      ∧ u1.ConnObjs = s.conns (FormatIdentifier chain address) ++ [{ ID := newID, Conn := n }]
      ∧ (∀ u, s.ConnSet (FormatIdentifier chain address) = some (some u) →
          u1.IsOnline = u.IsOnline ∧ u1.LastChecked = u.LastChecked)
      ∧ (∀ k, k ≠ FormatIdentifier chain address → s1.ConnSet k = s.ConnSet k)
      ∧ s1.WithReader = s.WithReader := by
  rcases hc : s.ConnSet (FormatIdentifier chain address) with _ | _ | u
  · refine ⟨(s.setEntry (FormatIdentifier chain address)
        (some { ConnObjs := [], IsOnline := false, LastChecked := 0 })).setEntry
          (FormatIdentifier chain address)
          (some { ConnObjs := [] ++ [{ ID := newID, Conn := n }], IsOnline := false,
                  LastChecked := 0 }),
      { ConnObjs := [] ++ [{ ID := newID, Conn := n }], IsOnline := false, LastChecked := 0 },
      ?_, ?_, ?_, ?_, ?_, ?_⟩
    · simp only [Add, hc]
      simp only [Socket.setEntry, if_true]
    · simp [Socket.setEntry]
    · simp [Socket.conns, hc]
    · intro u hu; simp at hu
    · intro k hk; simp [Socket.setEntry, hk]
    · simp [Socket.setEntry]
  · exact absurd hc hnil
  · refine ⟨s.setEntry (FormatIdentifier chain address)
        (some { u with ConnObjs := u.ConnObjs ++ [{ ID := newID, Conn := n }] }),
      { u with ConnObjs := u.ConnObjs ++ [{ ID := newID, Conn := n }] },
      ?_, ?_, ?_, ?_, ?_, ?_⟩
    · simp only [Add, hc]
    · simp [Socket.setEntry]
    · simp [Socket.conns, hc]
    · intro u2 hu
      simp at hu
      subst hu
      simp
    · intro k hk; simp [Socket.setEntry, hk]
    · simp [Socket.setEntry]

/-- C4. For every registry in which the identity's key does not hold a `nil`
pointer, `Add` of a connection whose id none of the identity's connections
has, followed by `Remove` of that id, leaves the identity absent when it had
no connection before the `Add` (no key, or an empty list), and otherwise leaves
it with the entry it had before the `Add`: the same connections in the same
order, one fewer than after the `Add`. No other key changes. -/
theorem Add_then_Remove (s : Socket) (chain address : String) (n : Nat) (newID : String)
    (hnil : s.ConnSet (FormatIdentifier chain address) ≠ some none)
    (hfresh : ∀ c ∈ s.conns (FormatIdentifier chain address), c.ID ≠ newID) :
    ∃ s1, Add s chain address n newID = some s1
      ∧ (s.conns (FormatIdentifier chain address) = [] →
          (Remove s1 (FormatIdentifier chain address) newID).ConnSet
            (FormatIdentifier chain address) = none)
      ∧ (∀ u, s.ConnSet (FormatIdentifier chain address) = some (some u) → u.ConnObjs ≠ [] →
          (Remove s1 (FormatIdentifier chain address) newID).ConnSet
              (FormatIdentifier chain address) = some (some u)
            ∧ (s1.conns (FormatIdentifier chain address)).length = u.ConnObjs.length + 1)
      ∧ (∀ k, k ≠ FormatIdentifier chain address →
          (Remove s1 (FormatIdentifier chain address) newID).ConnSet k = s.ConnSet k) := by
  obtain ⟨s1, u1, h1, h2, h3, h4, h5, _⟩ := Add_entry s chain address n newID hnil
  have hfilter : u1.ConnObjs.filter (fun c => decide (c.ID ≠ newID))
      = s.conns (FormatIdentifier chain address) := by
    rw [h3, List.filter_append]
    have : (s.conns (FormatIdentifier chain address)).filter (fun c => decide (c.ID ≠ newID))
        = s.conns (FormatIdentifier chain address) := by
      apply List.filter_eq_self.mpr
      intro c hc
      simpa using hfresh c hc
    rw [this]
    simp
  refine ⟨s1, h1, ?_, ?_, ?_⟩
  · intro hempty
    unfold Remove
    simp only [h2, acceptedConns_eq_filter, hfilter, hempty, List.length_nil, if_true]
    simp [Socket.deleteEntry]
  · intro u hu hne
    have hconns : s.conns (FormatIdentifier chain address) = u.ConnObjs :=
      conns_of_entry s _ u hu
    have hl : ¬ u.ConnObjs.length = 0 := fun e => hne (List.length_eq_zero.mp e)
    obtain ⟨ho, ht⟩ := h4 u hu
    constructor
    · unfold Remove
      simp only [h2, acceptedConns_eq_filter, hfilter, hconns, hl, if_false]
      simp only [Socket.setEntry, if_true]
      rw [ho, ht]
    · rw [conns_of_entry s1 _ u1 h2, h3, hconns]
      simp
  · intro k hk
    unfold Remove
    simp only [h2, acceptedConns_eq_filter]
    split
    · simp [Socket.deleteEntry, hk, h5 k hk]
    · simp [Socket.setEntry, hk, h5 k hk]

/-- C4 at `exampleSocket` and at the empty registry: a third connection of
`algorand_alice` added and removed leaves her two connections, a first
connection of `algorand_bob` added and removed leaves no key for him. -/
theorem Add_then_Remove_witness :
    (∃ s1, Add exampleSocket "algorand" "alice" 7 "c7" = some s1
      ∧ (Remove s1 "algorand_alice" "c7").ConnSet "algorand_alice"
        = some (some { ConnObjs := [{ ID := "c1", Conn := 1 }, { ID := "c2", Conn := 2 }],
                       IsOnline := false, LastChecked := 0 })
      ∧ (s1.conns "algorand_alice").length = 3)
    ∧ (∃ s1, Add (NewWebSocket true) "algorand" "bob" 7 "c7" = some s1
      ∧ (Remove s1 "algorand_bob" "c7").ConnSet "algorand_bob" = none) := by
  constructor
  · obtain ⟨s1, h1, _, h3, _⟩ := Add_then_Remove exampleSocket "algorand" "alice" 7 "c7"
      (by decide) (by decide)
    exact ⟨s1, h1, (h3 _ exampleSocket_alice (by simp)).1, (h3 _ exampleSocket_alice (by simp)).2⟩
  · obtain ⟨s1, h1, h2, _, _⟩ := Add_then_Remove (NewWebSocket true) "algorand" "bob" 7 "c7"
      (by decide) (by decide)
    exact ⟨s1, h1, h2 (by decide)⟩

/-- C5. `Remove` is idempotent on every registry: a second `Remove` of the same
key and connection id changes nothing. `Remove` leaves the registry as it is
when the key is absent or holds `nil`, and when the key holds a non-empty
list none of whose connections has the given id. -/
theorem Remove_idempotent (s : Socket) (identifier connID : String) :
    Remove (Remove s identifier connID) identifier connID = Remove s identifier connID
      ∧ (s.ConnSet identifier = none ∨ s.ConnSet identifier = some none →
          Remove s identifier connID = s)
      ∧ (∀ u, s.ConnSet identifier = some (some u) → u.ConnObjs ≠ [] →
          (∀ c ∈ u.ConnObjs, c.ID ≠ connID) → Remove s identifier connID = s) :=
  ⟨Remove_Remove s identifier connID, Remove_absent s identifier connID,
    fun u hs hne hid => Remove_unknown_conn s identifier connID u hs hne hid⟩

/-- C5 at `exampleSocket`: removing an unknown key, and removing an unknown
connection id of `algorand_alice`, change nothing. -/
theorem Remove_idempotent_witness :
    Remove exampleSocket "algorand_bob" "c1" = exampleSocket
      ∧ Remove exampleSocket "algorand_alice" "c9" = exampleSocket
      ∧ Remove (Remove exampleSocket "algorand_alice" "c1") "algorand_alice" "c1"
        = Remove exampleSocket "algorand_alice" "c1" :=
  ⟨(Remove_idempotent exampleSocket "algorand_bob" "c1").2.1 (Or.inl (by decide)),
   (Remove_idempotent exampleSocket "algorand_alice" "c9").2.2 _ exampleSocket_alice
      (by simp) (by decide),
   (Remove_idempotent exampleSocket "algorand_alice" "c1").1⟩


/-! ## The inbound reader -/

theorem readerFn_append (address : String) (pre rest : List ReadEvent)
    (hpre : ReadEvent.readError ∉ pre) :
    readerFn address (pre ++ rest) = readerFn address pre ++ readerFn address rest := by
  induction pre with
  | nil => simp [readerFn]
  | cons e pre ih =>
    have hpre2 : ReadEvent.readError ∉ pre := fun h => hpre (List.mem_cons_of_mem _ h)
    cases e with
    | readError => exact absurd (List.mem_cons_self _ _) hpre
    | frame decoded now =>
      cases decoded with
      | none => simpa [readerFn] using ih hpre2
      | some m => simp [readerFn, ih hpre2]

/-- C6. For every frame the reader decodes before a read error ends it, the
message sent on the inbound stream (in the frame's place in the order) has
the frame's sender when that is non-empty and the owner address of the
connection otherwise, the frame's time when that is non-zero and the current
Unix time otherwise, and every other field as decoded. -/
theorem readerFn_defaults (address : String) (pre post : List ReadEvent) (msg : Message)
    (now : Int) (hpre : ReadEvent.readError ∉ pre) :
    ∃ m : Message,
      readerFn address (pre ++ ReadEvent.frame (some msg) now :: post)
          = readerFn address pre ++ m :: readerFn address post
        ∧ m.Sender = (if msg.Sender = "" then address else msg.Sender)
        ∧ m.Time = (if msg.Time = 0 then now else msg.Time)
        ∧ m.Data = msg.Data ∧ m.Receiver = msg.Receiver ∧ m.Chain = msg.Chain
        ∧ m.Kind = msg.Kind ∧ m.UUID = msg.UUID := by
  refine ⟨fillDefaults address now msg, ?_, ?_, ?_, ?_, ?_, ?_, ?_, ?_⟩
  · rw [readerFn_append address pre _ hpre]
    simp [readerFn]
  all_goals
    unfold fillDefaults
    by_cases h1 : msg.Sender = "" <;> by_cases h2 : msg.Time = 0 <;> simp [h1, h2]

/-- C6 on a stream of three frames: one that does not decode, one without
sender and time, one with both. -/
theorem readerFn_defaults_witness :
    ∃ m : Message,
      readerFn "alice"
          ([ReadEvent.frame none 50] ++
            ReadEvent.frame (some { chatMsg with Sender := "", Time := 0 }) 60 ::
              [ReadEvent.frame (some chatMsg) 70])
          = readerFn "alice" [ReadEvent.frame none 50] ++ m ::
              readerFn "alice" [ReadEvent.frame (some chatMsg) 70]
        ∧ m.Sender = "alice" ∧ m.Time = 60 := by
  obtain ⟨m, h1, h2, h3, _⟩ := readerFn_defaults "alice" [ReadEvent.frame none 50]
    [ReadEvent.frame (some chatMsg) 70] { chatMsg with Sender := "", Time := 0 } 60 (by decide)
  exact ⟨m, h1, by simpa using h2, by simpa using h3⟩


/-! ## The chat relay -/

theorem sendChat_effects_blocked {σ : Type} (write : σ → Nat → String → Option String × σ)
    (json : Frame → String) (blocked : BlockedUserCacheModel) (ttl : Int) (uuid : String)
    (batchOk : Bool) (st : ChatState σ) (msg : Message)
    (h : IsBlockedUserInCache blocked msg.Chain msg.Receiver msg.Sender = true) :
    (sendChat write json blocked ttl uuid batchOk st msg).effects
        = [Effect.push (FormatIdentifier msg.Chain msg.Sender)
            (Frame.resp { Uuid := uuid, Status := MsgBlocked, Sender := "", Time := 0 }) true
            (PushMessage write st.ws st.world (FormatIdentifier msg.Chain msg.Sender)
              (json (Frame.resp { Uuid := uuid, Status := MsgBlocked, Sender := "", Time := 0 }))
              true).err]
      ∧ (sendChat write json blocked ttl uuid batchOk st msg).state.table = st.table
      ∧ (sendChat write json blocked ttl uuid batchOk st msg).state.notifications
        = st.notifications := by
  simp [sendChat, h]


theorem PushMessage_socket {σ : Type} (write : σ → Nat → String → Option String × σ)
    (s : Socket) (w : σ) (identifier data : String) (broadcast : Bool) :
    (PushMessage write s w identifier data broadcast).socket = s := by
  unfold PushMessage
  rcases hc : s.ConnSet identifier with _ | _ | u
  · simp
  · simp
  · simp only
    split
    · rfl
    · split <;> split <;> rfl

theorem sendChat_effects_unblocked {σ : Type} (write : σ → Nat → String → Option String × σ)
    (json : Frame → String) (blocked : BlockedUserCacheModel) (ttl : Int) (uuid : String)
    (batchOk : Bool) (st : ChatState σ) (msg : Message)
    (h : IsBlockedUserInCache blocked msg.Chain msg.Receiver msg.Sender = false) :
    (sendChat write json blocked ttl uuid batchOk st msg).effects
        = [Effect.push (FormatIdentifier msg.Chain msg.Receiver) (Frame.chat (chatDataOf uuid msg))
            true
            (PushMessage write st.ws st.world (FormatIdentifier msg.Chain msg.Receiver)
              (json (Frame.chat (chatDataOf uuid msg))) true).err,
           Effect.push (FormatIdentifier msg.Chain msg.Sender)
            (Frame.resp
              { Uuid := uuid,
                Status := chatStatusOf
                  (PushMessage write st.ws st.world (FormatIdentifier msg.Chain msg.Receiver)
                    (json (Frame.chat (chatDataOf uuid msg))) true).err,
                Sender := "", Time := 0 })
            true
            (PushMessage write st.ws
              (PushMessage write st.ws st.world (FormatIdentifier msg.Chain msg.Receiver)
                (json (Frame.chat (chatDataOf uuid msg))) true).world
              (FormatIdentifier msg.Chain msg.Sender)
              (json (Frame.resp
                { Uuid := uuid,
                  Status := chatStatusOf
                    (PushMessage write st.ws st.world (FormatIdentifier msg.Chain msg.Receiver)
                      (json (Frame.chat (chatDataOf uuid msg))) true).err,
                  Sender := "", Time := 0 }))
              true).err,
           Effect.store
            { chatDataOf uuid msg with
              Status := chatStatusOf
                (PushMessage write st.ws st.world (FormatIdentifier msg.Chain msg.Receiver)
                  (json (Frame.chat (chatDataOf uuid msg))) true).err }
            ttl,
           Effect.notify (chatNotification
            { chatDataOf uuid msg with
              Status := chatStatusOf
                (PushMessage write st.ws st.world (FormatIdentifier msg.Chain msg.Receiver)
                  (json (Frame.chat (chatDataOf uuid msg))) true).err })]
      ∧ (sendChat write json blocked ttl uuid batchOk st msg).state.table
        = (StorePersonalChat batchOk st.table
            { chatDataOf uuid msg with
              Status := chatStatusOf
                (PushMessage write st.ws st.world (FormatIdentifier msg.Chain msg.Receiver)
                  (json (Frame.chat (chatDataOf uuid msg))) true).err }).1
      ∧ (sendChat write json blocked ttl uuid batchOk st msg).state.notifications
        = st.notifications ++ [chatNotification
            { chatDataOf uuid msg with
              Status := chatStatusOf
                (PushMessage write st.ws st.world (FormatIdentifier msg.Chain msg.Receiver)
                  (json (Frame.chat (chatDataOf uuid msg))) true).err }] := by
  simp only [sendChat, h, chatDataOf, chatStatusOf]
  simp [PushMessage_socket]


theorem StorePersonalChat_rows (t : UserChatTable) (row : UserChat) :
    (StorePersonalChat true t row).1 row.Chain row.UserA row.UserB row.SentTime = some row
      ∧ (StorePersonalChat true t row).1 row.Chain row.UserB row.UserA row.SentTime
        = some { row with UserA := row.UserB, UserB := row.UserA } := by
  constructor
  · by_cases hab : row.UserA = row.UserB
    · cases row
      simp_all [StorePersonalChat, UserChatTable.insert]
    · have hba : ¬ row.UserB = row.UserA := fun e => hab e.symm
      simp [StorePersonalChat, UserChatTable.insert, hab, hba]
  · simp [StorePersonalChat, UserChatTable.insert]


theorem sendChatAck_table {σ : Type} (write : σ → Nat → String → Option String × σ)
    (json : Frame → String) (st : ChatState σ) (msg : Message) :
    (sendChatAck write json true true st msg).state.table
      = (st.table.updateStatus UserChatAckKind msg.Chain msg.Receiver msg.Sender
          msg.Time).updateStatus UserChatSeenKind msg.Chain msg.Sender msg.Receiver msg.Time := by
  simp [sendChatAck]

/-- C10, as stated, fails. Alice's chat to bob is delivered (both rows have
status `delivered`); bob's ack with the chat's uuid and sent time leaves the
row on alice's side (`user_a` alice, `user_b` bob) with status `ack`, not
`seen`, and the row on bob's side (`user_a` bob, `user_b` alice) with status
`seen`. The same ack with another time changes neither row. -/
theorem sendChatAck_counterexample :
    (deliveredState.table "algorand" "alice" "bob" 100).map UserChat.Status = some "delivered"
      ∧ (deliveredState.table "algorand" "bob" "alice" 100).map UserChat.Status = some "delivered"
      ∧ (deliveredState.table "algorand" "alice" "bob" 100).map UserChat.Uuid = some ackMsg.UUID
      ∧ ((sendChatAck writeOk showFrame true true deliveredState ackMsg).state.table
          "algorand" "alice" "bob" 100).map UserChat.Status = some "ack"
      ∧ ((sendChatAck writeOk showFrame true true deliveredState ackMsg).state.table
          "algorand" "bob" "alice" 100).map UserChat.Status = some "seen"
      ∧ ((sendChatAck writeOk showFrame true true deliveredState ackMsgLate).state.table
          "algorand" "alice" "bob" 100).map UserChat.Status = some "delivered"
      ∧ ((sendChatAck writeOk showFrame true true deliveredState ackMsgLate).state.table
          "algorand" "bob" "alice" 100).map UserChat.Status = some "delivered" := by
  refine ⟨?_, ?_, ?_, ?_, ?_, ?_, ?_⟩ <;> decide

/-- C10, amended. When the receiver R of a delivered chat from another user S
sends an ack frame on the chat's chain whose time is the chat's sent time
(ack sender R, ack receiver S; the uuid of the ack is not consulted), and the
two updates execute, the stored row on the original sender's side
(`user_a` S, `user_b` R) moves from `delivered` to status `ack` and the stored
row on the original receiver's side (`user_a` R, `user_b` S) moves from
`delivered` to status `seen`. -/
theorem sendChat_then_ack {σ : Type} (write : σ → Nat → String → Option String × σ)
    (json : Frame → String) (blocked : BlockedUserCacheModel) (ttl : Int) (uuid : String)
    (st : ChatState σ) (chat ack : Message)
    (hblocked : IsBlockedUserInCache blocked chat.Chain chat.Receiver chat.Sender = false)
    (hdelivered : (PushMessage write st.ws st.world (FormatIdentifier chat.Chain chat.Receiver)
      (json (Frame.chat (chatDataOf uuid chat))) true).err = none)
    (hne : chat.Sender ≠ chat.Receiver)
    (hchain : ack.Chain = chat.Chain) (hsender : ack.Sender = chat.Receiver)
    (hreceiver : ack.Receiver = chat.Sender) (htime : ack.Time = chat.Time) :
    (sendChat write json blocked ttl uuid true st chat).state.table
        chat.Chain chat.Sender chat.Receiver chat.Time
      = some { chatDataOf uuid chat with Status := MsgDelivered }
    ∧ (sendChat write json blocked ttl uuid true st chat).state.table
        chat.Chain chat.Receiver chat.Sender chat.Time
      = some { chatDataOf uuid chat with
                UserA := chat.Receiver, UserB := chat.Sender, Status := MsgDelivered }
    ∧ (sendChatAck write json true true
          (sendChat write json blocked ttl uuid true st chat).state ack).state.table
        chat.Chain chat.Sender chat.Receiver chat.Time
      = some { chatDataOf uuid chat with Status := UserChatAckKind }
    ∧ (sendChatAck write json true true
          (sendChat write json blocked ttl uuid true st chat).state ack).state.table
        chat.Chain chat.Receiver chat.Sender chat.Time
      = some { chatDataOf uuid chat with
                UserA := chat.Receiver, UserB := chat.Sender, Status := UserChatSeenKind } := by
  obtain ⟨_, h2, _⟩ := sendChat_effects_unblocked write json blocked ttl uuid true st chat hblocked
  have hrows := StorePersonalChat_rows st.table
    { chatDataOf uuid chat with Status := MsgDelivered }
  rw [hdelivered] at h2
  have hst : chatStatusOf none = MsgDelivered := rfl
  rw [hst] at h2
  rw [← h2] at hrows
  obtain ⟨hr1, hr2⟩ := hrows
  have hr1' : (sendChat write json blocked ttl uuid true st chat).state.table
      chat.Chain chat.Sender chat.Receiver chat.Time
        = some { chatDataOf uuid chat with Status := MsgDelivered } := hr1
  have hr2' : (sendChat write json blocked ttl uuid true st chat).state.table
      chat.Chain chat.Receiver chat.Sender chat.Time
        = some { chatDataOf uuid chat with
                  UserA := chat.Receiver, UserB := chat.Sender, Status := MsgDelivered } := hr2
  have hne2 : ¬ chat.Receiver = chat.Sender := fun e => hne e.symm
  refine ⟨hr1', hr2', ?_, ?_⟩
  · rw [sendChatAck_table, hchain, hsender, hreceiver, htime]
    simp [UserChatTable.updateStatus, hne, hne2, hr1']
  · rw [sendChatAck_table, hchain, hsender, hreceiver, htime]
    simp [UserChatTable.updateStatus, hne, hne2, hr2']

/-- C10, amended, on alice's chat to bob and bob's ack. -/
theorem sendChat_then_ack_witness :
    (sendChatAck writeOk showFrame true true
          (sendChat writeOk showFrame BlockedUserCacheModel.empty 604800 serverUuid true
            chatState chatMsg).state ackMsg).state.table "algorand" "alice" "bob" 100
      = some { chatDataOf serverUuid chatMsg with Status := "ack" }
    ∧ (sendChatAck writeOk showFrame true true
          (sendChat writeOk showFrame BlockedUserCacheModel.empty 604800 serverUuid true
            chatState chatMsg).state ackMsg).state.table "algorand" "bob" "alice" 100
      = some { chatDataOf serverUuid chatMsg with
                UserA := "bob", UserB := "alice", Status := "seen" } :=
  ⟨(sendChat_then_ack writeOk showFrame BlockedUserCacheModel.empty 604800 serverUuid
      chatState chatMsg ackMsg (by decide) (by decide) (by decide) rfl rfl rfl rfl).2.2.1,
   (sendChat_then_ack writeOk showFrame BlockedUserCacheModel.empty 604800 serverUuid
      chatState chatMsg ackMsg (by decide) (by decide) (by decide) rfl rfl rfl rfl).2.2.2⟩

/-! ## `SendNotifications`: validation -/

/-- The checks of lines 193-277 on a request without schedule, as one
unfolding: every failing check returns its error with no effect, and a
request that passes them continues with the resolved receivers. -/
theorem SendNotifications_immediate (env : NotifEnv) (formatTime : Int → String)
    (request : NotificationRequest) (hs : request.Schedule = zeroTime) :
    SendNotifications env formatTime request =
      match env.GetUserModel request.Chain request.Sender with
      | Except.error e => SendOutcome.fail (SendError.getUserModel e)
      | Except.ok u =>
        if (request.Message.utf8ByteSize : Int) > NotificationCharacterCount (tierOf env u) then
          SendOutcome.fail (SendError.textTooLong (NotificationCharacterCount (tierOf env u)))
        else if (request.Link.utf8ByteSize : Int) > NotificationCharacterCount (tierOf env u) then
          SendOutcome.fail (SendError.linkTooLong (NotificationCharacterCount (tierOf env u)))
        else
          match env.GetChannel request.Chain request.Channel with
          | Except.error e => SendOutcome.fail (SendError.getChannel e)
          | Except.ok ch =>
            if ch.Status = STATUS_CHANNEL_LIMIT_EXCEEDED then
              SendOutcome.fail SendError.channelLimitExceeded
            else if ch.Status ≠ STATUS_ACTIVE then
              SendOutcome.fail (SendError.channelNotActive ch.Status)
            else if request.Sender ≠ ch.Owner then
              SendOutcome.fail SendError.senderNotOwner
            else
              match resolvedReceivers env request with
              | Except.error e => SendOutcome.fail (SendError.fetchUsers request.Channel e)
              | Except.ok receivers =>
                sendResolved env formatTime
                  { request with Hash := Encrypt env.Sha512 request.Message }
                  (tierOf env u) (NotificationRetentionSecs (tierOf env u)) ch receivers := by
  unfold SendNotifications
  simp only [hs, ne_eq, not_true_eq_false, if_false, tierOf, resolvedReceivers]
  cases env.GetUserModel request.Chain request.Sender with
  | error e => rfl
  | ok u =>
    simp only
    split
    · rfl
    · split
      · rfl
      · cases env.GetChannel request.Chain request.Channel with
        | error e => rfl
        | ok ch =>
          simp only
          split
          · rfl
          · split
            · rfl
            · split
              · rfl
              · by_cases hk : request.Kind = "public"
                · simp only [hk, if_true]
                · simp only [hk, if_false]

/-- The outcome of `sendResolved` is an error without effect, or success
without effect, unless the receivers are not empty, the lookup of the sent
count succeeds and the receivers fit the remaining quota. -/
theorem sendResolved_quota (env : NotifEnv) (formatTime : Int → String)
    (request : NotificationRequest) (membership ttl : Int) (ch : ChannelModel)
    (receivers : List String) (totalSent : Int)
    (hm : env.GetUserSendMetricsForMonth request.Chain request.Sender = Except.ok totalSent)
    (hq : (receivers.length : Int) > remainingQuota membership totalSent) :
    sendResolved env formatTime request membership ttl ch receivers =
      SendOutcome.fail
        (SendError.quotaExceeded receivers.length (remainingQuota membership totalSent)) := by
  have hrem : (if NotificationCount membership - totalSent < 0 then 0
      else NotificationCount membership - totalSent) = remainingQuota membership totalSent := by
    unfold remainingQuota
    split
    · rw [max_eq_left]; omega
    · rw [max_eq_right]; omega
  have hpos : ¬ ((receivers.length : Int) = 0) := by
    have : (0 : Int) ≤ remainingQuota membership totalSent := le_max_left _ _
    omega
  unfold sendResolved
  simp only [hpos, if_false, hm, hrem, hq, if_true]

set_option maxRecDepth 20000

/-- C11, as stated, fails. In `exampleEnv` the sender has the free tier (120
characters) and the message has 121 bytes: without schedule the call returns
the text-too-long error with no effect, but with a schedule one hour ahead it
returns `nil` and inserts the ScheduledNotification row. -/
theorem SendNotifications_long_scheduled_counterexample :
    (longScheduledRequest.Message.utf8ByteSize : Int)
        > NotificationCharacterCount (tierOf exampleEnv (exampleUser "sender" false))
      ∧ (SendNotifications exampleEnv exampleFormatTime longRequest).err
        = some (SendError.textTooLong 120)
      ∧ (SendNotifications exampleEnv exampleFormatTime longScheduledRequest).err = none
      ∧ (SendNotifications exampleEnv exampleFormatTime longScheduledRequest).effects
        = [NotifEffect.scheduledInsert
            { Chain := "algorand", Sender := "sender", Receivers := [], Message := longMessage,
              Link := "", Channel := "app1", Kind := "public", Schedule := 1700003600000000000,
              TTL := 604800 }
            648000 true] := by
  refine ⟨?_, ?_, ?_, ?_⟩ <;> decide

/-- C11, amended. For every SendNotifications request without a schedule whose
message has more bytes than the character count of the sender's membership
tier, the call returns the text-too-long validation error with no effect: no
Notification row and no ScheduledNotification row is inserted. (A request
that carries a schedule is not checked for length when it is stored.) -/
theorem SendNotifications_text_too_long (env : NotifEnv) (formatTime : Int → String)
    (request : NotificationRequest) (u : UserModel)
    (hs : request.Schedule = zeroTime)
    (hu : env.GetUserModel request.Chain request.Sender = Except.ok u)
    (hlen : (request.Message.utf8ByteSize : Int) > NotificationCharacterCount (tierOf env u)) :
    SendNotifications env formatTime request
      = { err := some (SendError.textTooLong (NotificationCharacterCount (tierOf env u))),
          effects := [] } := by
  rw [SendNotifications_immediate env formatTime request hs, hu]
  simp only [hlen, if_true, SendOutcome.fail]

/-- C11, amended, on the request with the message of 121 bytes. -/
theorem SendNotifications_text_too_long_witness :
    SendNotifications exampleEnv exampleFormatTime longRequest
      = { err := some (SendError.textTooLong 120), effects := [] } :=
  SendNotifications_text_too_long exampleEnv exampleFormatTime longRequest
    (exampleUser "sender" false) (by decide) rfl (by decide)

/-- The quota check on the value the lookup returns. For every request
without schedule whose resolved receivers are more than
`max 0 (NotificationCount[tier] - totalSent)`, where `totalSent` is what
`GetUserSendMetricsForMonth` returns to the call, the call returns an error
and has no effect: no Notification row is inserted, nothing is pushed or
enqueued, no counter is updated. -/
theorem SendNotifications_quota_exceeded (env : NotifEnv) (formatTime : Int → String)
    (request : NotificationRequest) (u : UserModel) (receivers : List String) (totalSent : Int)
    (hs : request.Schedule = zeroTime)
    (hu : env.GetUserModel request.Chain request.Sender = Except.ok u)
    (hr : resolvedReceivers env request = Except.ok receivers)
    (hm : env.GetUserSendMetricsForMonth request.Chain request.Sender = Except.ok totalSent)
    (hq : (receivers.length : Int) > remainingQuota (tierOf env u) totalSent) :
    ∃ e, (SendNotifications env formatTime request).err = some e
      ∧ (SendNotifications env formatTime request).effects = [] := by
  rw [SendNotifications_immediate env formatTime request hs, hu]
  simp only [hr]
  split
  · exact ⟨_, rfl, rfl⟩
  · split
    · exact ⟨_, rfl, rfl⟩
    · split
      · exact ⟨_, rfl, rfl⟩
      · split
        · exact ⟨_, rfl, rfl⟩
        · split
          · exact ⟨_, rfl, rfl⟩
          · split
            · exact ⟨_, rfl, rfl⟩
            · rename_i channelData _ _ _ _
              have hres := sendResolved_quota env formatTime
                { request with Hash := Encrypt env.Sha512 request.Message } (tierOf env u)
                (NotificationRetentionSecs (tierOf env u)) channelData receivers totalSent hm hq
              rw [hres]
              exact ⟨_, rfl, rfl⟩

/-- The quota check in `busyEnv`, where the lookup returns 999: three
receivers and one notification left. -/
theorem SendNotifications_quota_exceeded_witness :
    ∃ e, (SendNotifications busyEnv exampleFormatTime publicRequest).err = some e
      ∧ (SendNotifications busyEnv exampleFormatTime publicRequest).effects = [] :=
  SendNotifications_quota_exceeded busyEnv exampleFormatTime publicRequest
    (exampleUser "sender" false) ["u1", "u2", "u3"] 999 (by decide) rfl rfl rfl (by decide)

/-- C13. For every request whose schedule is set and later than now plus the
maximum schedule horizon of the sender's tier (`NotificationMaxSchedule`
seconds), the call returns the schedule-too-late error and has no effect: it
inserts neither a ScheduledNotification row nor a Notification row. -/
theorem SendNotifications_schedule_too_late (env : NotifEnv) (formatTime : Int → String)
    (request : NotificationRequest) (u : UserModel)
    (hsched : request.Schedule ≠ zeroTime)
    (hu : env.GetUserModel request.Chain request.Sender = Except.ok u)
    (hlate : request.Schedule
      > env.TimeNow + 1000000000 * NotificationMaxSchedule (tierOf env u)) :
    SendNotifications env formatTime request
      = { err := some (SendError.scheduleTooLate
            (env.TimeNow + 1000000000 * NotificationMaxSchedule (tierOf env u)) (tierOf env u)),
          effects := [] } := by
  unfold SendNotifications
  simp only [hu, tierOf] at hlate ⊢
  simp only [ne_eq, hsched, not_false_eq_true, if_true, hlate, SendOutcome.fail]

/-- C13 on the request scheduled eight days ahead by a sender of the free
tier. -/
theorem SendNotifications_schedule_too_late_witness :
    SendNotifications exampleEnv exampleFormatTime lateScheduledRequest
      = { err := some (SendError.scheduleTooLate 1700604800000000000 1), effects := [] } :=
  SendNotifications_schedule_too_late exampleEnv exampleFormatTime lateScheduledRequest
    (exampleUser "sender" false) (by decide) rfl (by decide)

/-- C14. For every request whose schedule is set and not later than now plus
the horizon of the sender's tier, the only effect of the call is one insert
of a ScheduledNotification row whose TTL is the retention of the tier in
seconds plus 43200 (no Notification row, no push, no enqueue, no counter
update), and the call returns `nil` exactly when that insert executes. -/
theorem SendNotifications_scheduled (env : NotifEnv) (formatTime : Int → String)
    (request : NotificationRequest) (u : UserModel)
    (hsched : request.Schedule ≠ zeroTime)
    (hu : env.GetUserModel request.Chain request.Sender = Except.ok u)
    (hwithin : request.Schedule
      ≤ env.TimeNow + 1000000000 * NotificationMaxSchedule (tierOf env u)) :
    (SendNotifications env formatTime request).effects
        = [NotifEffect.scheduledInsert
            { Chain := request.Chain, Sender := request.Sender,
              Receivers := request.Receivers, Message := request.Message,
              Link := request.Link, Channel := request.Channel, Kind := request.Kind,
              Schedule := request.Schedule,
              TTL := NotificationRetentionSecs (tierOf env u) }
            (NotificationRetentionSecs (tierOf env u) + 43200)
            (env.ExecScheduledInsert
              { Chain := request.Chain, Sender := request.Sender,
                Receivers := request.Receivers, Message := request.Message,
                Link := request.Link, Channel := request.Channel, Kind := request.Kind,
                Schedule := request.Schedule,
                TTL := NotificationRetentionSecs (tierOf env u) }).isNone]
      ∧ ((SendNotifications env formatTime request).err = none
          ↔ env.ExecScheduledInsert
              { Chain := request.Chain, Sender := request.Sender,
                Receivers := request.Receivers, Message := request.Message,
                Link := request.Link, Channel := request.Channel, Kind := request.Kind,
                Schedule := request.Schedule,
                TTL := NotificationRetentionSecs (tierOf env u) } = none) := by
  have hnot : ¬ request.Schedule
      > env.TimeNow + 1000000000 * NotificationMaxSchedule (tierOf env u) := by omega
  unfold SendNotifications
  simp only [hu, tierOf] at hnot ⊢
  simp only [ne_eq, hsched, not_false_eq_true, if_true, hnot, if_false,
    InsertScheduledNotificationInfo]
  cases env.ExecScheduledInsert
      { Chain := request.Chain, Sender := request.Sender,
        Receivers := request.Receivers, Message := request.Message,
        Link := request.Link, Channel := request.Channel, Kind := request.Kind,
        Schedule := request.Schedule,
        TTL := NotificationRetentionSecs
          (MembershipStringToEnum env.TrimSpace env.ToLower u.Membership) } <;> simp

/-- C14 on the request scheduled one hour ahead by a sender of the free tier:
the TTL is 604800 + 43200 and the call returns `nil`. -/
theorem SendNotifications_scheduled_witness :
    (SendNotifications exampleEnv exampleFormatTime scheduledRequest).effects
        = [NotifEffect.scheduledInsert
            { Chain := "algorand", Sender := "sender", Receivers := [], Message := "hello",
              Link := "", Channel := "app1", Kind := "public",
              Schedule := 1700003600000000000, TTL := 604800 }
            648000 true]
      ∧ (SendNotifications exampleEnv exampleFormatTime scheduledRequest).err = none :=
  ⟨(SendNotifications_scheduled exampleEnv exampleFormatTime scheduledRequest
      (exampleUser "sender" false) (by decide) rfl (by decide)).1,
   (SendNotifications_scheduled exampleEnv exampleFormatTime scheduledRequest
      (exampleUser "sender" false) (by decide) rfl (by decide)).2.mpr rfl⟩

/-- C15. For every request without schedule, if the status of the channel is
not `ACTIVE` or the sender is not the owner of the channel, the call returns
an error and has no effect: nothing is persisted, pushed or enqueued. -/
theorem SendNotifications_channel_guard (env : NotifEnv) (formatTime : Int → String)
    (request : NotificationRequest) (ch : ChannelModel)
    (hs : request.Schedule = zeroTime)
    (hc : env.GetChannel request.Chain request.Channel = Except.ok ch)
    (hbad : ch.Status ≠ STATUS_ACTIVE ∨ request.Sender ≠ ch.Owner) :
    ∃ e, (SendNotifications env formatTime request).err = some e
      ∧ (SendNotifications env formatTime request).effects = [] := by
  rw [SendNotifications_immediate env formatTime request hs]
  cases env.GetUserModel request.Chain request.Sender with
  | error e => exact ⟨_, rfl, rfl⟩
  | ok u =>
    simp only [hc]
    split
    · exact ⟨_, rfl, rfl⟩
    · split
      · exact ⟨_, rfl, rfl⟩
      · split
        · exact ⟨_, rfl, rfl⟩
        · split
          · exact ⟨_, rfl, rfl⟩
          · split
            · exact ⟨_, rfl, rfl⟩
            · rename_i h1 h2
              rcases hbad with hb | hb
              · exact absurd hb h1
              · exact absurd hb h2

/-- C15 on a request by `mallory`, who does not own `app1`. -/
theorem SendNotifications_channel_guard_witness :
    ∃ e, (SendNotifications exampleEnv exampleFormatTime strangerRequest).err = some e
      ∧ (SendNotifications exampleEnv exampleFormatTime strangerRequest).effects = [] :=
  SendNotifications_channel_guard exampleEnv exampleFormatTime strangerRequest
    (exampleChannel "app1") (by decide) rfl (Or.inr (by decide))

/-! ## `SendNotifications`: the loop over the receivers -/

theorem persistedRows_append (a b : List NotifEffect) :
    persistedRows (a ++ b) = persistedRows a ++ persistedRows b := by
  induction a with
  | nil => rfl
  | cons e a ih =>
    cases e with
    | notificationInsert n ok => cases ok <;> simp [persistedRows, ih]
    | _ => simp [persistedRows, ih]

theorem emailJobs_append (a b : List NotifEffect) :
    emailJobs (a ++ b) = emailJobs a ++ emailJobs b := by
  induction a with
  | nil => rfl
  | cons e a ih => cases e <;> simp [emailJobs, ih]

theorem persistedRows_deliver (env : NotifEnv) (formatTime : Int → String)
    (chain receiver : String) (n : Notification) :
    persistedRows (deliver env formatTime chain receiver n) = [] := by
  unfold deliver
  simp only [persistedRows_append]
  split <;> split <;> simp [persistedRows]

theorem emailJobs_deliver (env : NotifEnv) (formatTime : Int → String)
    (chain receiver : String) (n : Notification) :
    emailJobs (deliver env formatTime chain receiver n)
      = if env.Mode ≠ "local" then [n] else [] := by
  unfold deliver
  simp only [emailJobs_append]
  split <;> split <;> simp [emailJobs]

/-- The three outcomes of one iteration: the receiver is skipped, the insert
fails, or the row is written and the delivery is started. -/
theorem sendOne_cases (env : NotifEnv) (formatTime : Int → String)
    (request : NotificationRequest) (uuid : String) (now ttl : Int) (ch : ChannelModel)
    (receiver : String) :
    sendOne env formatTime request uuid now ttl ch receiver = ([], 0)
      ∨ (∃ n, sendOne env formatTime request uuid now ttl ch receiver
          = ([NotifEffect.notificationInsert n false], 0))
      ∨ (∃ n, sendOne env formatTime request uuid now ttl ch receiver
          = ([NotifEffect.notificationInsert n true]
              ++ deliver env formatTime request.Chain receiver n, 1)) := by
  unfold sendOne
  cases env.GetUser request.Chain receiver with
  | error e => exact Or.inl rfl
  | ok data =>
    simp only
    split
    · exact Or.inl rfl
    · unfold InsertNotificationInfo
      cases env.ExecNotificationInsert
          (mkNotification request uuid now ttl ch receiver data) with
      | some e => exact Or.inr (Or.inl ⟨_, rfl⟩)
      | none => exact Or.inr (Or.inr ⟨_, rfl⟩)

/-- One iteration adds one to `sent` exactly when it writes a row, and, unless
the mode is `local`, puts on the email queue exactly the notification whose
row it wrote. -/
theorem sendOne_spec (env : NotifEnv) (formatTime : Int → String)
    (request : NotificationRequest) (uuid : String) (now ttl : Int) (ch : ChannelModel)
    (receiver : String) :
    (sendOne env formatTime request uuid now ttl ch receiver).2
        = (persistedRows (sendOne env formatTime request uuid now ttl ch receiver).1).length
      ∧ emailJobs (sendOne env formatTime request uuid now ttl ch receiver).1
        = (if env.Mode ≠ "local" then
            persistedRows (sendOne env formatTime request uuid now ttl ch receiver).1
           else []) := by
  rcases sendOne_cases env formatTime request uuid now ttl ch receiver with h | ⟨n, h⟩ | ⟨n, h⟩
  · rw [h]; simp [persistedRows, emailJobs]
  · rw [h]; simp [persistedRows, emailJobs]
  · rw [h]
    simp only [persistedRows_append, emailJobs_append, persistedRows_deliver,
      emailJobs_deliver]
    simp only [persistedRows, emailJobs, List.append_nil, List.nil_append, List.length_singleton,
      Nat.cast_one]
    exact ⟨trivial, trivial⟩

theorem sendLoop_foldl (env : NotifEnv) (formatTime : Int → String)
    (request : NotificationRequest) (uuid : String) (now ttl : Int) (ch : ChannelModel)
    (receivers : List String) (acc : List NotifEffect × Int) :
    receivers.foldl
        (fun acc receiver =>
          (acc.1 ++ (sendOne env formatTime request uuid now ttl ch receiver).1,
           acc.2 + (sendOne env formatTime request uuid now ttl ch receiver).2))
        acc
      = (acc.1 ++ receivers.flatMap
            (fun r => (sendOne env formatTime request uuid now ttl ch r).1),
         acc.2 + (receivers.map
            (fun r => (sendOne env formatTime request uuid now ttl ch r).2)).sum) := by
  induction receivers generalizing acc with
  | nil => simp
  | cons r rest ih =>
    simp only [List.foldl_cons, ih, List.flatMap_cons, List.map_cons, List.sum_cons,
      List.append_assoc]
    congr 1
    omega

theorem sendLoop_eq (env : NotifEnv) (formatTime : Int → String)
    (request : NotificationRequest) (uuid : String) (now ttl : Int) (ch : ChannelModel)
    (receivers : List String) :
    sendLoop env formatTime request uuid now ttl ch receivers
      = (receivers.flatMap (fun r => (sendOne env formatTime request uuid now ttl ch r).1),
         (receivers.map
            (fun r => (sendOne env formatTime request uuid now ttl ch r).2)).sum) := by
  unfold sendLoop
  rw [sendLoop_foldl]
  simp

/-- The loop counts in `sent` the rows it wrote, and, unless the mode is
`local`, the jobs it puts on the email queue are the notifications whose rows
it wrote. -/
theorem sendLoop_spec (env : NotifEnv) (formatTime : Int → String)
    (request : NotificationRequest) (uuid : String) (now ttl : Int) (ch : ChannelModel)
    (receivers : List String) :
    (sendLoop env formatTime request uuid now ttl ch receivers).2
        = (persistedRows (sendLoop env formatTime request uuid now ttl ch receivers).1).length
      ∧ emailJobs (sendLoop env formatTime request uuid now ttl ch receivers).1
        = (if env.Mode ≠ "local" then
            persistedRows (sendLoop env formatTime request uuid now ttl ch receivers).1
           else []) := by
  rw [sendLoop_eq]
  induction receivers with
  | nil => simp [persistedRows, emailJobs]
  | cons r rest ih =>
    obtain ⟨h1, h2⟩ := sendOne_spec env formatTime request uuid now ttl ch r
    obtain ⟨ih1, ih2⟩ := ih
    simp only [List.flatMap_cons, List.map_cons, List.sum_cons, persistedRows_append,
      emailJobs_append, List.length_append, Nat.cast_add] at ih1 ih2 ⊢
    refine ⟨by rw [h1, ih1], ?_⟩
    rw [h2, ih2]
    split <;> simp

theorem persistedRows_counterUpdates (request : NotificationRequest) (now sent : Int) :
    persistedRows (counterUpdates request now sent) = [] := rfl

theorem emailJobs_counterUpdates (request : NotificationRequest) (now sent : Int) :
    emailJobs (counterUpdates request now sent) = [] := rfl

/-- The outcome of `sendResolved` when the receivers are not empty, the lookup
of the sent count succeeds and the receivers fit the remaining quota. -/
theorem sendResolved_loop (env : NotifEnv) (formatTime : Int → String)
    (request : NotificationRequest) (membership ttl : Int) (ch : ChannelModel)
    (receivers : List String) (totalSent : Int) (hne : receivers ≠ [])
    (hm : env.GetUserSendMetricsForMonth request.Chain request.Sender = Except.ok totalSent)
    (hq : (receivers.length : Int) ≤ remainingQuota membership totalSent) :
    sendResolved env formatTime request membership ttl ch receivers =
      { err :=
          if (sendLoop env formatTime { request with Receivers := receivers } env.NewUUID
              env.TimeNow ttl ch receivers).2 = 0
          then some SendError.failedToSend else none,
        effects :=
          (sendLoop env formatTime { request with Receivers := receivers } env.NewUUID
              env.TimeNow ttl ch receivers).1
            ++ counterUpdates { request with Receivers := receivers } env.TimeNow
              (sendLoop env formatTime { request with Receivers := receivers } env.NewUUID
                env.TimeNow ttl ch receivers).2 } := by
  have hrem : (if NotificationCount membership - totalSent < 0 then 0
      else NotificationCount membership - totalSent) = remainingQuota membership totalSent := by
    unfold remainingQuota
    split
    · rw [max_eq_left]; omega
    · rw [max_eq_right]; omega
  have hpos : ¬ ((receivers.length : Int) = 0) := by
    have := List.length_pos.mpr hne
    omega
  have hq2 : ¬ ((receivers.length : Int) > remainingQuota membership totalSent) := by omega
  unfold sendResolved
  simp only [hpos, if_false, hm, hrem, hq2]

theorem sendResolved_nil (env : NotifEnv) (formatTime : Int → String)
    (request : NotificationRequest) (membership ttl : Int) (ch : ChannelModel) :
    sendResolved env formatTime request membership ttl ch [] = { err := none, effects := [] } := by
  simp [sendResolved]

/-- A request that passes the checks continues with the resolved receivers. -/
theorem SendNotifications_of_passes (env : NotifEnv) (formatTime : Int → String)
    (request : NotificationRequest) (u : UserModel) (ch : ChannelModel)
    (receivers : List String) (totalSent : Int)
    (hp : PassesChecks env request u ch receivers totalSent) :
    SendNotifications env formatTime request
      = sendResolved env formatTime
          { request with Hash := Encrypt env.Sha512 request.Message }
          (tierOf env u) (NotificationRetentionSecs (tierOf env u)) ch receivers := by
  obtain ⟨hs, hu, hmsg, hlink, hc, hst, how, hr, _, _⟩ := hp
  have h1 : ¬ (request.Message.utf8ByteSize : Int) > NotificationCharacterCount (tierOf env u) := by
    omega
  have h2 : ¬ (request.Link.utf8ByteSize : Int) > NotificationCharacterCount (tierOf env u) := by
    omega
  have h3 : ¬ STATUS_ACTIVE = STATUS_CHANNEL_LIMIT_EXCEEDED := by decide
  rw [SendNotifications_immediate env formatTime request hs, hu]
  simp only [h1, h2, if_false, hc, h3, hst, how, ne_eq, not_true_eq_false, hr]

theorem persistedRows_flatMap (f : String → List NotifEffect) (l : List String) :
    persistedRows (l.flatMap f) = l.flatMap (fun r => persistedRows (f r)) := by
  induction l with
  | nil => rfl
  | cons r rest ih => simp only [List.flatMap_cons, persistedRows_append, ih]

/-- The row one iteration writes when the lookup of the receiver and the
insert succeed: the notification of the receiver if it has opted in to the
channel, none otherwise. -/
theorem sendOne_rows (env : NotifEnv) (formatTime : Int → String)
    (request : NotificationRequest) (uuid : String) (now ttl : Int) (ch : ChannelModel)
    (receiver : String) (data : UserModel)
    (hget : env.GetUser request.Chain receiver = Except.ok data)
    (hins : ∀ n, env.ExecNotificationInsert n = none) :
    persistedRows (sendOne env formatTime request uuid now ttl ch receiver).1
      = if ContainsString data.Optins request.Channel = true then
          [mkNotification request uuid now ttl ch receiver data]
        else [] := by
  unfold sendOne
  simp only [hget, InsertNotificationInfo, hins]
  by_cases hopt : ContainsString data.Optins request.Channel = true
  · simp only [hopt, Bool.not_true, Bool.false_eq_true, if_false, if_true,
      persistedRows_append, persistedRows_deliver, List.append_nil]
    rfl
  · simp only [Bool.not_eq_true] at hopt
    simp only [hopt, Bool.not_false, if_true, Bool.false_eq_true, if_false, persistedRows]

theorem sendLoop_rows (env : NotifEnv) (formatTime : Int → String)
    (request : NotificationRequest) (uuid : String) (now ttl : Int) (ch : ChannelModel)
    (info : String → UserModel) (hins : ∀ n, env.ExecNotificationInsert n = none)
    (receivers : List String)
    (hinfo : ∀ r ∈ receivers, env.GetUser request.Chain r = Except.ok (info r)) :
    persistedRows (sendLoop env formatTime request uuid now ttl ch receivers).1
      = (receivers.filter (fun r => ContainsString (info r).Optins request.Channel)).map
          (fun r => mkNotification request uuid now ttl ch r (info r)) := by
  rw [sendLoop_eq]
  simp only [persistedRows_flatMap]
  induction receivers with
  | nil => rfl
  | cons r rest ih =>
    have hr := sendOne_rows env formatTime request uuid now ttl ch r (info r)
      (hinfo r (List.mem_cons_self _ _)) hins
    have hrest := ih (fun x hx => hinfo x (List.mem_cons_of_mem _ hx))
    simp only [List.flatMap_cons, hr, hrest]
    by_cases hopt : ContainsString (info r).Optins request.Channel = true
    · simp [hopt, List.filter_cons]
    · simp [hopt, List.filter_cons]

/-- C16. For every request without schedule that passes the checks, when the
lookup of every receiver and every insert succeed, the Notification rows
written are, in order, one for each resolved receiver that has opted in to
the channel and none for a receiver that has not, and every row carries the
hash `Encrypt(message)`, the hexadecimal text of the SHA-512 digest of the
message. -/
theorem SendNotifications_rows (env : NotifEnv) (formatTime : Int → String)
    (request : NotificationRequest) (u : UserModel) (ch : ChannelModel)
    (receivers : List String) (totalSent : Int) (info : String → UserModel)
    (hp : PassesChecks env request u ch receivers totalSent)
    (hinfo : ∀ r ∈ receivers, env.GetUser request.Chain r = Except.ok (info r))
    (hins : ∀ n, env.ExecNotificationInsert n = none) :
    (persistedRows (SendNotifications env formatTime request).effects).map
          (fun n => (n.Receiver, n.ReceiverInfo))
        = (receivers.filter (fun r => ContainsString (info r).Optins request.Channel)).map
            (fun r => (r, info r))
      ∧ ∀ n ∈ persistedRows (SendNotifications env formatTime request).effects,
          n.Hash = hexEncodeToString (env.Sha512 request.Message)
            ∧ n.Message = request.Message ∧ n.Channel = request.Channel
            ∧ n.Chain = request.Chain := by
  have hrows : persistedRows (SendNotifications env formatTime request).effects
      = (receivers.filter (fun r => ContainsString (info r).Optins request.Channel)).map
          (fun r => mkNotification
            { request with Hash := Encrypt env.Sha512 request.Message, Receivers := receivers }
            env.NewUUID env.TimeNow (NotificationRetentionSecs (tierOf env u)) ch r (info r)) := by
    rw [SendNotifications_of_passes env formatTime request u ch receivers totalSent hp]
    obtain ⟨_, _, _, _, _, _, _, _, hm, hq⟩ := hp
    by_cases hne : receivers = []
    · subst hne
      rw [sendResolved_nil]
      rfl
    · have hloop := sendResolved_loop env formatTime
        { request with Hash := Encrypt env.Sha512 request.Message } (tierOf env u)
        (NotificationRetentionSecs (tierOf env u)) ch receivers totalSent hne hm hq
      rw [hloop]
      simp only [persistedRows_append, persistedRows_counterUpdates, List.append_nil]
      exact sendLoop_rows env formatTime _ _ _ _ ch info hins receivers hinfo
  rw [hrows]
  constructor
  · simp [List.map_map, Function.comp_def, mkNotification]
  · intro n hn
    obtain ⟨r, _, rfl⟩ := List.mem_map.mp hn
    simp [mkNotification, Encrypt]

/-- C16 on the public request in `exampleEnv`: three rows, for `u1`, `u2` and
`u3`, with the hash of the message. -/
theorem SendNotifications_rows_witness :
    (persistedRows (SendNotifications exampleEnv exampleFormatTime publicRequest).effects).map
          (fun n => n.Receiver) = ["u1", "u2", "u3"]
      ∧ ∀ n ∈ persistedRows (SendNotifications exampleEnv exampleFormatTime publicRequest).effects,
          n.Hash = "deadbeef" := by
  have h := SendNotifications_rows exampleEnv exampleFormatTime publicRequest
    (exampleUser "sender" false) (exampleChannel "app1") ["u1", "u2", "u3"] 0
    (fun r => exampleUser r (decide (r = "u1" ∨ r = "u2")))
    ⟨by decide, rfl, by decide, by decide, rfl, by decide, by decide, rfl, rfl, by decide⟩
    (by
      intro r hr
      simp only [List.mem_cons, List.mem_singleton, List.not_mem_nil, or_false] at hr
      rcases hr with rfl | rfl | rfl <;> rfl)
    (fun _ => rfl)
  constructor
  · have h1 := congrArg (List.map Prod.fst) h.1
    simp only [List.map_map] at h1
    exact h1.trans (by decide)
  · intro n hn
    exact (h.2 n hn).1.trans (by decide)

theorem sendResolved_metrics_error (env : NotifEnv) (formatTime : Int → String)
    (request : NotificationRequest) (membership ttl : Int) (ch : ChannelModel)
    (receivers : List String) (e : String) (hne : receivers ≠ [])
    (hm : env.GetUserSendMetricsForMonth request.Chain request.Sender = Except.error e) :
    sendResolved env formatTime request membership ttl ch receivers
      = SendOutcome.fail (SendError.sendMetrics e) := by
  have hpos : ¬ ((receivers.length : Int) = 0) := by
    have := List.length_pos.mpr hne
    omega
  unfold sendResolved
  simp only [hpos, if_false, hm]

theorem emailJobs_sendResolved (env : NotifEnv) (formatTime : Int → String)
    (request : NotificationRequest) (membership ttl : Int) (ch : ChannelModel)
    (receivers : List String) :
    emailJobs (sendResolved env formatTime request membership ttl ch receivers).effects
      = if env.Mode ≠ "local" then
          persistedRows (sendResolved env formatTime request membership ttl ch receivers).effects
        else [] := by
  by_cases hne : receivers = []
  · subst hne
    rw [sendResolved_nil]
    simp [emailJobs, persistedRows]
  · rcases hm : env.GetUserSendMetricsForMonth request.Chain request.Sender with e | totalSent
    · rw [sendResolved_metrics_error env formatTime request membership ttl ch receivers e hne hm]
      simp [SendOutcome.fail, emailJobs, persistedRows]
    · by_cases hq : (receivers.length : Int) > remainingQuota membership totalSent
      · rw [sendResolved_quota env formatTime request membership ttl ch receivers totalSent hm hq]
        simp [SendOutcome.fail, emailJobs, persistedRows]
      · rw [sendResolved_loop env formatTime request membership ttl ch receivers totalSent hne hm
          (by omega)]
        simp only [emailJobs_append, persistedRows_append, emailJobs_counterUpdates,
          persistedRows_counterUpdates, List.append_nil]
        exact (sendLoop_spec env formatTime _ _ _ _ ch receivers).2

theorem emailJobs_fail (env : NotifEnv) (e : SendError) :
    emailJobs (SendOutcome.fail e).effects
      = if env.Mode ≠ "local" then persistedRows (SendOutcome.fail e).effects else [] := by
  simp [SendOutcome.fail, emailJobs, persistedRows]

/-- C17, as stated, fails. In `exampleEnv` the three subscribers of `app1` have
opted in, `u1` and `u2` have email allowed and verified and `u3` has no
verified medium: the call returns `nil` and writes three rows, but it puts
three jobs on the email queue, not two; it is the email worker that hands
only the jobs of `u1` and `u2` to the provider. -/
theorem SendNotifications_email_jobs_counterexample :
    (SendNotifications exampleEnv exampleFormatTime publicRequest).err = none
      ∧ (persistedRows (SendNotifications exampleEnv exampleFormatTime publicRequest).effects).map
          (fun n => n.Receiver) = ["u1", "u2", "u3"]
      ∧ ((persistedRows
            (SendNotifications exampleEnv exampleFormatTime publicRequest).effects).filter
          (fun n => emailAllowedVerified n.ReceiverInfo)).map (fun n => n.Receiver)
        = ["u1", "u2"]
      ∧ (emailJobs (SendNotifications exampleEnv exampleFormatTime publicRequest).effects).map
          (fun n => n.Receiver) = ["u1", "u2", "u3"]
      ∧ (emailWorker (Except.ok "https://notiboy.example/notifications") exampleRender
            "noreply@notiboy.example"
            (emailJobs (SendNotifications exampleEnv exampleFormatTime publicRequest).effects)).map
          (fun call => call.To) = ["u1@example.org", "u2@example.org"] := by
  refine ⟨?_, ?_, ?_, ?_, ?_⟩ <;> decide

/-- C17, amended. For every SendNotifications call, the jobs put on the email
queue are, when the mode is not `local`, exactly the notifications whose row
was written (one for each opted-in receiver when lookups and inserts succeed),
whether or not email is allowed or verified for the receiver, and none in
mode `local`. In particular with three opted-in subscribers of whom two have
email allowed and verified and one has no verified medium (`exampleEnv`),
three email jobs are enqueued, three rows are written and the call returns
`nil`. -/
theorem SendNotifications_email_jobs (env : NotifEnv) (formatTime : Int → String)
    (request : NotificationRequest) :
    emailJobs (SendNotifications env formatTime request).effects
        = (if env.Mode ≠ "local" then
            persistedRows (SendNotifications env formatTime request).effects
          else [])
      ∧ (emailJobs (SendNotifications exampleEnv exampleFormatTime publicRequest).effects).length
        = 3
      ∧ (persistedRows
          (SendNotifications exampleEnv exampleFormatTime publicRequest).effects).length = 3
      ∧ (SendNotifications exampleEnv exampleFormatTime publicRequest).err = none := by
  refine ⟨?_, by decide, by decide, by decide⟩
  by_cases hs : request.Schedule = zeroTime
  · rw [SendNotifications_immediate env formatTime request hs]
    cases env.GetUserModel request.Chain request.Sender with
    | error e => exact emailJobs_fail env _
    | ok u =>
      simp only
      split
      · exact emailJobs_fail env _
      · split
        · exact emailJobs_fail env _
        · cases env.GetChannel request.Chain request.Channel with
          | error e => exact emailJobs_fail env _
          | ok ch =>
            simp only
            split
            · exact emailJobs_fail env _
            · split
              · exact emailJobs_fail env _
              · split
                · exact emailJobs_fail env _
                · cases resolvedReceivers env request with
                  | error e => exact emailJobs_fail env _
                  | ok receivers => exact emailJobs_sendResolved env formatTime _ _ _ ch receivers
  · rcases hu : env.GetUserModel request.Chain request.Sender with e | u
    · simp only [SendNotifications, hu]
      exact emailJobs_fail env _
    · simp only [SendNotifications, hu, ne_eq, hs, not_false_eq_true, if_true,
        InsertScheduledNotificationInfo]
      split
      · exact emailJobs_fail env _
      · split <;> split <;> simp_all [emailJobs, persistedRows]

/-- C18, as stated, fails. The public request on channel `app2`, which has no
subscriber, passes every check, and the call returns `nil` although it writes
no row and sends to nobody. -/
theorem SendNotifications_no_receiver_counterexample :
    PassesChecks exampleEnv emptyChannelRequest (exampleUser "sender" false)
        (exampleChannel "app2") [] 0
      ∧ (SendNotifications exampleEnv exampleFormatTime emptyChannelRequest).err = none
      ∧ (SendNotifications exampleEnv exampleFormatTime emptyChannelRequest).effects = [] :=
  ⟨⟨by decide, rfl, by decide, by decide, rfl, by decide, by decide, rfl, rfl, by decide⟩,
    by decide, by decide⟩

/-- C18, amended. For every request without schedule that passes the
validation, channel and quota checks: when it resolves to at least one
receiver, the call returns `nil` if and only if at least one receiver was sent
to (a Notification row was written for it), and the failed-to-send error
otherwise; when it resolves to no receiver, the call returns `nil` at once,
with no effect. -/
theorem SendNotifications_result (env : NotifEnv) (formatTime : Int → String)
    (request : NotificationRequest) (u : UserModel) (ch : ChannelModel)
    (receivers : List String) (totalSent : Int)
    (hp : PassesChecks env request u ch receivers totalSent) :
    (receivers = [] →
        SendNotifications env formatTime request = { err := none, effects := [] })
      ∧ (receivers ≠ [] →
          ((SendNotifications env formatTime request).err = none
              ↔ persistedRows (SendNotifications env formatTime request).effects ≠ [])
            ∧ (persistedRows (SendNotifications env formatTime request).effects = [] →
                (SendNotifications env formatTime request).err
                  = some SendError.failedToSend)) := by
  rw [SendNotifications_of_passes env formatTime request u ch receivers totalSent hp]
  obtain ⟨_, _, _, _, _, _, _, _, hm, hq⟩ := hp
  constructor
  · intro hnil
    subst hnil
    exact sendResolved_nil env formatTime _ _ _ ch
  · intro hne
    have hloop := sendResolved_loop env formatTime
      { request with Hash := Encrypt env.Sha512 request.Message } (tierOf env u)
      (NotificationRetentionSecs (tierOf env u)) ch receivers totalSent hne hm hq
    rw [hloop]
    simp only [persistedRows_append, persistedRows_counterUpdates, List.append_nil]
    have hsent := (sendLoop_spec env formatTime
      { request with Hash := Encrypt env.Sha512 request.Message, Receivers := receivers }
      env.NewUUID env.TimeNow (NotificationRetentionSecs (tierOf env u)) ch receivers).1
    have hiff : (sendLoop env formatTime
        { request with Hash := Encrypt env.Sha512 request.Message, Receivers := receivers }
        env.NewUUID env.TimeNow (NotificationRetentionSecs (tierOf env u)) ch receivers).2 = 0
        ↔ persistedRows (sendLoop env formatTime
          { request with Hash := Encrypt env.Sha512 request.Message, Receivers := receivers }
          env.NewUUID env.TimeNow (NotificationRetentionSecs (tierOf env u)) ch receivers).1
            = [] := by
      rw [hsent]
      constructor
      · intro h0
        exact List.length_eq_zero.mp (by exact_mod_cast h0)
      · intro h0
        rw [h0]
        rfl
    constructor
    · constructor
      · intro herr hrows
        rw [if_pos (hiff.mpr hrows)] at herr
        cases herr
      · intro hrows
        rw [if_neg (fun h0 => hrows (hiff.mp h0))]
    · intro hrows
      rw [if_pos (hiff.mpr hrows)]

/-- C18, amended, in `exampleEnv`: the public request on `app1` reaches three
receivers and returns `nil`; the one on `app2` reaches nobody and returns
`nil` too. -/
theorem SendNotifications_result_witness :
    (SendNotifications exampleEnv exampleFormatTime publicRequest).err = none
      ∧ SendNotifications exampleEnv exampleFormatTime emptyChannelRequest
        = { err := none, effects := [] } :=
  ⟨((SendNotifications_result exampleEnv exampleFormatTime publicRequest
        (exampleUser "sender" false) (exampleChannel "app1") ["u1", "u2", "u3"] 0
        ⟨by decide, rfl, by decide, by decide, rfl, by decide, by decide, rfl, rfl,
          by decide⟩).2 (by decide)).1.mpr (by decide),
    (SendNotifications_result exampleEnv exampleFormatTime emptyChannelRequest
        (exampleUser "sender" false) (exampleChannel "app2") [] 0
        ⟨by decide, rfl, by decide, by decide, rfl, by decide, by decide, rfl, rfl,
          by decide⟩).1 rfl⟩

/-! ## The dispatch workers -/

/-- C19. For every notification dequeued by the Discord worker, the provider
is invoked if and only if the notification's MediumPublished entry for Discord
is allowed, the receiver's Discord metadata is verified and its DM channel id
is not empty. For every notification dequeued by the email worker, with the
link built from the configured redirect address and the body of the mail
rendered, the provider is invoked if and only if the entry for email is
allowed, the receiver's email metadata is verified and its email id is not
empty. In every other case no provider call is made, and when the metadata
entry of the medium is present the job is dropped. -/
theorem worker_provider_iff (joinPath : Except String String)
    (render : String → String → String → Except String String) (fromAddr : String)
    (n : Notification) (link0 : String) (hj : joinPath = Except.ok link0)
    (hr : ∃ body,
      render
        (if n.Kind = "private" then "You have a notification from " ++ n.ChannelName
         else "Announcement from " ++ n.ChannelName)
        n.Message (if n.Link ≠ "" then n.Link else link0) = Except.ok body) :
    ((∃ call, discordStep n = WorkerResult.invoked call)
        ↔ (mediumPublished n Discord).Allowed = true
          ∧ ∃ m, n.ReceiverInfo.MediumMetadata.Discord = some m
            ∧ m.Verified = true ∧ m.DMChannelID ≠ "")
      ∧ ((∃ call, emailStep joinPath render fromAddr n = WorkerResult.invoked call)
        ↔ (mediumPublished n Email).Allowed = true
          ∧ ∃ m, n.ReceiverInfo.MediumMetadata.Email = some m
            ∧ m.Verified = true ∧ m.ID ≠ "")
      ∧ (∀ m, n.ReceiverInfo.MediumMetadata.Discord = some m →
          ¬ ((mediumPublished n Discord).Allowed = true ∧ m.Verified = true
              ∧ m.DMChannelID ≠ "") →
          discordStep n = WorkerResult.dropped)
      ∧ (∀ m, n.ReceiverInfo.MediumMetadata.Email = some m →
          ¬ ((mediumPublished n Email).Allowed = true ∧ m.Verified = true ∧ m.ID ≠ "") →
          emailStep joinPath render fromAddr n = WorkerResult.dropped) := by
  obtain ⟨body, hr⟩ := hr
  simp only [ne_eq, ite_not] at hr
  subst hj
  refine ⟨?_, ?_, ?_, ?_⟩
  · unfold discordStep
    cases hallowed : (mediumPublished n Discord).Allowed
    · simp
    · cases hmeta : n.ReceiverInfo.MediumMetadata.Discord with
      | none => simp
      | some m =>
        cases hv : m.Verified
        · simp [hv]
        · by_cases hid : m.DMChannelID = ""
          · simp [hv, hid]
          · simp [hv, hid]
  · unfold emailStep
    cases hallowed : (mediumPublished n Email).Allowed
    · simp
    · cases hmeta : n.ReceiverInfo.MediumMetadata.Email with
      | none => simp
      | some m =>
        cases hv : m.Verified
        · simp [hv]
        · by_cases hid : m.ID = ""
          · simp [hv, hid]
          · simp [hv, hid, hr]
  · intro m hmeta hnot
    unfold discordStep
    cases hallowed : (mediumPublished n Discord).Allowed
    · simp
    · cases hv : m.Verified
      · simp [hmeta, hv]
      · by_cases hid : m.DMChannelID = ""
        · simp [hmeta, hv, hid]
        · exact absurd ⟨hallowed, hv, hid⟩ hnot
  · intro m hmeta hnot
    unfold emailStep
    cases hallowed : (mediumPublished n Email).Allowed
    · simp
    · cases hv : m.Verified
      · simp [hmeta, hv]
      · by_cases hid : m.ID = ""
        · simp [hmeta, hv, hid]
        · exact absurd ⟨hallowed, hv, hid⟩ hnot

/-- C19 on `exampleNotification`, whose receiver `u1` has email allowed,
verified and with an address and Discord neither allowed nor verified: the
email worker calls the provider with the mail for `u1`, the Discord worker
drops the job. -/
theorem worker_provider_iff_witness :
    (∃ call, emailStep (Except.ok "https://notiboy.example/notifications") exampleRender
        "noreply@notiboy.example" exampleNotification = WorkerResult.invoked call)
      ∧ discordStep exampleNotification = WorkerResult.dropped := by
  have h := worker_provider_iff (Except.ok "https://notiboy.example/notifications")
    exampleRender "noreply@notiboy.example" exampleNotification
    "https://notiboy.example/notifications" rfl ⟨_, rfl⟩
  exact ⟨h.2.1.mpr ⟨by decide, _, rfl, by decide, by decide⟩,
    h.2.2.1 _ rfl (by decide)⟩

/-! ## The scheduler -/

theorem schedulerStep_inv (s : SchedulerState) (e : SchedulerEvent) (h : s.Inv) :
    (schedulerStep s e).Inv := by
  obtain ⟨h1, h2⟩ := h
  cases e with
  | tick =>
    by_cases hfree : s.runOnce < 1
    · simp only [schedulerStep, hfree, if_true, SchedulerState.Inv]
      omega
    · simp only [schedulerStep, hfree, if_false]
      exact ⟨h1, h2⟩
  | finish =>
    by_cases hrun : 0 < s.active ∧ 0 < s.runOnce
    · simp only [schedulerStep, hrun, and_self, if_true, SchedulerState.Inv]
      omega
    · simp only [schedulerStep, hrun, if_false]
      exact ⟨h1, h2⟩

theorem schedulerRun_inv (events : List SchedulerEvent) :
    ∀ s : SchedulerState, s.Inv → (schedulerRun s events).Inv := by
  induction events with
  | nil => intro s h; exact h
  | cons e rest ih =>
    intro s h
    exact ih _ (schedulerStep_inv s e h)

/-- C20. In every state the scheduler reaches from its initial state by ticks
and finishes, at most one promotion run is active (as many as the elements
of `runOnce`), and a tick that fires while a run is active leaves the state as
it is: it starts no run and queues nothing. -/
theorem scheduler_single_flight (events : List SchedulerEvent) :
    (schedulerRun SchedulerState.init events).active ≤ 1
      ∧ (schedulerRun SchedulerState.init events).active
        = (schedulerRun SchedulerState.init events).runOnce
      ∧ (0 < (schedulerRun SchedulerState.init events).active →
          schedulerStep (schedulerRun SchedulerState.init events) SchedulerEvent.tick
            = schedulerRun SchedulerState.init events) := by
  have hinv := schedulerRun_inv events SchedulerState.init ⟨rfl, by decide⟩
  obtain ⟨h1, h2⟩ := hinv
  refine ⟨by omega, h1, ?_⟩
  intro hactive
  unfold schedulerStep
  have : ¬ (schedulerRun SchedulerState.init events).runOnce < 1 := by omega
  simp only [this, if_false]

/-- C20 on two ticks and on two ticks with a finish between them: the second
tick starts no run while the first run is active, and starts one after the
first run has finished. -/
theorem scheduler_single_flight_witness :
    schedulerRun SchedulerState.init [SchedulerEvent.tick, SchedulerEvent.tick]
        = { runOnce := 1, active := 1, started := 1 }
      ∧ schedulerRun SchedulerState.init
          [SchedulerEvent.tick, SchedulerEvent.finish, SchedulerEvent.tick]
        = { runOnce := 1, active := 1, started := 2 } := by
  have h := (scheduler_single_flight [SchedulerEvent.tick]).2.2 (by decide)
  constructor
  · exact h.trans (by decide)
  · decide

/-! ## The registry over histories -/

/-- C29. Every history of `Add` and `Remove` calls from `NewWebSocket` runs to
its end, and in the registry it reaches no key holds a `nil` entry or an empty
connection list: an identity is a key of the map if and only if it owns at
least one connection, and the connections it owns are those the history added
to it and did not remove later. -/
theorem registry_keys_own_connections (withReader : Bool) (ops : List RegistryOp) :
    ∃ s, runOps (NewWebSocket withReader) ops = some s
      ∧ ∀ k, s.ConnSet k ≠ some none
          ∧ (∀ u, s.ConnSet k = some (some u) → u.ConnObjs ≠ [])
          ∧ (s.ConnSet k ≠ none ↔ s.conns k ≠ [])
          ∧ s.conns k = addedNotRemoved k ops := by
  obtain ⟨s, hs, hwf⟩ := runOps_wellFormed ops _ (NewWebSocket_wellFormed withReader)
  refine ⟨s, hs, fun k => ⟨(hwf k).1, (hwf k).2, ?_, ?_⟩⟩
  · rcases hc : s.ConnSet k with _ | _ | u
    · simp [Socket.conns, hc]
    · exact absurd hc (hwf k).1
    · have hne := (hwf k).2 u hc
      simp [Socket.conns, hc, hne]
  · have h := runOps_conns k ops _ s hs
    simpa [Socket.conns, NewWebSocket] using h

/-- C29 on `exampleHistory`: after three connections of `algorand_alice` are
added and the third is removed, the key holds the first two, and
`algorand_bob`, who was never added, is not a key. -/
theorem registry_keys_own_connections_witness :
    ∃ s, runOps (NewWebSocket true) exampleHistory = some s
      ∧ s.conns "algorand_alice" = [{ ID := "c1", Conn := 1 }, { ID := "c2", Conn := 2 }]
      ∧ s.ConnSet "algorand_alice" ≠ none
      ∧ s.ConnSet "algorand_bob" = none := by
  obtain ⟨s, hs, h⟩ := registry_keys_own_connections true exampleHistory
  have ha := (h "algorand_alice").2.2.2
  have hb := (h "algorand_bob").2.2.2
  have ha2 : s.conns "algorand_alice" = [{ ID := "c1", Conn := 1 }, { ID := "c2", Conn := 2 }] :=
    ha.trans (by decide)
  have hb2 : s.conns "algorand_bob" = [] := hb.trans (by decide)
  refine ⟨s, hs, ha2, ?_, ?_⟩
  · rw [(h "algorand_alice").2.2.1, ha2]
    simp
  · by_contra hne
    exact ((h "algorand_bob").2.2.1.mp hne) hb2

/-! ## `SendNotifications`: the recorded count -/

theorem recordedSendMetrics_append (a b : List NotifEffect) :
    recordedSendMetrics (a ++ b) = recordedSendMetrics a ++ recordedSendMetrics b := by
  induction a with
  | nil => rfl
  | cons e a ih => cases e <;> simp [recordedSendMetrics, ih]

theorem recordedSendMetrics_deliver (env : NotifEnv) (formatTime : Int → String)
    (chain receiver : String) (n : Notification) :
    recordedSendMetrics (deliver env formatTime chain receiver n) = [] := by
  unfold deliver
  simp only [recordedSendMetrics_append]
  split <;> split <;> simp [recordedSendMetrics]

/-- One iteration of the loop records nothing in the send metrics and adds
zero or one to `sent`. -/
theorem sendOne_count (env : NotifEnv) (formatTime : Int → String)
    (request : NotificationRequest) (uuid : String) (now ttl : Int) (ch : ChannelModel)
    (receiver : String) :
    recordedSendMetrics (sendOne env formatTime request uuid now ttl ch receiver).1 = []
      ∧ 0 ≤ (sendOne env formatTime request uuid now ttl ch receiver).2
      ∧ (sendOne env formatTime request uuid now ttl ch receiver).2 ≤ 1 := by
  rcases sendOne_cases env formatTime request uuid now ttl ch receiver with h | ⟨n, h⟩ | ⟨n, h⟩
  · rw [h]; simp [recordedSendMetrics]
  · rw [h]; simp [recordedSendMetrics]
  · rw [h]
    simp only [recordedSendMetrics_append, recordedSendMetrics_deliver]
    simp [recordedSendMetrics]

/-- The loop records nothing in the send metrics, and its `sent` is between
zero and the number of receivers. -/
theorem sendLoop_count (env : NotifEnv) (formatTime : Int → String)
    (request : NotificationRequest) (uuid : String) (now ttl : Int) (ch : ChannelModel)
    (receivers : List String) :
    recordedSendMetrics (sendLoop env formatTime request uuid now ttl ch receivers).1 = []
      ∧ 0 ≤ (sendLoop env formatTime request uuid now ttl ch receivers).2
      ∧ (sendLoop env formatTime request uuid now ttl ch receivers).2 ≤ receivers.length := by
  rw [sendLoop_eq]
  induction receivers with
  | nil => simp [recordedSendMetrics]
  | cons r rest ih =>
    obtain ⟨h1, h2, h3⟩ := sendOne_count env formatTime request uuid now ttl ch r
    obtain ⟨i1, i2, i3⟩ := ih
    simp only [List.flatMap_cons, List.map_cons, List.sum_cons, recordedSendMetrics_append,
      List.length_cons, Nat.cast_add, Nat.cast_one] at i1 i2 i3 ⊢
    refine ⟨by rw [h1, i1]; rfl, by omega, by omega⟩

/-- The recorded count against the value the lookup returns. For every request
without schedule that passes the checks, the quota check among them, with at
least one resolved receiver, the call records one count in the sender's send
metrics: the number of notification rows it wrote. That count is at most the
number of resolved receivers, which is at most the quota left after
`totalSent`, the value `GetUserSendMetricsForMonth` returns to the call, so
that when `totalSent` was within `NotificationCount` of the tier, `totalSent`
plus the recorded count is within it as well. -/
theorem SendNotifications_sent_within_quota (env : NotifEnv) (formatTime : Int → String)
    (request : NotificationRequest) (u : UserModel) (ch : ChannelModel)
    (receivers : List String) (totalSent : Int)
    (hp : PassesChecks env request u ch receivers totalSent) (hne : receivers ≠ []) :
    ∃ sent : Int,
      recordedSendMetrics (SendNotifications env formatTime request).effects = [sent]
        ∧ NotifEffect.userSendMetrics
            { request with Hash := Encrypt env.Sha512 request.Message, Receivers := receivers }
            env.TimeNow sent ∈ (SendNotifications env formatTime request).effects
        ∧ sent = (persistedRows (SendNotifications env formatTime request).effects).length
        ∧ 0 ≤ sent
        ∧ sent ≤ receivers.length
        ∧ (receivers.length : Int) ≤ remainingQuota (tierOf env u) totalSent
        ∧ (totalSent ≤ NotificationCount (tierOf env u) →
            totalSent + sent ≤ NotificationCount (tierOf env u)) := by
  rw [SendNotifications_of_passes env formatTime request u ch receivers totalSent hp]
  obtain ⟨_, _, _, _, _, _, _, _, hm, hq⟩ := hp
  have hloop := sendResolved_loop env formatTime
    { request with Hash := Encrypt env.Sha512 request.Message } (tierOf env u)
    (NotificationRetentionSecs (tierOf env u)) ch receivers totalSent hne hm hq
  rw [hloop]
  obtain ⟨c1, c2, c3⟩ := sendLoop_count env formatTime
    { request with Hash := Encrypt env.Sha512 request.Message, Receivers := receivers }
    env.NewUUID env.TimeNow (NotificationRetentionSecs (tierOf env u)) ch receivers
  have hspec := (sendLoop_spec env formatTime
    { request with Hash := Encrypt env.Sha512 request.Message, Receivers := receivers }
    env.NewUUID env.TimeNow (NotificationRetentionSecs (tierOf env u)) ch receivers).1
  refine ⟨_, ?_, ?_, ?_, c2, c3, hq, ?_⟩
  · simp only [recordedSendMetrics_append, c1, List.nil_append]
    rfl
  · exact List.mem_append_right _ (by simp [counterUpdates])
  · simp only [persistedRows_append, persistedRows_counterUpdates, List.append_nil]
    exact hspec
  · intro hwithin
    have hrem : remainingQuota (tierOf env u) totalSent
        = NotificationCount (tierOf env u) - totalSent := by
      unfold remainingQuota
      exact max_eq_right (by omega)
    omega

/-- The recorded count of the public request in `exampleEnv`: the sender has
sent nothing this month, three receivers are resolved and three rows written,
and the count recorded is 3, within the 1000 of the free tier. -/
theorem SendNotifications_sent_within_quota_witness :
    recordedSendMetrics (SendNotifications exampleEnv exampleFormatTime publicRequest).effects
        = [3]
      ∧ ∃ sent : Int,
          recordedSendMetrics
              (SendNotifications exampleEnv exampleFormatTime publicRequest).effects = [sent]
            ∧ sent ≤ 3 ∧ 0 + sent ≤ 1000 := by
  obtain ⟨sent, h1, _, _, _, h5, _, h7⟩ :=
    SendNotifications_sent_within_quota exampleEnv exampleFormatTime publicRequest
      (exampleUser "sender" false) (exampleChannel "app1") ["u1", "u2", "u3"] 0
      ⟨by decide, rfl, by decide, by decide, rfl, by decide, by decide, rfl, rfl, by decide⟩
      (by decide)
  refine ⟨by decide, sent, h1, h5, h7 (by decide)⟩

/-! ## Presence -/

/-- C27. For every presence request, the status frame `userOnlineStatus`
builds names the chain and the counterpart of the request and reports online
if and only if the registry has an entry for the counterpart identity whose
is-online flag is set and whose last check is at most 30 seconds old; the
frame is pushed to the identity of the requester with `broadcast = true`, and
the error of that push is what the call returns. After the liveness loop has
recorded a successful ping of the counterpart at time `t`, the frame reports
online exactly while at most 30 seconds have passed since `t`. -/
theorem userOnlineStatus_online {σ : Type} (write : σ → Nat → String → Option String × σ)
    (jsonStatus : UserStatus → String) (now : Int) (ws : Socket) (w : σ) (msg : Message) :
    ((userOnlineStatus write jsonStatus now ws w msg).statusData.Online = true
        ↔ ∃ u, ws.ConnSet (FormatIdentifier msg.Chain msg.Receiver) = some (some u)
            ∧ u.IsOnline = true ∧ now - u.LastChecked ≤ 30000000000)
      ∧ (userOnlineStatus write jsonStatus now ws w msg).statusData.Chain = msg.Chain
      ∧ (userOnlineStatus write jsonStatus now ws w msg).statusData.User = msg.Receiver
      ∧ (userOnlineStatus write jsonStatus now ws w msg).identifier
          = FormatIdentifier msg.Chain msg.Sender
      ∧ (userOnlineStatus write jsonStatus now ws w msg).broadcast = true
      ∧ (userOnlineStatus write jsonStatus now ws w msg).push
          = PushMessage write ws w (FormatIdentifier msg.Chain msg.Sender)
              (jsonStatus (userOnlineStatus write jsonStatus now ws w msg).statusData) true
      ∧ (userOnlineStatus write jsonStatus now ws w msg).err
          = (userOnlineStatus write jsonStatus now ws w msg).push.err
      ∧ ∀ t s1, healthPing ws (FormatIdentifier msg.Chain msg.Receiver) t = some s1 →
          ((userOnlineStatus write jsonStatus now s1 w msg).statusData.Online = true
            ↔ now - t ≤ 30000000000) := by
  refine ⟨?_, rfl, rfl, rfl, rfl, rfl, rfl, ?_⟩
  · unfold userOnlineStatus
    rcases hc : ws.ConnSet (FormatIdentifier msg.Chain msg.Receiver) with _ | _ | u
    · simp only [hc]
      simp
    · simp only [hc]
      simp
    · simp only [hc]
      simp [and_comm]
  · intro t s1 h
    unfold healthPing at h
    rcases hc : ws.ConnSet (FormatIdentifier msg.Chain msg.Receiver) with _ | _ | u
    · simp [hc] at h
    · simp [hc] at h
    · simp only [hc, Option.some.injEq] at h
      subst h
      simp [userOnlineStatus, Socket.setEntry]

/-- C27 on `chatSocket`, where bob's entry has the is-online flag set and was
last checked at 90: alice's request is answered online when 30 seconds have
passed since then and offline one nanosecond later, and a request about carol,
who has no entry, is answered offline. -/
theorem userOnlineStatus_online_witness :
    (userOnlineStatus writeOk showStatus 30000000090 chatSocket () statusMsg).statusData
        = { Chain := "algorand", User := "bob", Online := true }
      ∧ (userOnlineStatus writeOk showStatus 30000000091 chatSocket () statusMsg).statusData.Online
        = false
      ∧ (userOnlineStatus writeOk showStatus 100 chatSocket ()
          { statusMsg with Receiver := "carol" }).statusData.Online = false
      ∧ (userOnlineStatus writeOk showStatus 30000000090 chatSocket () statusMsg).push.attempts
        = [({ ID := "c1", Conn := 1 }, none)] := by
  have h := userOnlineStatus_online writeOk showStatus 30000000090 chatSocket () statusMsg
  have hon := h.1.mpr
    ⟨{ ConnObjs := [{ ID := "c2", Conn := 2 }], IsOnline := true, LastChecked := 90 },
      by decide, rfl, by decide⟩
  refine ⟨?_, by decide, by decide, by decide⟩
  have hc := h.2.1
  have hu := h.2.2.1
  cases hs : (userOnlineStatus writeOk showStatus 30000000090 chatSocket () statusMsg).statusData
  rw [hs] at hon hc hu
  simp only at hon hc hu
  subst hon hc hu
  rfl

/-! ## The chat processor -/

theorem chatProcessorStep_handler {σ : Type} (write : σ → Nat → String → Option String × σ)
    (json : Frame → String) (jsonStatus : UserStatus → String) (ttl : Int)
    (st : ChatState σ) (i : Inbound) :
    (chatProcessorStep write json jsonStatus ttl st i).2.handler = handlerFor i.msg.Kind := by
  unfold chatProcessorStep handlerFor
  by_cases h1 : i.msg.Kind = UserChatStatusKind
  · simp only [h1, if_true, Handled.handler]
    simp [UserChatStatusKind]
  · by_cases h2 : i.msg.Kind = UserChatMsgKind
    · simp only [h1, h2, if_true, if_false, Handled.handler]
      simp [UserChatMsgKind, UserChatStatusKind]
    · by_cases h3 : i.msg.Kind = UserChatAckKind
      · simp only [h1, h2, h3, if_true, if_false, Handled.handler]
        simp [UserChatMsgKind, UserChatStatusKind, UserChatAckKind]
      · simp only [h1, h2, h3, if_false, Handled.handler]
        simp only [UserChatStatusKind, UserChatMsgKind, UserChatAckKind] at h1 h2 h3
        simp [h1, h2, h3]

theorem ChatProcessor_append {σ : Type} (write : σ → Nat → String → Option String × σ)
    (json : Frame → String) (jsonStatus : UserStatus → String) (ttl : Int)
    (a b : List Inbound) :
    ∀ st : ChatState σ,
      ChatProcessor write json jsonStatus ttl st (a ++ b)
        = ((ChatProcessor write json jsonStatus ttl
              (ChatProcessor write json jsonStatus ttl st a).1 b).1,
           (ChatProcessor write json jsonStatus ttl st a).2
             ++ (ChatProcessor write json jsonStatus ttl
                  (ChatProcessor write json jsonStatus ttl st a).1 b).2) := by
  induction a with
  | nil => intro st; rfl
  | cons i rest ih =>
    intro st
    rw [List.cons_append]
    simp only [ChatProcessor]
    rw [ih]
    rfl

theorem ChatProcessor_log {σ : Type} (write : σ → Nat → String → Option String × σ)
    (json : Frame → String) (jsonStatus : UserStatus → String) (ttl : Int)
    (inbound : List Inbound) :
    ∀ st : ChatState σ,
      (ChatProcessor write json jsonStatus ttl st inbound).2.map Prod.fst
          = inbound.map (fun i => i.msg)
        ∧ (ChatProcessor write json jsonStatus ttl st inbound).2.map (fun e => e.2.handler)
          = inbound.map (fun i => handlerFor i.msg.Kind) := by
  induction inbound with
  | nil => intro st; exact ⟨rfl, rfl⟩
  | cons i rest ih =>
    intro st
    obtain ⟨h1, h2⟩ := ih (chatProcessorStep write json jsonStatus ttl st i).1
    simp only [ChatProcessor, List.map_cons, h1, h2, chatProcessorStep_handler]
    exact ⟨trivial, trivial⟩

/-- C26. For every state and every sequence of messages received from the
read channel, the chat processor handles each message exactly once, in arrival
order, with the handler its kind selects: a `status` message is handed to
`userOnlineStatus`, a `chat` message to `sendChat`, an `ack` message to
`sendChatAck`, each in the state the messages before it left, and the state
after the message is the one that call leaves; a message of any other kind
changes nothing. This holds whether or not the handlers of earlier messages
returned an error: a sequence split in two is processed as its first part
followed by its second part from the state after the first. -/
theorem ChatProcessor_dispatch {σ : Type} (write : σ → Nat → String → Option String × σ)
    (json : Frame → String) (jsonStatus : UserStatus → String) (ttl : Int)
    (st : ChatState σ) (inbound : List Inbound) :
    (ChatProcessor write json jsonStatus ttl st inbound).2.map Prod.fst
        = inbound.map (fun i => i.msg)
      ∧ (ChatProcessor write json jsonStatus ttl st inbound).2.map (fun e => e.2.handler)
        = inbound.map (fun i => handlerFor i.msg.Kind)
      ∧ (∀ a i b, inbound = a ++ i :: b →
          (ChatProcessor write json jsonStatus ttl st inbound).2.get? a.length
            = some (i.msg, (chatProcessorStep write json jsonStatus ttl
                (ChatProcessor write json jsonStatus ttl st a).1 i).2)
          ∧ (ChatProcessor write json jsonStatus ttl st inbound).1
            = (ChatProcessor write json jsonStatus ttl
                (chatProcessorStep write json jsonStatus ttl
                  (ChatProcessor write json jsonStatus ttl st a).1 i).1 b).1)
      ∧ (∀ (s : ChatState σ) (i : Inbound), handlerFor i.msg.Kind = none →
          (chatProcessorStep write json jsonStatus ttl s i).1 = s)
      ∧ (∀ (s : ChatState σ) (i : Inbound), i.msg.Kind = "status" →
          chatProcessorStep write json jsonStatus ttl s i
            = ({ s with
                 ws := (userOnlineStatus write jsonStatus i.now s.ws s.world i.msg).push.socket,
                 world := (userOnlineStatus write jsonStatus i.now s.ws s.world i.msg).push.world },
               Handled.status (userOnlineStatus write jsonStatus i.now s.ws s.world i.msg)))
      ∧ (∀ (s : ChatState σ) (i : Inbound), i.msg.Kind = "chat" →
          chatProcessorStep write json jsonStatus ttl s i
            = ((sendChat write json i.blocked ttl i.uuid i.batchOk s i.msg).state,
               Handled.chat (sendChat write json i.blocked ttl i.uuid i.batchOk s i.msg)))
      ∧ (∀ (s : ChatState σ) (i : Inbound), i.msg.Kind = "ack" →
          chatProcessorStep write json jsonStatus ttl s i
            = ((sendChatAck write json i.ackOk i.seenOk s i.msg).state,
               Handled.ack (sendChatAck write json i.ackOk i.seenOk s i.msg)))
      ∧ (∀ (s : ChatState σ) (i : Inbound), handlerFor i.msg.Kind = none →
          chatProcessorStep write json jsonStatus ttl s i = (s, Handled.ignored)) := by
  obtain ⟨h1, h2⟩ := ChatProcessor_log write json jsonStatus ttl inbound st
  have hother : ∀ (s : ChatState σ) (i : Inbound), handlerFor i.msg.Kind = none →
      chatProcessorStep write json jsonStatus ttl s i = (s, Handled.ignored) := by
    intro s i hnone
    unfold handlerFor at hnone
    have hk : ¬ (i.msg.Kind = "status" ∨ i.msg.Kind = "chat" ∨ i.msg.Kind = "ack") := by
      intro hk
      simp [hk] at hnone
    simp only [not_or] at hk
    simp [chatProcessorStep, UserChatStatusKind, UserChatMsgKind, UserChatAckKind, hk.1, hk.2.1,
      hk.2.2]
  refine ⟨h1, h2, ?_, ?_, ?_, ?_, ?_, hother⟩
  · intro a i b hsplit
    subst hsplit
    rw [ChatProcessor_append]
    have hlen : (ChatProcessor write json jsonStatus ttl st a).2.length = a.length := by
      have := congrArg List.length (ChatProcessor_log write json jsonStatus ttl a st).1
      simpa using this
    constructor
    · simp only [ChatProcessor]
      rw [List.get?_eq_getElem?, List.getElem?_append_right (by omega)]
      simp [hlen]
    · simp only [ChatProcessor]
  · intro s i hnone
    rw [hother s i hnone]
  · intro s i hk
    simp [chatProcessorStep, UserChatStatusKind, hk]
  · intro s i hk
    simp [chatProcessorStep, UserChatStatusKind, UserChatMsgKind, hk]
  · intro s i hk
    simp [chatProcessorStep, UserChatStatusKind, UserChatMsgKind, UserChatAckKind, hk]

/-- C26 on `exampleInbound` from `chatStateLog`, in a world that lists the
writes made: the chat of carol is handled first and its handler returns an
error (carol has no connection for the auto-ack); the presence request, the
frame of unknown kind and the ack are still handled, in that order, the
unknown kind by no handler. The writes are the chat frame to bob, then the
status frame to alice, then the ack frame to alice, and the row of the chat is
in the table. -/
theorem ChatProcessor_dispatch_witness :
    (ChatProcessor writeLog showFrame showStatus 604800 chatStateLog exampleInbound).2.map
          (fun e => e.2.handler)
        = [some "chat", some "status", none, some "ack"]
      ∧ (ChatProcessor writeLog showFrame showStatus 604800 chatStateLog exampleInbound).2.map
          (fun e => (e.1.Kind, e.2.failed))
        = [("chat", true), ("status", false), ("typing", false), ("ack", false)]
      ∧ (ChatProcessor writeLog showFrame showStatus 604800 chatStateLog exampleInbound).1.world
        = [(2, "chat 123e4567-e89b-42d3-a456-426614174000 hello"),
           (1, "status algorand bob true"),
           (1, "resp 123e4567-e89b-42d3-a456-426614174000 ack")]
      ∧ ((ChatProcessor writeLog showFrame showStatus 604800 chatStateLog exampleInbound).1.table
          "algorand" "carol" "bob" 100).map (fun row => row.Status) = some "delivered" :=
  ⟨(ChatProcessor_dispatch writeLog showFrame showStatus 604800 chatStateLog
      exampleInbound).2.1.trans (by decide), by decide, by decide, by decide⟩

/-! ## The blocked chat and the store -/

/-- C24, as stated, fails. Bob has blocked alice; alice's chat to bob calls
`StorePersonalChat` not at all and leaves no row under either direction of the
conversation, while the same chat with nobody blocked leaves the row with
status `delivered`. -/
theorem sendChat_blocked_persist_counterexample :
    IsBlockedUserInCache bobBlocksAlice chatMsg.Chain chatMsg.Receiver chatMsg.Sender = true
      ∧ (sendChat writeOk showFrame bobBlocksAlice 604800 serverUuid true chatState
          chatMsg).effects.any Effect.isStore = false
      ∧ (sendChat writeOk showFrame bobBlocksAlice 604800 serverUuid true chatState
          chatMsg).state.table "algorand" "alice" "bob" 100 = none
      ∧ (sendChat writeOk showFrame bobBlocksAlice 604800 serverUuid true chatState
          chatMsg).state.table "algorand" "bob" "alice" 100 = none
      ∧ ((sendChat writeOk showFrame BlockedUserCacheModel.empty 604800 serverUuid true chatState
          chatMsg).state.table "algorand" "alice" "bob" 100).map (fun row => row.Status)
        = some "delivered" := by
  refine ⟨?_, ?_, ?_, ?_, ?_⟩ <;> decide

/-- C24, amended. For every chat message whose receiver has blocked its
sender, `sendChat` persists nothing: it makes no call of `StorePersonalChat`
and leaves the chat table as it was. The status `blocked` is carried by the
auto-ack frame pushed to the sender only. -/
theorem sendChat_blocked_stores_nothing {σ : Type}
    (write : σ → Nat → String → Option String × σ) (json : Frame → String)
    (blocked : BlockedUserCacheModel) (ttl : Int) (uuid : String) (batchOk : Bool)
    (st : ChatState σ) (msg : Message)
    (h : IsBlockedUserInCache blocked msg.Chain msg.Receiver msg.Sender = true) :
    (∀ chat t, Effect.store chat t ∉ (sendChat write json blocked ttl uuid batchOk st msg).effects)
      ∧ (sendChat write json blocked ttl uuid batchOk st msg).state.table = st.table
      ∧ ∃ err, Effect.push (FormatIdentifier msg.Chain msg.Sender)
          (Frame.resp { Uuid := uuid, Status := MsgBlocked, Sender := "", Time := 0 }) true err
          ∈ (sendChat write json blocked ttl uuid batchOk st msg).effects := by
  obtain ⟨h1, h2, _⟩ := sendChat_effects_blocked write json blocked ttl uuid batchOk st msg h
  refine ⟨?_, h2, ?_⟩
  · intro chat t hmem
    rw [h1] at hmem
    simp at hmem
  · rw [h1]
    exact ⟨_, List.mem_singleton.mpr rfl⟩

/-- C24, amended, when bob has blocked alice: the table after alice's chat to
bob is the empty table of `chatState`. -/
theorem sendChat_blocked_stores_nothing_witness :
    (sendChat writeOk showFrame bobBlocksAlice 604800 serverUuid true chatState
        chatMsg).state.table = chatState.table :=
  (sendChat_blocked_stores_nothing writeOk showFrame bobBlocksAlice 604800 serverUuid true
    chatState chatMsg (by decide)).2.1

/-! ## The length check on characters of more than one byte -/

/-- C25 at a message of 61 accented letters sent by a free-tier sender (limit
120): the message has 61 characters and 122 bytes, and the call returns the
error of the text length check with no effect, while the same request with 61
plain letters is sent. -/
theorem SendNotifications_multibyte_rejected :
    accentedMessage.length = 61
      ∧ accentedMessage.utf8ByteSize = 122
      ∧ NotificationCharacterCount (tierOf exampleEnv (exampleUser "sender" false)) = 120
      ∧ SendNotifications exampleEnv exampleFormatTime accentedRequest
        = SendOutcome.fail (SendError.textTooLong 120)
      ∧ (SendNotifications exampleEnv exampleFormatTime
          { publicRequest with Message := String.mk (List.replicate 61 (Char.ofNat 101)) }).err
        = none := by
  refine ⟨?_, ?_, ?_, ?_, ?_⟩ <;> decide

/-! ## The workers on a receiver without metadata -/

/-- C23 at a `png` image of 50 by 50 pixels and eight bytes, validated against
bounds of 25 by 25 pixels, 256 KB and the types `png`, `jpg`, `jpeg`:
`ValidateImage` returns no error, and for every input its result is the same
whatever the two bounds are. -/
theorem ValidateImage_ignores_bounds :
    exampleImageDecode [137, 80, 78, 71, 13, 10, 26, 10]
        = Except.ok ({ MaxX := 50, MaxY := 50 }, "png")
      ∧ ValidateImage exampleDecodeString exampleImageDecode "logo" 25 25 256
          ["png", "jpg", "jpeg"] = none
      ∧ ∀ (decodeString : String → Except String (List Nat))
          (imageDecode : List Nat → Except String (DecodedImage × String)) (data : String)
          (xMax yMax maxSizeInKB : Int) (supportedTypes : List String),
          ValidateImage decodeString imageDecode data xMax yMax maxSizeInKB supportedTypes
            = ValidateImage decodeString imageDecode data 0 0 maxSizeInKB supportedTypes := by
  refine ⟨rfl, by decide, ?_⟩
  intro decodeString imageDecode data xMax yMax maxSizeInKB supportedTypes
  rfl

/-! ## The promoter -/

theorem scheduledInserts_append (a b : List NotifEffect) :
    scheduledInserts (a ++ b) = scheduledInserts a ++ scheduledInserts b := by
  induction a with
  | nil => rfl
  | cons e a ih => cases e <;> simp [scheduledInserts, ih]

theorem scheduledInserts_deliver (env : NotifEnv) (formatTime : Int → String)
    (chain receiver : String) (n : Notification) :
    scheduledInserts (deliver env formatTime chain receiver n) = [] := by
  unfold deliver
  simp only [scheduledInserts_append]
  split <;> split <;> simp [scheduledInserts]

theorem scheduledInserts_sendOne (env : NotifEnv) (formatTime : Int → String)
    (request : NotificationRequest) (uuid : String) (now ttl : Int) (ch : ChannelModel)
    (receiver : String) :
    scheduledInserts (sendOne env formatTime request uuid now ttl ch receiver).1 = [] := by
  rcases sendOne_cases env formatTime request uuid now ttl ch receiver with h | ⟨n, h⟩ | ⟨n, h⟩
  · rw [h]; rfl
  · rw [h]; rfl
  · rw [h]
    simp only [scheduledInserts_append, scheduledInserts_deliver]
    rfl

theorem scheduledInserts_sendLoop (env : NotifEnv) (formatTime : Int → String)
    (request : NotificationRequest) (uuid : String) (now ttl : Int) (ch : ChannelModel)
    (receivers : List String) :
    scheduledInserts (sendLoop env formatTime request uuid now ttl ch receivers).1 = [] := by
  rw [sendLoop_eq]
  induction receivers with
  | nil => rfl
  | cons r rest ih =>
    simp only [List.flatMap_cons, scheduledInserts_append, scheduledInserts_sendOne] at ih ⊢
    exact ih

theorem scheduledInserts_sendResolved (env : NotifEnv) (formatTime : Int → String)
    (request : NotificationRequest) (membership ttl : Int) (ch : ChannelModel)
    (receivers : List String) :
    scheduledInserts (sendResolved env formatTime request membership ttl ch receivers).effects
      = [] := by
  by_cases hne : receivers = []
  · subst hne
    rw [sendResolved_nil]
    rfl
  · rcases hm : env.GetUserSendMetricsForMonth request.Chain request.Sender with e | totalSent
    · rw [sendResolved_metrics_error env formatTime request membership ttl ch receivers e hne hm]
      rfl
    · by_cases hq : (receivers.length : Int) > remainingQuota membership totalSent
      · rw [sendResolved_quota env formatTime request membership ttl ch receivers totalSent hm hq]
        rfl
      · rw [sendResolved_loop env formatTime request membership ttl ch receivers totalSent hne hm
          (by omega)]
        simp only [scheduledInserts_append, scheduledInserts_sendLoop]
        rfl

/-- A call of `SendNotifications` without schedule inserts no scheduled
row. -/
theorem scheduledInserts_immediate (env : NotifEnv) (formatTime : Int → String)
    (request : NotificationRequest) (hs : request.Schedule = zeroTime) :
    scheduledInserts (SendNotifications env formatTime request).effects = [] := by
  rw [SendNotifications_immediate env formatTime request hs]
  cases env.GetUserModel request.Chain request.Sender with
  | error e => rfl
  | ok u =>
    simp only
    split
    · rfl
    · split
      · rfl
      · cases env.GetChannel request.Chain request.Channel with
        | error e => rfl
        | ok ch =>
          simp only
          split
          · rfl
          · split
            · rfl
            · split
              · rfl
              · cases resolvedReceivers env request with
                | error e => rfl
                | ok receivers => exact scheduledInserts_sendResolved _ _ _ _ _ _ _

theorem promoteOne_calls (p : PromoterEnv) (acc : PromoterOutcome)
    (request : NotificationRequest) :
    (promoteOne p acc request).calls
      = acc.calls ++ [({ request with Schedule := zeroTime },
          SendNotifications (p.SendEnv request) p.FormatTime
            { request with Schedule := zeroTime })] := by
  unfold promoteOne
  simp only
  split
  · rfl
  · split <;> rfl

theorem promoteOne_table (p : PromoterEnv) (acc : PromoterOutcome)
    (request : NotificationRequest) (row : ScheduledRow) :
    row ∈ (promoteOne p acc request).table
      ↔ row ∈ acc.table
        ∧ (promoted p request = true →
            ¬ (row.chain = request.Chain ∧ row.schedule = request.Schedule)) := by
  unfold promoteOne promoted
  simp only
  rcases hs : (SendNotifications (p.SendEnv request) p.FormatTime
      { request with Schedule := zeroTime }).err with _ | e
  · rcases hd : p.DeleteErr request.Chain request.Schedule with _ | e
    · simp only [List.mem_filter, Option.isNone_none, Bool.and_self, forall_true_left,
        Bool.not_eq_true', decide_eq_false_iff_not]
    · simp
  · simp

theorem promoter_calls (p : PromoterEnv) (requests : List NotificationRequest) :
    ∀ acc : PromoterOutcome,
      (requests.foldl (promoteOne p) acc).calls
        = acc.calls ++ requests.map (fun request =>
            ({ request with Schedule := zeroTime },
              SendNotifications (p.SendEnv request) p.FormatTime
                { request with Schedule := zeroTime })) := by
  induction requests with
  | nil => intro acc; simp
  | cons r rest ih =>
    intro acc
    simp only [List.foldl_cons, ih, promoteOne_calls, List.map_cons, List.append_assoc,
      List.singleton_append]

theorem promoter_table (p : PromoterEnv) (requests : List NotificationRequest)
    (row : ScheduledRow) :
    ∀ acc : PromoterOutcome,
      row ∈ (requests.foldl (promoteOne p) acc).table
        ↔ row ∈ acc.table
          ∧ ∀ request ∈ requests, promoted p request = true →
              ¬ (row.chain = request.Chain ∧ row.schedule = request.Schedule) := by
  induction requests with
  | nil => intro acc; simp
  | cons r rest ih =>
    intro acc
    simp only [List.foldl_cons, ih, promoteOne_table, List.mem_cons, forall_eq_or_imp, and_assoc]

theorem mem_dueRequests (p : PromoterEnv) (table : List ScheduledRow)
    (request : NotificationRequest) :
    request ∈ dueRequests p table
      ↔ ∃ row ∈ table, row.chain ∈ p.Supported ∧ p.FetchErr row.chain = none
          ∧ row.schedule ≤ p.TimeNow row.chain + 30000000000
          ∧ request = row.toRequest row.chain := by
  unfold dueRequests GetScheduledNotificationInfo
  simp only [List.mem_flatMap]
  constructor
  · rintro ⟨chain, hchain, hmem⟩
    rcases hf : p.FetchErr chain with _ | e
    · simp only [hf, List.mem_map, List.mem_filter, decide_eq_true_eq] at hmem
      obtain ⟨row, ⟨hrow, hc, hle⟩, rfl⟩ := hmem
      subst hc
      exact ⟨row, hrow, hchain, hf, by omega, rfl⟩
    · simp [hf] at hmem
  · rintro ⟨row, hrow, hchain, hf, hle, rfl⟩
    refine ⟨row.chain, hchain, ?_⟩
    simp only [hf, List.mem_map, List.mem_filter, decide_eq_true_eq]
    exact ⟨row, ⟨hrow, rfl, by omega⟩, rfl⟩

/-- C21. For every run of the promoter and every request it fetched as due (a
row of a supported chain whose fetch succeeded, scheduled at most 30 seconds
after now), the run calls `SendNotifications` on the request with the
schedule cleared, that call inserts no scheduled row, and when the call
returns no error and the delete executes, no row with the chain, schedule and
sender of the request is in the table after the run. The run adds no row to
the table. -/
theorem notificationScheduler_promotes (p : PromoterEnv) (table : List ScheduledRow)
    (request : NotificationRequest) (hdue : request ∈ dueRequests p table) :
    (∃ row ∈ table, row.chain ∈ p.Supported ∧ p.FetchErr row.chain = none
        ∧ row.schedule ≤ p.TimeNow row.chain + 30000000000
        ∧ request = row.toRequest row.chain)
      ∧ ({ request with Schedule := zeroTime },
          SendNotifications (p.SendEnv request) p.FormatTime
            { request with Schedule := zeroTime }) ∈ (notificationScheduler p table).calls
      ∧ (∀ call ∈ (notificationScheduler p table).calls,
          call.1.Schedule = zeroTime ∧ scheduledInserts call.2.effects = [])
      ∧ (∀ row ∈ (notificationScheduler p table).table, row ∈ table)
      ∧ ((SendNotifications (p.SendEnv request) p.FormatTime
            { request with Schedule := zeroTime }).err = none →
          p.DeleteErr request.Chain request.Schedule = none →
          ∀ row ∈ (notificationScheduler p table).table,
            ¬ (row.chain = request.Chain ∧ row.schedule = request.Schedule
                ∧ row.sender = request.Sender)) := by
  have hcalls := promoter_calls p (dueRequests p table) { table := table, calls := [], deletes := [] }
  refine ⟨(mem_dueRequests p table request).mp hdue, ?_, ?_, ?_, ?_⟩
  · unfold notificationScheduler
    rw [hcalls]
    simp only [List.nil_append, List.mem_map]
    exact ⟨request, hdue, rfl⟩
  · intro call hcall
    unfold notificationScheduler at hcall
    rw [hcalls] at hcall
    simp only [List.nil_append, List.mem_map] at hcall
    obtain ⟨r, _, rfl⟩ := hcall
    exact ⟨rfl, scheduledInserts_immediate _ _ _ rfl⟩
  · intro row hrow
    exact ((promoter_table p (dueRequests p table) row _).mp hrow).1
  · intro hsend hdel row hrow hkey
    have h := ((promoter_table p (dueRequests p table) row _).mp hrow).2 request hdue
      (by simp [promoted, hsend, hdel])
    exact h ⟨hkey.1, hkey.2.1⟩

/-- C21 on `exampleScheduled` with `examplePromoter`: the row of `sender` is
fetched as due; every call of the run has the schedule cleared and inserts no
scheduled row, and the row of `sender`, whose call and delete succeed, is not
in the table after the run. -/
theorem notificationScheduler_promotes_witness :
    (∀ call ∈ (notificationScheduler examplePromoter exampleScheduled).calls,
        call.1.Schedule = zeroTime ∧ scheduledInserts call.2.effects = [])
      ∧ ∀ row ∈ (notificationScheduler examplePromoter exampleScheduled).table,
          ¬ (row.chain = "algorand" ∧ row.schedule = 1700000010000000000
              ∧ row.sender = "sender") := by
  have h := notificationScheduler_promotes examplePromoter exampleScheduled
    { Chain := "algorand", Sender := "sender", Receivers := [], Message := "hello",
      Link := "", Channel := "app1", Kind := "public", Schedule := 1700000010000000000,
      Hash := "" }
    (by decide)
  exact ⟨h.2.2.1, h.2.2.2.2 (by decide) (by decide)⟩

/-- C22 on `exampleScheduled` with `examplePromoter`: the rows of `sender` and
of `carol` have the same chain and schedule. The call for `carol` fails (the
lookup of the sender times out) and the call for `sender` succeeds, whose
delete, by chain and schedule alone, removes the row of `carol` as well: the
table after the run is empty, where the delete by chain, schedule and sender
of `DeleteScheduledNotificationInfo` leaves the row of `carol`. -/
theorem notificationScheduler_loses_failed_row :
    (notificationScheduler examplePromoter exampleScheduled).calls.map
          (fun call => (call.1.Sender, call.2.err))
        = [("sender", none), ("carol", some (SendError.getUserModel "timeout"))]
      ∧ (notificationScheduler examplePromoter exampleScheduled).deletes
        = [("algorand", 1700000010000000000)]
      ∧ (notificationScheduler examplePromoter exampleScheduled).table = []
      ∧ (DeleteScheduledNotificationInfo exampleScheduled "algorand" "sender"
          1700000010000000000).map (fun row => row.sender) = ["carol"] := by
  refine ⟨?_, ?_, ?_, ?_⟩ <;> decide

/-! ## The monthly quota and the lookup of the send metrics -/

/-- C12 at the public request in `twoDayEnv`: the sender has sent 1000
notifications this month, so none is left of the 1000 of the free tier and the
three receivers exceed the remaining quota. The lookup returns 1, the sum of
the latest day alone, and the call returns no error and writes the three
rows. -/
theorem SendNotifications_quota_reads_one_day :
    sentThisMonth twoDayEnv.SendMetrics twoDayEnv.MonthStart twoDayEnv.MonthEnd "algorand"
        "sender" = 1000
      ∧ remainingQuota (tierOf twoDayEnv (exampleUser "sender" false)) 1000 = 0
      ∧ twoDayEnv.GetUserSendMetricsForMonth "algorand" "sender" = Except.ok 1
      ∧ (SendNotifications twoDayEnv exampleFormatTime publicRequest).err = none
      ∧ (persistedRows (SendNotifications twoDayEnv exampleFormatTime publicRequest).effects).map
          (fun n => n.Receiver) = ["u1", "u2", "u3"] := by
  refine ⟨by decide, by decide, rfl, by decide, by decide⟩

/-- C30 at the public request in `twoDayEnv`: the monthly total of the sender
is 1000 before the call, within the 1000 of the free tier. The call passes the
quota check (the lookup returns the sum of the latest day), records the count
3, and with the row of that count the monthly total is 1003. -/
theorem SendNotifications_month_total_exceeded :
    sentThisMonth twoDayEnv.SendMetrics "2023-11-01" "2023-11-30" "algorand" "sender" = 1000
      ∧ NotificationCount (tierOf twoDayEnv (exampleUser "sender" false)) = 1000
      ∧ recordedSendMetrics
          (SendNotifications twoDayEnv exampleFormatTime publicRequest).effects = [3]
      ∧ sentThisMonth
          (InsertUserSendMetrics twoDayEnv.SendMetrics publicRequest twoDayEnv.TimeNow
            "2023-11-14" 3)
          "2023-11-01" "2023-11-30" "algorand" "sender" = 1003 := by
  refine ⟨by decide, by decide, by decide, by decide⟩

end Notiboy
